import Mathlib

/-!
Verification of the `ChurnKnowledgeGraph` component
(`src/core/knowledge_graph.py`) against its specification.

The Python class is shallowly embedded: a pandas DataFrame row becomes a
`Row` record (a cell that may hold a string, a number or NaN becomes `Cell`
or `Option`-typed fields), the NetworkX `DiGraph` becomes `Graph` (an
insertion-ordered association list of attributed nodes and of attributed
directed edges, with NetworkX's attribute-merging `add_node` / `add_edge`
semantics), and each method of the class becomes a Lean function of the
same name.  Python floats are modelled as rationals (`Rat`); Python's
`float(str)` parser is modelled by `pyFloat` over the ASCII
sign / digit / underscore / decimal-point / exponent forms (the IEEE
special spellings "inf" / "infinity" / "nan", which denote values outside
the rational model, are recognised by `isSpecialFloatStr` and kept outside
every theorem's hypotheses).  Python `str.replace`, `str.split`,
`str.strip` and `str.startswith` are modelled by `pyReplace`, `pySplit`,
`pyStrip` and `pyStartswith` on the character lists underlying `String`.
`pickle.dump` / `pickle.load` of the graph are modelled as the identity on
`Graph` (the spec's §4.3 contract: serialization captures the full
node/edge/attribute structure losslessly).
-/

set_option maxRecDepth 100000

/-! ## Python string primitives -/

/-- Scanner for Python `str.replace`: while `skip` is positive the character
belongs to an already-matched occurrence and is dropped; at `skip = 0` a
leftmost occurrence of the nonempty pattern `p :: ps` emits the replacement
and schedules the pattern's tail length for dropping. -/
def replaceScan (p : Char) (ps rep : List Char) : Nat → List Char → List Char
  | _, [] => []
  | skip + 1, _ :: cs => replaceScan p ps rep skip cs
  | 0, c :: cs =>
    if (p :: ps).isPrefixOf (c :: cs) then rep ++ replaceScan p ps rep ps.length cs
    else c :: replaceScan p ps rep 0 cs

/-- Python `str.replace(pat, rep)` on character lists: leftmost,
non-overlapping replacement of every occurrence of the nonempty pattern
`p :: ps`. -/
def replaceAllL (p : Char) (ps rep : List Char) (s : List Char) : List Char :=
  replaceScan p ps rep 0 s

/-- Python `s.replace(pat, rep)` (all occurrences); an empty pattern is never
used by the embedded code and is mapped to the identity. -/
def pyReplace (s pat rep : String) : String :=
  match pat.data with
  | [] => s
  | p :: ps => String.mk (replaceAllL p ps rep.data s.data)

/-- Python `s.split(sep)` for a one-character separator: `"".split(,) = [""]`,
`"a,".split(,) = ["a", ""]`. -/
def splitOnChar (sep : Char) : List Char → List (List Char)
  | [] => [[]]
  | c :: cs =>
    let r := splitOnChar sep cs
    if c = sep then [] :: r
    else
      match r with
      | h :: t => (c :: h) :: t
      | [] => [[c]]

/-- Python `s.split(sep)` on `String`. -/
def pySplit (s : String) (sep : Char) : List String :=
  (splitOnChar sep s.data).map String.mk

/-- Python `s.strip()`: drop whitespace from both ends. -/
def pyStrip (s : String) : String :=
  String.mk (((s.data.dropWhile Char.isWhitespace).reverse.dropWhile Char.isWhitespace).reverse)

/-- Python `s.startswith(pre)`. -/
def pyStartswith (s pre : String) : Bool :=
  pre.data.isPrefixOf s.data

/-! ## Python `float(str)` over the rational model -/

/-- Decimal value of a digit list (most significant first). -/
def digitsVal (cs : List Char) : Nat :=
  cs.foldl (fun n c => 10 * n + (c.toNat - 48)) 0

/-- Consume a Python numeric-literal digit group: digits with underscores
allowed only between digits (`1_000` reads as `1000`; a leading, trailing or
doubled underscore stops the group).  `seen` records whether a digit was
already consumed.  Returns (digits with underscores removed, rest). -/
def takeDigitsU : Bool → List Char → List Char × List Char
  | _, [] => ([], [])
  | seen, c :: rest =>
    if c.isDigit then
      let (ds, r) := takeDigitsU true rest
      (c :: ds, r)
    else if c = '_' ∧ seen then
      match rest with
      | d :: _ => if d.isDigit then takeDigitsU true rest else ([], c :: rest)
      | [] => ([], c :: rest)
    else ([], c :: rest)

/-- The rational denoted by sign, integer digits, fraction digits and decimal
exponent: `sgn * ip.fp * 10^e`. -/
def ratOfParts (sgn : Int) (ip fp : List Char) (e : Int) : Rat :=
  let mant : Int := sgn * ((digitsVal ip) * 10 ^ fp.length + digitsVal fp)
  (mant : Rat) * (10 : Rat) ^ (e - (fp.length : Int))

/-- Python `float(s)` for finite decimal forms: optional surrounding
whitespace, optional sign, digits with optional decimal point and optional
exponent, underscores between digits.  `none` models `ValueError`.  The IEEE
special spellings (`inf`, `infinity`, `nan`, any case, optional sign) denote
non-rational values; they also map to `none` here and every theorem about
malformed input excludes them through `isSpecialFloatStr`. -/
def pyFloat (s : String) : Option Rat :=
  let cs0 := s.data.dropWhile Char.isWhitespace
  let cs1 := (cs0.reverse.dropWhile Char.isWhitespace).reverse
  let sgnAnd : Int × List Char :=
    match cs1 with
    | '-' :: r => (-1, r)
    | '+' :: r => (1, r)
    | _ => (1, cs1)
  let sgn := sgnAnd.1
  let (ip, cs3) := takeDigitsU false sgnAnd.2
  let fpAnd : List Char × List Char :=
    match cs3 with
    | '.' :: r => takeDigitsU false r
    | _ => ([], cs3)
  let fp := fpAnd.1
  if ip.isEmpty && fp.isEmpty then none
  else
    match fpAnd.2 with
    | [] => some (ratOfParts sgn ip fp 0)
    | c :: r =>
      if c = 'e' ∨ c = 'E' then
        let esgnAnd : Int × List Char :=
          match r with
          | '-' :: r2 => (-1, r2)
          | '+' :: r2 => (1, r2)
          | _ => (1, r)
        let (ed, r3) := takeDigitsU false esgnAnd.2
        if ed.isEmpty then none
        else
          match r3 with
          | [] => some (ratOfParts sgn ip fp (esgnAnd.1 * (digitsVal ed : Int)))
          | _ => none
      else none

/-- Whether `s` (after stripping whitespace and an optional sign) spells one
of Python's IEEE special float literals, case-insensitively. -/
def isSpecialFloatStr (s : String) : Bool :=
  let cs0 := s.data.dropWhile Char.isWhitespace
  let cs1 := (cs0.reverse.dropWhile Char.isWhitespace).reverse
  let cs2 :=
    match cs1 with
    | '-' :: r => r
    | '+' :: r => r
    | _ => cs1
  let w := cs2.map Char.toLower
  w = "inf".data ∨ w = "infinity".data ∨ w = "nan".data

/-! ## The tabular data model -/

/-- A pandas cell of the `Amount` column: a string, a (float) number, or NaN. -/
inductive Cell where
  | str (s : String)
  | num (q : Rat)
  | nanv
deriving DecidableEq

/-- One DataFrame row of the churned-customers table with the columns the
builder reads.  String-or-NaN columns are `Option String` (`none` = NaN);
`Tenure (years)` is `Option Rat`; the two date columns carry raw strings
(their values are stored untouched and read by no query). -/
structure Row where
  accountName : String
  amount : Cell
  segment : Option String
  tenure : Option Rat
  closeDate : String
  firstWinDate : String
  products : Option String
  primaryReason : Option String
  subReason : Option String
  comp1 : Option String
  comp2 : Option String
  lostOppDetails : Option String
deriving DecidableEq

/-! ## The graph model (NetworkX `DiGraph` with attribute dictionaries) -/

/-- A node's attribute dictionary: `none` = key absent.  `segment` holds the
raw `Account Segment` cell (whose value may itself be NaN), so its present
value is an `Option String`. -/
structure NodeData where
  type : Option String := none
  segment : Option (Option String) := none
  tenure_years : Option Rat := none
  arr_lost : Option Rat := none
  churn_date : Option String := none
  first_win_date : Option String := none
  products : Option String := none
  churn_narrative : Option String := none
  name : Option String := none
  reason_type : Option String := none
deriving DecidableEq

/-- One key of `dict.update`: the new value when the key is present in the
update, else the old one. -/
def updOpt {α : Type} (old new : Option α) : Option α :=
  match new with
  | some v => some v
  | none => old

/-- `dict.update` on node attributes: keys present in `new` overwrite. -/
def NodeData.merge (old new : NodeData) : NodeData where
  type := updOpt old.type new.type
  segment := updOpt old.segment new.segment
  tenure_years := updOpt old.tenure_years new.tenure_years
  arr_lost := updOpt old.arr_lost new.arr_lost
  churn_date := updOpt old.churn_date new.churn_date
  first_win_date := updOpt old.first_win_date new.first_win_date
  products := updOpt old.products new.products
  churn_narrative := updOpt old.churn_narrative new.churn_narrative
  name := updOpt old.name new.name
  reason_type := updOpt old.reason_type new.reason_type

/-- An edge's attribute dictionary.  `relationship` and `type` are set by
every `add_edge` call of the source; `churn_date` only by the primary-reason
edge. -/
structure EdgeData where
  relationship : String
  type : String
  churn_date : Option String := none
deriving DecidableEq

/-- `dict.update` on edge attributes. -/
def EdgeData.merge (old new : EdgeData) : EdgeData where
  relationship := new.relationship
  type := new.type
  churn_date := updOpt old.churn_date new.churn_date

/-- A NetworkX `DiGraph`: insertion-ordered nodes (unique string ids with
attribute dicts) and directed edges (unique (source, target) pairs with
attribute dicts). -/
structure Graph where
  nodes : List (String × NodeData) := []
  edges : List (String × String × EdgeData) := []
deriving DecidableEq

/-- `node_id in graph`. -/
def Graph.hasNode (g : Graph) (id : String) : Prop :=
  ∃ d, (id, d) ∈ g.nodes

instance (g : Graph) (id : String) : Decidable (g.hasNode id) :=
  decidable_of_iff (∃ p ∈ g.nodes, p.1 = id) (by
    constructor
    · rintro ⟨⟨i, d⟩, hm, h⟩
      subst h
      exact ⟨d, hm⟩
    · rintro ⟨d, hm⟩
      exact ⟨(id, d), hm, rfl⟩)

/-- The node's attribute dict, if the node exists. -/
def Graph.nodeData (g : Graph) (id : String) : Option NodeData :=
  (g.nodes.find? (fun p => p.1 = id)).map (fun p => p.2)

/-- `G.add_node(id, **d)`: update (merge) in place if present, else append. -/
def Graph.addNode (g : Graph) (id : String) (d : NodeData) : Graph :=
  if g.nodes.any (fun p => p.1 = id) then
    { g with nodes := g.nodes.map (fun p => if p.1 = id then (p.1, p.2.merge d) else p) }
  else
    { g with nodes := g.nodes ++ [(id, d)] }

/-- NetworkX `add_edge` first materialises missing endpoints as nodes with an
empty attribute dict. -/
def Graph.ensureNode (g : Graph) (id : String) : Graph :=
  if g.nodes.any (fun p => p.1 = id) then g
  else { g with nodes := g.nodes ++ [(id, {})] }

/-- `G.add_edge(u, v, **d)`: make endpoints exist, then merge the attribute
dict of the (unique) directed edge `u → v`. -/
def Graph.addEdge (g : Graph) (u v : String) (d : EdgeData) : Graph :=
  let g1 := (g.ensureNode u).ensureNode v
  if g1.edges.any (fun e => e.1 = u ∧ e.2.1 = v) then
    { g1 with
      edges := g1.edges.map (fun e =>
        if e.1 = u ∧ e.2.1 = v then (e.1, e.2.1, e.2.2.merge d) else e) }
  else
    { g1 with edges := g1.edges ++ [(u, v, d)] }

/-- `G.neighbors(u)` with each successor's edge data (adjacency insertion
order). -/
def Graph.nbrsOut (g : Graph) (u : String) : List (String × EdgeData) :=
  g.edges.filterMap (fun e => if e.1 = u then some (e.2.1, e.2.2) else none)

/-- `G.predecessors(v)` (insertion order). -/
def Graph.predsOf (g : Graph) (v : String) : List String :=
  g.edges.filterMap (fun e => if e.2.1 = v then some e.1 else none)

/-! ## The knowledge-graph instance state -/

/-- The `entity_types` index: one identifier set per entity type, modelled as
insertion-ordered duplicate-free lists (Python sets; the only observations
the source makes are membership and size). -/
structure EntityTypes where
  customer : List String := []
  segment : List String := []
  churnReason : List String := []
  competitor : List String := []
  product : List String := []
deriving DecidableEq

/-- `set.add`. -/
def addToSet (l : List String) (x : String) : List String :=
  if x ∈ l then l else l ++ [x]

/-- `self.entity_types[t].add(x)` for a type-key `t`; a key outside the five
fixed ones leaves the index unchanged (the source only ever uses the five). -/
def EntityTypes.addByType (ets : EntityTypes) (t x : String) : EntityTypes :=
  if t = "Customer" then { ets with customer := addToSet ets.customer x }
  else if t = "Segment" then { ets with segment := addToSet ets.segment x }
  else if t = "ChurnReason" then { ets with churnReason := addToSet ets.churnReason x }
  else if t = "Competitor" then { ets with competitor := addToSet ets.competitor x }
  else if t = "Product" then { ets with product := addToSet ets.product x }
  else ets

/-- `self.entity_types.get(t, set())` as a list (`list(set)`). -/
def EntityTypes.byType (ets : EntityTypes) (t : String) : List String :=
  if t = "Customer" then ets.customer
  else if t = "Segment" then ets.segment
  else if t = "ChurnReason" then ets.churnReason
  else if t = "Competitor" then ets.competitor
  else if t = "Product" then ets.product
  else []

/-- A `ChurnKnowledgeGraph` instance: `__init__` gives the empty graph and
empty per-type sets (the record's defaults). -/
structure KG where
  graph : Graph := {}
  entity_types : EntityTypes := {}
deriving DecidableEq

instance : Inhabited KG := ⟨{}⟩

/-! ## Graph construction (`build_from_dataframe`) -/

/-- The `Amount`-cleaning step of `_extract_customers`: a string is stripped
of `$` and `,` and parsed with `float` (a parse failure is Python's
`ValueError`, modelled as `Except.error`); a numeric cell is used as is; NaN
becomes `0.0`. -/
def rowArrLost (amount : Cell) : Except String Rat :=
  match amount with
  | Cell.str s =>
    match pyFloat (pyReplace (pyReplace s "$" "") "," "") with
    | some q => Except.ok q
    | none => Except.error "could not convert string to float"
  | Cell.num q => Except.ok q
  | Cell.nanv => Except.ok 0

/-- The attribute dict `_extract_customers` writes for one row. -/
def customerNodeData (r : Row) (arr : Rat) : NodeData where
  type := some "Customer"
  segment := some r.segment
  tenure_years := some (match r.tenure with | some t => t | none => 0)
  arr_lost := some arr
  churn_date := some r.closeDate
  first_win_date := some r.firstWinDate
  products := some (match r.products with | some p => p | none => "")
  churn_narrative := some (match r.lostOppDetails with | some d => d | none => "")

/-- One row of `_extract_customers`: parse the amount (propagating the
`ValueError` of a malformed string), then write the customer node and the
index entry. -/
def custStep (kg : KG) (r : Row) : Except String KG := do
  let arr ← rowArrLost r.amount
  pure { graph := kg.graph.addNode r.accountName (customerNodeData r arr),
         entity_types := kg.entity_types.addByType "Customer" r.accountName }

/-- `_extract_customers`: one customer node per row, keyed by account name
(a later duplicate merges over an earlier one); propagates the `ValueError`
of a malformed `Amount` string. -/
def _extract_customers (kg : KG) (df : List Row) : Except String KG :=
  df.foldlM custStep kg

/-- First-occurrence-ordered distinct values: pandas `Series.unique()`. -/
def uniqueList {α : Type} [DecidableEq α] (l : List α) : List α :=
  l.foldl (fun acc x => if x ∈ acc then acc else acc ++ [x]) []

/-- One step of `_extract_segments`: skip NaN and falsy values, else add the
prefixed `Segment` node and index entry. -/
def segStep (kg : KG) (s? : Option String) : KG :=
  match s? with
  | some segment =>
    if segment ≠ "" then
      { graph := kg.graph.addNode ("SEGMENT:" ++ segment)
          { type := some "Segment", name := some segment },
        entity_types := kg.entity_types.addByType "Segment" segment }
    else kg
  | none => kg

/-- `_extract_segments`: one `SEGMENT:`-prefixed node per distinct non-null,
truthy segment value. -/
def _extract_segments (kg : KG) (df : List Row) : KG :=
  (uniqueList (df.map (fun r => r.segment))).foldl segStep kg

/-- One step of the primary-reason sub-pass of `_extract_churn_reasons`. -/
def primStep (kg : KG) (s? : Option String) : KG :=
  match s? with
  | some reason =>
    if reason ≠ "" then
      { graph := kg.graph.addNode ("REASON:" ++ reason)
          { type := some "ChurnReason", name := some reason,
            reason_type := some "primary" },
        entity_types := kg.entity_types.addByType "ChurnReason" reason }
    else kg
  | none => kg

/-- One step of the sub-reason sub-pass of `_extract_churn_reasons`: the
sentinel `"N/A"` is excluded here. -/
def subStep (kg : KG) (s? : Option String) : KG :=
  match s? with
  | some sub =>
    if sub ≠ "N/A" ∧ sub ≠ "" then
      { graph := kg.graph.addNode ("SUBREASON:" ++ sub)
          { type := some "ChurnReason", name := some sub,
            reason_type := some "sub" },
        entity_types := kg.entity_types.addByType "ChurnReason" sub }
    else kg
  | none => kg

/-- `_extract_churn_reasons`: `REASON:`-prefixed nodes for distinct truthy
primary reasons, then `SUBREASON:`-prefixed nodes for distinct truthy
sub-reasons other than the sentinel `"N/A"`; both feed the same
`ChurnReason` identifier set. -/
def _extract_churn_reasons (kg : KG) (df : List Row) : KG :=
  let kg1 := (uniqueList (df.map (fun r => r.primaryReason))).foldl primStep kg
  (uniqueList (df.map (fun r => r.subReason))).foldl subStep kg1

/-- One step of `_extract_competitors`: sentinels excluded. -/
def compStep (kg : KG) (c? : Option String) : KG :=
  match c? with
  | some comp =>
    if comp ≠ "" ∧ comp ∉ (["None mentioned", "N/A", ""] : List String) then
      { graph := kg.graph.addNode ("COMPETITOR:" ++ comp)
          { type := some "Competitor", name := some comp },
        entity_types := kg.entity_types.addByType "Competitor" comp }
    else kg
  | none => kg

/-- One competitor column of `_extract_competitors`. -/
def extractCompCol (kg : KG) (vals : List (Option String)) : KG :=
  (uniqueList vals).foldl compStep kg

/-- `_extract_competitors`: both columns, sentinels excluded. -/
def _extract_competitors (kg : KG) (df : List Row) : KG :=
  extractCompCol (extractCompCol kg (df.map (fun r => r.comp1)))
    (df.map (fun r => r.comp2))

/-- `products_str.replace(,).split(,)` then `strip` of each token. -/
def splitProducts (productsStr : String) : List String :=
  (pySplit (pyReplace productsStr ";" ",") ',').map pyStrip

/-- One product-token step of `_extract_products`: sentinels excluded. -/
def prodStep (kg : KG) (product : String) : KG :=
  if product ≠ "" ∧ product ∉ (["N/A", "None", ""] : List String) then
    { graph := kg.graph.addNode ("PRODUCT:" ++ product)
        { type := some "Product", name := some product },
      entity_types := kg.entity_types.addByType "Product" product }
  else kg

/-- The product tokens of one row (empty for a NaN or falsy product field). -/
def rowProducts (r : Row) : List String :=
  match r.products with
  | some productsStr => if productsStr ≠ "" then splitProducts productsStr else []
  | none => []

/-- `_extract_products`: split each row's product field and add one
`PRODUCT:`-prefixed node per non-sentinel token. -/
def _extract_products (kg : KG) (df : List Row) : KG :=
  df.foldl (fun kg r => (rowProducts r).foldl prodStep kg) kg

/-- The sequence of `add_edge(customer, target, **attrs)` calls
`_build_relationships` makes for one row, in source order: `BELONGS_TO` for a
truthy segment, `CHURNED_DUE_TO` for a truthy primary reason (with the churn
date) and for a truthy non-`"N/A"` sub-reason, `SWITCHED_TO` for each
non-sentinel competitor column, `USED_PRODUCT` for each non-sentinel product
token. -/
def rowEdges (r : Row) : List (String × EdgeData) :=
  (match r.segment with
   | some segment =>
     if segment ≠ "" then
       [("SEGMENT:" ++ segment,
         { relationship := "BELONGS_TO", type := "customer_segment" })]
     else []
   | none => []) ++
  (match r.primaryReason with
   | some primary =>
     if primary ≠ "" then
       [("REASON:" ++ primary,
         { relationship := "CHURNED_DUE_TO", type := "customer_reason",
           churn_date := some r.closeDate })]
     else []
   | none => []) ++
  (match r.subReason with
   | some sub =>
     if sub ≠ "N/A" ∧ sub ≠ "" then
       [("SUBREASON:" ++ sub,
         { relationship := "CHURNED_DUE_TO", type := "customer_subreason" })]
     else []
   | none => []) ++
  (match r.comp1 with
   | some comp1 =>
     if comp1 ∉ (["None mentioned", "N/A", ""] : List String) then
       [("COMPETITOR:" ++ comp1,
         { relationship := "SWITCHED_TO", type := "customer_competitor" })]
     else []
   | none => []) ++
  (match r.comp2 with
   | some comp2 =>
     if comp2 ∉ (["None mentioned", "N/A", ""] : List String) then
       [("COMPETITOR:" ++ comp2,
         { relationship := "SWITCHED_TO", type := "customer_competitor" })]
     else []
   | none => []) ++
  (match r.products with
   | some productsStr =>
     if productsStr ≠ "" then
       (splitProducts productsStr).filterMap (fun product =>
         if product ≠ "" ∧ product ∉ (["N/A", "None", ""] : List String) then
           some ("PRODUCT:" ++ product,
             { relationship := "USED_PRODUCT", type := "customer_product" })
         else none)
     else []
   | none => [])

/-- The edge additions of `_build_relationships` for one row. -/
def relRow (g : Graph) (r : Row) : Graph :=
  (rowEdges r).foldl (fun g p => g.addEdge r.accountName p.1 p.2) g

/-- `_build_relationships`. -/
def _build_relationships (g : Graph) (df : List Row) : Graph :=
  df.foldl relRow g

/-- `build_from_dataframe` on a fresh `ChurnKnowledgeGraph` instance (as the
module's `build_churn_knowledge_graph` calls it): the five extraction passes
followed by the relationship pass. -/
def build_from_dataframe (df : List Row) : Except String KG := do
  let kg0 : KG := {}
  let kg1 ← _extract_customers kg0 df
  let kg2 := _extract_segments kg1 df
  let kg3 := _extract_churn_reasons kg2 df
  let kg4 := _extract_competitors kg3 df
  let kg5 := _extract_products kg4 df
  pure { kg5 with graph := _build_relationships kg5.graph df }

/-! ## The query engine -/

/-- `get_entity_by_type`. -/
def get_entity_by_type (kg : KG) (entity_type : String) : List String :=
  kg.entity_types.byType entity_type

/-- `get_neighbors(node_id, relationship_type)`: empty for an absent node,
else the out-neighbors with edge data, optionally filtered on the
`relationship` attribute. -/
def get_neighbors (g : Graph) (node_id : String) (relationship_type : Option String) :
    List (String × EdgeData) :=
  if g.hasNode node_id then
    (g.nbrsOut node_id).filter (fun p =>
      match relationship_type with
      | none => true
      | some rt => p.2.relationship = rt)
  else []

/-- `self.graph.nodes[id].get(type)`: the node's `type` attribute, `none`
when the node is absent or the attribute unset. -/
def Graph.typeOf (g : Graph) (id : String) : Option String :=
  ((g.nodeData id).map (fun d => d.type)).join

/-- The node's `arr_lost` attribute (`none` when the node is absent or the
attribute unset). -/
def Graph.arrLostAt (g : Graph) (id : String) : Option Rat :=
  ((g.nodeData id).getD {}).arr_lost

/-- `query_customers_by_segment`: predecessors of the `SEGMENT:`-prefixed
node whose `type` attribute is `Customer`. -/
def query_customers_by_segment (g : Graph) (segment : String) : List String :=
  let segment_node := "SEGMENT:" ++ segment
  if g.hasNode segment_node then
    (g.predsOf segment_node).filter (fun node => g.typeOf node = some "Customer")
  else []

/-- `collections.Counter` built from a list: first-occurrence-ordered
(key, count) pairs. -/
def counterList (l : List String) : List (String × Nat) :=
  l.foldl
    (fun acc x =>
      if acc.any (fun p => p.1 = x) then
        acc.map (fun p => if p.1 = x then (p.1, p.2 + 1) else p)
      else acc ++ [(x, 1)])
    []

/-- Stable descending insertion for `most_common`: `x` goes in front of the
first entry with a strictly smaller count, hence after every earlier entry
with an equal count. -/
def insertCountDesc (x : String × Nat) : List (String × Nat) → List (String × Nat)
  | [] => [x]
  | y :: ys => if y.2 < x.2 then x :: y :: ys else y :: insertCountDesc x ys

/-- Stable sort by count descending (the order `Counter.most_common`
guarantees: count descending, ties in insertion order). -/
def sortCountDesc (l : List (String × Nat)) : List (String × Nat) :=
  l.foldl (fun acc x => insertCountDesc x acc) []

/-- `Counter.most_common(n)` composed with `dict(...)`: the first `n` entries
of the stable descending order. -/
def most_common (items : List (String × Nat)) (n : Nat) : List (String × Nat) :=
  (sortCountDesc items).take n

/-- The aggregate record `get_churn_patterns` returns for a non-empty
segment (the Python dict's seven keys). -/
structure PatternsRecord where
  segment : String
  customer_count : Nat
  top_reasons : List (String × Nat)
  top_competitors : List (String × Nat)
  avg_tenure : Rat
  avg_arr_lost : Rat
  total_arr_lost : Rat
deriving DecidableEq

/-- `get_churn_patterns(segment)`: `none` models the empty dict `{}` the
source returns when the segment has no customers. -/
def get_churn_patterns (g : Graph) (segment : String) : Option PatternsRecord :=
  let customers := query_customers_by_segment g segment
  if customers.isEmpty then none
  else
    let tenures := customers.map (fun c =>
      (((g.nodeData c).getD {}).tenure_years).getD 0)
    let arr_values := customers.map (fun c =>
      (((g.nodeData c).getD {}).arr_lost).getD 0)
    let reasons := customers.flatMap (fun c =>
      (get_neighbors g c (some "CHURNED_DUE_TO")).filterMap (fun p =>
        if pyStartswith p.1 "REASON:" then some (pyReplace p.1 "REASON:" "") else none))
    let competitors := customers.flatMap (fun c =>
      (get_neighbors g c (some "SWITCHED_TO")).filterMap (fun p =>
        if pyStartswith p.1 "COMPETITOR:" then some (pyReplace p.1 "COMPETITOR:" "") else none))
    some
      { segment := segment
        customer_count := customers.length
        top_reasons := most_common (counterList reasons) 5
        top_competitors := most_common (counterList competitors) 5
        avg_tenure := if tenures.isEmpty then 0 else tenures.sum / (tenures.length : Rat)
        avg_arr_lost :=
          if arr_values.isEmpty then 0 else arr_values.sum / (arr_values.length : Rat)
        total_arr_lost := arr_values.sum }

/-! ## Persistence (`save_graph` / `load_graph`) -/

/-- `save_graph`: pickling the graph, modelled losslessly; the file's payload
is the graph itself. -/
def save_graph (kg : KG) : Graph :=
  kg.graph

/-- `load_graph`: replace the instance's graph by the unpickled payload, then
scan all nodes and add to the (pre-existing!) `entity_types` index: the node
id for customers, the `name` attribute (defaulting to the id) otherwise. -/
def load_graph (kg : KG) (payload : Graph) : KG :=
  let ets := payload.nodes.foldl
    (fun ets nd =>
      match nd.2.type with
      | some entity_type =>
        if entity_type ≠ "" ∧
            entity_type ∈
              (["Customer", "Segment", "ChurnReason", "Competitor", "Product"] : List String) then
          if entity_type = "Customer" then ets.addByType entity_type nd.1
          else ets.addByType entity_type ((nd.2.name).getD nd.1)
        else ets
      | none => ets)
    kg.entity_types
  { graph := payload, entity_types := ets }

/-! ## Derived definitions used by the specification statements -/

/-- Guard of the segment pass: accepted (non-null, truthy) values. -/
def segGuard (s? : Option String) : Option String :=
  match s? with
  | some s => if s ≠ "" then some s else none
  | none => none

/-- Guard of the primary-reason sub-pass: non-null and truthy. -/
def primGuard (s? : Option String) : Option String :=
  match s? with
  | some s => if s ≠ "" then some s else none
  | none => none

/-- Guard of the sub-reason sub-pass: non-null, truthy and not `"N/A"`. -/
def subGuard (s? : Option String) : Option String :=
  match s? with
  | some s => if s ≠ "N/A" ∧ s ≠ "" then some s else none
  | none => none

/-- Guard of the competitor passes: non-null, truthy, not a sentinel. -/
def compGuard (c? : Option String) : Option String :=
  match c? with
  | some c =>
    if c ≠ "" ∧ c ∉ (["None mentioned", "N/A", ""] : List String) then some c else none
  | none => none

/-- Guard of the product-token pass: truthy and not a sentinel. -/
def prodGuard (tok : String) : Option String :=
  if tok ≠ "" ∧ tok ∉ (["N/A", "None", ""] : List String) then some tok else none

/-- The distinct accepted segment values (the spec's "S distinct non-null,
non-empty segment values"). -/
def segVals (df : List Row) : List String :=
  (uniqueList (df.map (fun r => r.segment))).filterMap segGuard

/-- The distinct accepted primary-reason values. -/
def primVals (df : List Row) : List String :=
  (uniqueList (df.map (fun r => r.primaryReason))).filterMap primGuard

/-- The distinct accepted sub-reason values. -/
def subVals (df : List Row) : List String :=
  (uniqueList (df.map (fun r => r.subReason))).filterMap subGuard

/-- The distinct accepted competitor values of one column. -/
def compVals (vals : List (Option String)) : List String :=
  (uniqueList vals).filterMap compGuard

/-- The accepted product tokens of the whole dataset, row by row. -/
def prodVals (df : List Row) : List String :=
  (df.flatMap rowProducts).filterMap prodGuard

/-- The number of nodes whose `type` attribute is `Segment`. -/
def segTypedNodeCount (g : Graph) : Nat :=
  (g.nodes.filter (fun p => p.2.type = some "Segment")).length

/-- The account-name column. -/
def accountNames (df : List Row) : List String :=
  df.map (fun r => r.accountName)

/-- The reason-name occurrences `get_churn_patterns` counts, stated the way
the (amended) claim words them: for every customer of the segment, walk its
`CHURNED_DUE_TO` out-edges and keep each target that carries the `REASON:`
prefix (a primary reason), stripped of the prefix — one occurrence per such
edge. -/
def walkPrimaryReasons (g : Graph) (segment : String) : List String :=
  (query_customers_by_segment g segment).flatMap (fun c =>
    (get_neighbors g c (some "CHURNED_DUE_TO")).filterMap (fun p =>
      if pyStartswith p.1 "REASON:" then some (pyReplace p.1 "REASON:" "") else none))

/-- The competitor-name occurrences `get_churn_patterns` counts: one per
`SWITCHED_TO` out-edge whose target carries the `COMPETITOR:` prefix. -/
def walkCompetitors (g : Graph) (segment : String) : List String :=
  (query_customers_by_segment g segment).flatMap (fun c =>
    (get_neighbors g c (some "SWITCHED_TO")).filterMap (fun p =>
      if pyStartswith p.1 "COMPETITOR:" then some (pyReplace p.1 "COMPETITOR:" "") else none))

/-- The per-type identifier set the spec (§4.3) says deserialization derives
by scanning all nodes: one entry per node whose `type` attribute equals `t` —
the node id for customers, the `name` attribute (defaulting to the id)
otherwise. -/
def loadDerivedIds (g : Graph) (t : String) : List String :=
  g.nodes.filterMap (fun nd =>
    if nd.2.type = some t then
      some (if t = "Customer" then nd.1 else (nd.2.name).getD nd.1)
    else none)

/-- All entity-value strings a dataset contributes to the non-`Customer`
identifier sets: segments, primary and sub reasons, both competitor columns
and the product tokens of each row. -/
def entityVals (df : List Row) : List String :=
  df.flatMap (fun r =>
    (match r.segment with | some s => [s] | none => []) ++
    (match r.primaryReason with | some s => [s] | none => []) ++
    (match r.subReason with | some s => [s] | none => []) ++
    (match r.comp1 with | some s => [s] | none => []) ++
    (match r.comp2 with | some s => [s] | none => []) ++
    (match r.products with | some p => splitProducts p | none => []))

/-- Hygiene predicate for the node-id namespace: no entity-value string of
the dataset contains a colon, so no bare identifier can collide with a
`PREFIX:`-style node id. -/
def cleanValsB (df : List Row) : Bool :=
  (entityVals df).all (fun s => !(s.data.contains ':'))

/-- Membership of `x` in one of the four non-`Customer` identifier sets. -/
def inNonCustomerIndex (kg : KG) (x : String) : Prop :=
  x ∈ get_entity_by_type kg "Segment" ∨ x ∈ get_entity_by_type kg "ChurnReason" ∨
    x ∈ get_entity_by_type kg "Competitor" ∨ x ∈ get_entity_by_type kg "Product"

/-- Well-formedness of the node list: node ids are pairwise distinct. -/
def NodupKeys (g : Graph) : Prop :=
  (g.nodes.map (fun p => p.1)).Nodup

/-- Well-formedness of the edge list: both endpoints of every edge are
nodes (NetworkX guarantees this; `add_edge` materialises endpoints). -/
def EndpointsOk (g : Graph) : Prop :=
  ∀ x y e, (x, y, e) ∈ g.edges → g.hasNode x ∧ g.hasNode y

/-- Every edge into a `SEGMENT:`-prefixed target is a `BELONGS_TO` edge. -/
def SegTargetsBelong (g : Graph) : Prop :=
  ∀ x y e, (x, y, e) ∈ g.edges → pyStartswith y "SEGMENT:" = true →
    e.relationship = "BELONGS_TO"

/-- No edge ever targets a competitor node for the sentinel value
`None mentioned`. -/
def NoNoneMentionedTarget (g : Graph) : Prop :=
  ∀ x y e, (x, y, e) ∈ g.edges → y ≠ "COMPETITOR:None mentioned"

/-- Every node id is either an account name of the dataset or contains a
colon (as every `PREFIX:`-style entity id does). -/
def NodeIdsTame (df : List Row) (g : Graph) : Prop :=
  ∀ i, g.hasNode i → i ∈ accountNames df ∨ ':' ∈ i.data

/-! ## Concrete example data (used by witnesses and counterexamples) -/

/-- Example row: string-formatted ARR, a sub-reason equal to the primary
reason, competitor 1 the sentinel `None mentioned`, two products. -/
def rowA : Row where
  accountName := "CustomerA"
  amount := Cell.str "$10,000.00"
  segment := some "Commercial"
  tenure := some 3
  closeDate := "2024-01-01"
  firstWinDate := "2020-01-01"
  products := some "WidgetPro; DataSync"
  primaryReason := some "Pricing"
  subReason := some "Pricing"
  comp1 := some "None mentioned"
  comp2 := some "CompetitorX"
  lostOppDetails := none

/-- Example row: `N/A` sub-reason sentinel, no products, no competitors. -/
def rowB : Row where
  accountName := "CustomerB"
  amount := Cell.str "$5,000"
  segment := some "Commercial"
  tenure := some 1
  closeDate := "2024-02-01"
  firstWinDate := "2021-01-01"
  products := none
  primaryReason := some "Support"
  subReason := some "N/A"
  comp1 := none
  comp2 := none
  lostOppDetails := some "left for a competitor"

/-- Example row: numeric ARR cell, NaN tenure. -/
def rowC : Row where
  accountName := "CustomerC"
  amount := Cell.num 50000
  segment := some "Enterprise"
  tenure := none
  closeDate := "2024-03-01"
  firstWinDate := "2019-01-01"
  products := some "WidgetPro"
  primaryReason := some "Pricing"
  subReason := none
  comp1 := some "CompetitorX"
  comp2 := none
  lostOppDetails := none

/-- Example row: NaN ARR amount, competitor literally named `None`. -/
def rowD : Row where
  accountName := "CustomerD"
  amount := Cell.nanv
  segment := some "SMB"
  tenure := some 2
  closeDate := "2024-04-01"
  firstWinDate := "2022-01-01"
  products := some "WidgetPro"
  primaryReason := some "Product Fit"
  subReason := none
  comp1 := some "None"
  comp2 := none
  lostOppDetails := none

/-- The shared example dataset. -/
def exDF : List Row := [rowA, rowB, rowC, rowD]

/-- The knowledge graph built from `exDF`. -/
def exKG : KG := (build_from_dataframe exDF).toOption.getD default

/-- A row whose `Amount` is a malformed, non-numeric string. -/
def rowBad : Row where
  accountName := "BadCustomer"
  amount := Cell.str "abc"
  segment := some "Commercial"
  tenure := some 1
  closeDate := "2024-05-01"
  firstWinDate := "2023-01-01"
  products := none
  primaryReason := some "Pricing"
  subReason := none
  comp1 := none
  comp2 := none
  lostOppDetails := none

/-- A dataset containing a malformed ARR string. -/
def exDFBad : List Row := [rowBad]

/-- A row with no primary reason but a sub-reason: its only
`CHURNED_DUE_TO` edge targets a `SUBREASON:`-prefixed node. -/
def rowSubOnly : Row where
  accountName := "SubOnly"
  amount := Cell.nanv
  segment := some "Niche"
  tenure := some 1
  closeDate := "2024-06-01"
  firstWinDate := "2023-01-01"
  products := none
  primaryReason := none
  subReason := some "Latency"
  comp1 := none
  comp2 := none
  lostOppDetails := none

/-- Dataset for the sub-reason-only scenario. -/
def exDFSub : List Row := [rowSubOnly]

/-- Its knowledge graph. -/
def exKGSub : KG := (build_from_dataframe exDFSub).toOption.getD default

/-- A row whose primary reason is the sentinel `N/A`. -/
def rowNA : Row where
  accountName := "NAcust"
  amount := Cell.nanv
  segment := some "SegX"
  tenure := some 1
  closeDate := "2024-07-01"
  firstWinDate := "2023-01-01"
  products := none
  primaryReason := some "N/A"
  subReason := none
  comp1 := none
  comp2 := none
  lostOppDetails := none

/-- Dataset whose primary-reason column holds the sentinel `N/A`. -/
def exDFNA : List Row := [rowNA]

/-- Its knowledge graph. -/
def exKGNA : KG := (build_from_dataframe exDFNA).toOption.getD default

/-- A row in segment `Foo`. -/
def rowFoo : Row where
  accountName := "C9A"
  amount := Cell.nanv
  segment := some "Foo"
  tenure := none
  closeDate := "2024-08-01"
  firstWinDate := "2023-01-01"
  products := none
  primaryReason := none
  subReason := none
  comp1 := none
  comp2 := none
  lostOppDetails := none

/-- A row whose segment value itself carries the `SEGMENT:` prefix. -/
def rowFooPfx : Row where
  accountName := "C9B"
  amount := Cell.nanv
  segment := some "SEGMENT:Foo"
  tenure := none
  closeDate := "2024-08-02"
  firstWinDate := "2023-01-01"
  products := none
  primaryReason := none
  subReason := none
  comp1 := none
  comp2 := none
  lostOppDetails := none

/-- Dataset with segment values `Foo` and `SEGMENT:Foo`. -/
def exDFPfx : List Row := [rowFoo, rowFooPfx]

/-- Its knowledge graph. -/
def exKGPfx : KG := (build_from_dataframe exDFPfx).toOption.getD default

/-- The aggregate record `get_churn_patterns` yields for segment `Commercial`
of the example graph (a dummy record stands in for the impossible `none`
case). -/
def exRec : PatternsRecord :=
  match get_churn_patterns exKG.graph "Commercial" with
  | some r => r
  | none =>
    { segment := "", customer_count := 0, top_reasons := [], top_competitors := [],
      avg_tenure := 0, avg_arr_lost := 0, total_arr_lost := 0 }

/-! ## Lemmas: attribute updates and merging -/

theorem updOpt_none_left {α : Type} (n : Option α) : updOpt none n = n := by
  cases n <;> rfl

theorem NodeData.merge_empty_left (d : NodeData) : NodeData.merge {} d = d := by
  cases d
  simp only [NodeData.merge, updOpt_none_left]

theorem NodeData.type_merge (a b : NodeData) : (a.merge b).type = updOpt a.type b.type := rfl

theorem NodeData.arr_lost_merge (a b : NodeData) :
    (a.merge b).arr_lost = updOpt a.arr_lost b.arr_lost := rfl

/-! ## Lemmas: strings and the prefixed node-id namespace -/

theorem strDataAppend (a b : String) : (a ++ b).data = a.data ++ b.data := rfl

theorem appendNeAppend {p q : String} (a b : String)
    (h1 : p.data.isPrefixOf q.data = false) (h2 : q.data.isPrefixOf p.data = false) :
    p ++ a ≠ q ++ b := by
  intro h
  have hd : p.data ++ a.data = q.data ++ b.data := congrArg String.data h
  rcases List.append_eq_append_iff.1 hd with ⟨t, ht, _⟩ | ⟨t, ht, _⟩
  · exact absurd (List.isPrefixOf_iff_prefix.2 ⟨t, ht.symm⟩) (by simp [h1])
  · exact absurd (List.isPrefixOf_iff_prefix.2 ⟨t, ht.symm⟩) (by simp [h2])

theorem appendCancelLeftStr {p a b : String} (h : p ++ a = p ++ b) : a = b := by
  have hd : p.data ++ a.data = p.data ++ b.data := congrArg String.data h
  exact String.ext (List.append_cancel_left hd)

theorem notPrefixAppend {p q : List Char} (b : List Char)
    (h1 : p.isPrefixOf q = false) (h2 : q.isPrefixOf p = false) :
    p.isPrefixOf (q ++ b) = false := by
  rw [Bool.eq_false_iff]
  intro hT
  rcases List.isPrefixOf_iff_prefix.1 hT with ⟨t, ht⟩
  rcases List.append_eq_append_iff.1 ht with ⟨u, hu, _⟩ | ⟨u, hu, _⟩
  · exact absurd (List.isPrefixOf_iff_prefix.2 ⟨u, hu.symm⟩) (by simp [h1])
  · exact absurd (List.isPrefixOf_iff_prefix.2 ⟨u, hu.symm⟩) (by simp [h2])

theorem pyStartswithAppendSelf (p a : String) : pyStartswith (p ++ a) p = true := by
  unfold pyStartswith
  rw [strDataAppend]
  exact List.isPrefixOf_iff_prefix.2 ⟨a.data, rfl⟩

theorem pyStartswithAppendOther {p q : String} (b : String)
    (h1 : p.data.isPrefixOf q.data = false) (h2 : q.data.isPrefixOf p.data = false) :
    pyStartswith (q ++ b) p = false := by
  unfold pyStartswith
  rw [strDataAppend]
  exact notPrefixAppend b.data h1 h2

theorem colonMemAppend {p : String} (a : String) (h : ':' ∈ p.data) :
    ':' ∈ (p ++ a).data := by
  rw [strDataAppend]
  exact List.mem_append_left _ h

/-! ## Lemmas: graph primitive operations -/

theorem anyKeyIff (l : List (String × NodeData)) (i : String) :
    l.any (fun p => p.1 = i) = true ↔ ∃ d, (i, d) ∈ l := by
  rw [List.any_eq_true]
  constructor
  · rintro ⟨⟨a, d⟩, hm, hp⟩
    have ha : a = i := by simpa using hp
    subst ha
    exact ⟨d, hm⟩
  · rintro ⟨d, hm⟩
    exact ⟨(i, d), hm, by simp⟩

theorem hasNode_iff_any (g : Graph) (i : String) :
    g.hasNode i ↔ g.nodes.any (fun p => p.1 = i) = true := by
  unfold Graph.hasNode
  exact (anyKeyIff g.nodes i).symm

theorem findMapMerge (l : List (String × NodeData)) (i j : String) (d : NodeData) :
    (l.map (fun p => if p.1 = i then (p.1, p.2.merge d) else p)).find? (fun p => p.1 = j) =
      if j = i then (l.find? (fun p => p.1 = i)).map (fun p => (p.1, p.2.merge d))
      else l.find? (fun p => p.1 = j) := by
  induction l with
  | nil => by_cases hji : j = i <;> simp [hji]
  | cons hd tl ih =>
    obtain ⟨a, nd⟩ := hd
    by_cases hai : a = i
    · by_cases hji : j = i
      · simp [List.find?_cons, hai, hji, ih]
      · have haj : ¬ a = j := fun h => hji (by rw [← h, hai])
        simp [List.find?_cons, hai, haj, hji, Ne.symm hji, ih]
    · by_cases haj : a = j
      · have hji : ¬ j = i := fun h => hai (by rw [haj, h])
        simp [List.find?_cons, hai, haj, hji]
      · simp [List.find?_cons, hai, haj, ih]

theorem nodeData_addNode (g : Graph) (i : String) (d : NodeData) (j : String) :
    (g.addNode i d).nodeData j =
      if j = i then some (((g.nodeData i).getD {}).merge d) else g.nodeData j := by
  unfold Graph.addNode Graph.nodeData
  split
  case isTrue hAny =>
    simp only
    rw [findMapMerge]
    by_cases hji : j = i
    · subst hji
      rw [if_pos rfl, if_pos rfl]
      obtain ⟨d0, hm⟩ := (anyKeyIff g.nodes j).1 hAny
      rcases hfind : g.nodes.find? (fun p => p.1 = j) with _ | p
      · exfalso
        have hn := List.find?_eq_none.1 hfind (j, d0) hm
        simp at hn
      · rw [hfind]
        simp
    · rw [if_neg hji, if_neg hji]
  case isFalse hAny =>
    simp only
    have hnone : g.nodes.find? (fun p => p.1 = i) = none := by
      rw [List.find?_eq_none]
      intro p hm hp
      have hpi : p.1 = i := by simpa using hp
      exact hAny ((anyKeyIff _ _).2 ⟨p.2, by rwa [show (i, p.2) = p from Prod.ext hpi.symm rfl]⟩)
    rw [List.find?_append]
    by_cases hji : j = i
    · subst hji
      rw [hnone, if_pos rfl]
      simp [List.find?, NodeData.merge_empty_left]
    · rw [if_neg hji]
      rcases hfind : g.nodes.find? (fun p => p.1 = j) with _ | p
      · rw [hfind]
        simp [List.find?, Ne.symm hji]
      · rw [hfind]
        simp

theorem edges_addNode (g : Graph) (i : String) (d : NodeData) :
    (g.addNode i d).edges = g.edges := by
  unfold Graph.addNode
  split <;> rfl

theorem nodeData_ensureNode (g : Graph) (i j : String) :
    (g.ensureNode i).nodeData j =
      if j = i then some ((g.nodeData i).getD {}) else g.nodeData j := by
  unfold Graph.ensureNode
  split
  case isTrue hAny =>
    by_cases hji : j = i
    · subst hji
      rw [if_pos rfl]
      obtain ⟨d0, hm⟩ := (anyKeyIff g.nodes j).1 hAny
      unfold Graph.nodeData
      rcases hfind : g.nodes.find? (fun p => p.1 = j) with _ | p
      · exfalso
        have hn := List.find?_eq_none.1 hfind (j, d0) hm
        simp at hn
      · rw [hfind]
        simp
    · rw [if_neg hji]
  case isFalse hAny =>
    unfold Graph.nodeData
    simp only
    have hnone : g.nodes.find? (fun p => p.1 = i) = none := by
      rw [List.find?_eq_none]
      intro p hm hp
      have hpi : p.1 = i := by simpa using hp
      exact hAny ((anyKeyIff _ _).2 ⟨p.2, by rwa [show (i, p.2) = p from Prod.ext hpi.symm rfl]⟩)
    rw [List.find?_append]
    by_cases hji : j = i
    · subst hji
      rw [hnone, if_pos rfl]
      simp [List.find?]
    · rw [if_neg hji]
      rcases hfind : g.nodes.find? (fun p => p.1 = j) with _ | p
      · rw [hfind]
        simp [List.find?, Ne.symm hji]
      · rw [hfind]
        simp

theorem edges_ensureNode (g : Graph) (i : String) :
    (g.ensureNode i).edges = g.edges := by
  unfold Graph.ensureNode
  split <;> rfl

theorem nodeData_addEdge (g : Graph) (u v : String) (d : EdgeData) (j : String) :
    (g.addEdge u v d).nodeData j = ((g.ensureNode u).ensureNode v).nodeData j := by
  simp only [Graph.addEdge]
  split <;> rfl

theorem hasNode_iff_isSome (g : Graph) (i : String) :
    g.hasNode i ↔ (g.nodeData i).isSome := by
  unfold Graph.hasNode Graph.nodeData
  constructor
  · rintro ⟨d, hm⟩
    rcases hfind : g.nodes.find? (fun p => p.1 = i) with _ | p
    · have hn := List.find?_eq_none.1 hfind (i, d) hm
      simp at hn
    · rw [hfind]
      simp
  · intro h
    rcases hfind : g.nodes.find? (fun p => p.1 = i) with _ | p
    · rw [hfind] at h
      simp at h
    · have hp := List.find?_some hfind
      have hmem := List.mem_of_find?_eq_some hfind
      have hpi : p.1 = i := by simpa using hp
      exact ⟨p.2, by rwa [show (i, p.2) = p from Prod.ext hpi.symm rfl]⟩

theorem typeOf_eq_type_getD (g : Graph) (i : String) :
    g.typeOf i = ((g.nodeData i).getD {}).type := by
  unfold Graph.typeOf
  rcases g.nodeData i with _ | d <;> simp

theorem typeOf_addNode (g : Graph) (i : String) (d : NodeData) (j : String) :
    (g.addNode i d).typeOf j =
      if j = i then updOpt (g.typeOf i) d.type else g.typeOf j := by
  rw [typeOf_eq_type_getD, nodeData_addNode]
  by_cases hji : j = i
  · subst hji
    rw [if_pos rfl, if_pos rfl, typeOf_eq_type_getD]
    simp [NodeData.type_merge]
  · rw [if_neg hji, if_neg hji, typeOf_eq_type_getD]

theorem typeOf_ensureNode (g : Graph) (i j : String) :
    (g.ensureNode i).typeOf j = g.typeOf j := by
  rw [typeOf_eq_type_getD, nodeData_ensureNode]
  by_cases hji : j = i
  · subst hji
    rw [if_pos rfl, typeOf_eq_type_getD]
    rcases g.nodeData j with _ | d <;> simp
  · rw [if_neg hji, typeOf_eq_type_getD]

theorem typeOf_addEdge (g : Graph) (u v : String) (d : EdgeData) (j : String) :
    (g.addEdge u v d).typeOf j = g.typeOf j := by
  rw [typeOf_eq_type_getD, nodeData_addEdge, ← typeOf_eq_type_getD,
    typeOf_ensureNode, typeOf_ensureNode]

theorem hasNode_addNode (g : Graph) (i : String) (d : NodeData) (j : String) :
    (g.addNode i d).hasNode j ↔ j = i ∨ g.hasNode j := by
  rw [hasNode_iff_isSome, hasNode_iff_isSome, nodeData_addNode]
  by_cases hji : j = i <;> simp [hji]

theorem hasNode_ensureNode (g : Graph) (i j : String) :
    (g.ensureNode i).hasNode j ↔ j = i ∨ g.hasNode j := by
  rw [hasNode_iff_isSome, hasNode_iff_isSome, nodeData_ensureNode]
  by_cases hji : j = i <;> simp [hji]

theorem hasNode_addEdge (g : Graph) (u v : String) (d : EdgeData) (j : String) :
    (g.addEdge u v d).hasNode j ↔ j = v ∨ j = u ∨ g.hasNode j := by
  rw [hasNode_iff_isSome, nodeData_addEdge, ← hasNode_iff_isSome,
    hasNode_ensureNode, hasNode_ensureNode]

theorem mem_edges_addEdge {g : Graph} {u v : String} {d : EdgeData} {x y : String}
    {e : EdgeData} (h : (x, y, e) ∈ (g.addEdge u v d).edges) :
    (x, y, e) ∈ g.edges ∨
      (x = u ∧ y = v ∧ e.relationship = d.relationship ∧ e.type = d.type) := by
  simp only [Graph.addEdge] at h
  split at h
  · simp only at h
    rw [edges_ensureNode, edges_ensureNode] at h
    obtain ⟨a, ha, hfa⟩ := List.mem_map.1 h
    by_cases hc : a.1 = u ∧ a.2.1 = v
    · rw [if_pos hc] at hfa
      obtain ⟨a1, a2, a3⟩ := a
      obtain ⟨hxu, hrest⟩ := Prod.mk.injEq .. ▸ hfa
      right
      obtain ⟨hyv, hee⟩ := Prod.mk.injEq .. ▸ hrest
      refine ⟨by rw [← hxu]; exact hc.1, by rw [← hyv]; exact hc.2, ?_, ?_⟩
      · rw [← hee]
        rfl
      · rw [← hee]
        rfl
    · rw [if_neg hc] at hfa
      left
      rwa [hfa] at ha
  · simp only at h
    rw [edges_ensureNode, edges_ensureNode] at h
    rcases List.mem_append.1 h with hl | hr
    · exact Or.inl hl
    · right
      simp only [List.mem_singleton] at hr
      obtain ⟨hxu, hrest⟩ := Prod.mk.injEq .. ▸ hr
      obtain ⟨hyv, hee⟩ := Prod.mk.injEq .. ▸ hrest
      exact ⟨hxu, hyv, by rw [hee], by rw [hee]⟩

theorem mem_predsOf (g : Graph) (v x : String) :
    x ∈ g.predsOf v ↔ ∃ e, (x, v, e) ∈ g.edges := by
  unfold Graph.predsOf
  rw [List.mem_filterMap]
  constructor
  · rintro ⟨⟨a, b, e⟩, hm, hf⟩
    simp only at hf
    split at hf
    case isTrue hb =>
      simp only [Option.some.injEq] at hf
      subst hf
      exact ⟨e, by rwa [hb] at hm⟩
    case isFalse hb =>
      exact absurd hf (by simp)
  · rintro ⟨e, hm⟩
    exact ⟨(x, v, e), hm, by simp⟩

theorem mem_nbrsOut (g : Graph) (u y : String) (e : EdgeData) :
    (y, e) ∈ g.nbrsOut u ↔ (u, y, e) ∈ g.edges := by
  unfold Graph.nbrsOut
  rw [List.mem_filterMap]
  constructor
  · rintro ⟨⟨a, b, e'⟩, hm, hf⟩
    simp only at hf
    split at hf
    case isTrue ha =>
      simp only [Option.some.injEq, Prod.mk.injEq] at hf
      obtain ⟨hb, he⟩ := hf
      subst hb
      subst he
      rwa [ha] at hm
    case isFalse ha =>
      exact absurd hf (by simp)
  · intro hm
    exact ⟨(u, y, e), hm, by simp⟩

theorem mem_get_neighbors_some (g : Graph) (x y : String) (e : EdgeData) (rel : String) :
    (y, e) ∈ get_neighbors g x (some rel) ↔
      g.hasNode x ∧ (x, y, e) ∈ g.edges ∧ e.relationship = rel := by
  unfold get_neighbors
  split
  case isTrue h =>
    rw [List.mem_filter, mem_nbrsOut]
    simp [h]
  case isFalse h =>
    simp [h]

theorem arrLostAt_addNode (g : Graph) (i : String) (d : NodeData) (j : String) :
    (g.addNode i d).arrLostAt j =
      if j = i then updOpt (g.arrLostAt i) d.arr_lost else g.arrLostAt j := by
  unfold Graph.arrLostAt
  rw [nodeData_addNode]
  by_cases hji : j = i
  · subst hji
    rw [if_pos rfl, if_pos rfl]
    simp [NodeData.arr_lost_merge]
  · rw [if_neg hji, if_neg hji]

theorem arrLostAt_ensureNode (g : Graph) (i j : String) :
    (g.ensureNode i).arrLostAt j = g.arrLostAt j := by
  unfold Graph.arrLostAt
  rw [nodeData_ensureNode]
  by_cases hji : j = i
  · subst hji
    rw [if_pos rfl]
    rcases g.nodeData j with _ | d <;> simp
  · rw [if_neg hji]

theorem arrLostAt_addEdge (g : Graph) (u v : String) (d : EdgeData) (j : String) :
    (g.addEdge u v d).arrLostAt j = g.arrLostAt j := by
  unfold Graph.arrLostAt
  rw [nodeData_addEdge]
  have h1 := arrLostAt_ensureNode (g.ensureNode u) v j
  have h2 := arrLostAt_ensureNode g u j
  unfold Graph.arrLostAt at h1 h2
  rw [h1, h2]

/-! ## Lemmas: generic fold preservation -/

theorem foldlPreserves {α σ : Type} (step : σ → α → σ) (P : σ → Prop) (l : List α)
    (hstep : ∀ s a, P s → P (step s a)) :
    ∀ s, P s → P (l.foldl step s) := by
  induction l with
  | nil => intro s hs; exact hs
  | cons a l ih =>
    intro s hs
    rw [List.foldl_cons]
    exact ih _ (hstep s a hs)

theorem foldlMPreserves {α σ : Type} (step : σ → α → Except String σ) (P : σ → Prop)
    (l : List α) (hstep : ∀ s a s', P s → step s a = Except.ok s' → P s') :
    ∀ s s', P s → l.foldlM step s = Except.ok s' → P s' := by
  induction l with
  | nil =>
    intro s s' hs h
    have h2 : (Except.ok s : Except String σ) = Except.ok s' := h
    cases h2
    exact hs
  | cons a l ih =>
    intro s s' hs h
    rw [List.foldlM_cons] at h
    rcases hstep1 : step s a with e | s1
    · rw [hstep1] at h
      have h2 : (Except.error e : Except String σ) = Except.ok s' := h
      cases h2
    · rw [hstep1] at h
      have h2 : l.foldlM step s1 = Except.ok s' := h
      exact ih s1 s' (hstep s a s1 hs hstep1) h2

theorem mem_addToSet (l : List String) (y x : String) :
    x ∈ addToSet l y ↔ x ∈ l ∨ x = y := by
  unfold addToSet
  split
  case isTrue h =>
    constructor
    · exact Or.inl
    · rintro (hx | rfl)
      · exact hx
      · exact h
  case isFalse h =>
    simp

theorem nodup_addToSet (l : List String) (y : String) (h : l.Nodup) :
    (addToSet l y).Nodup := by
  unfold addToSet
  split
  case isTrue _ => exact h
  case isFalse hy =>
    rw [List.nodup_append]
    exact ⟨h, List.nodup_singleton y, by simpa using hy⟩

theorem mem_byType_addByType (ets : EntityTypes) (T v t x : String)
    (hT : T ∈ (["Customer", "Segment", "ChurnReason", "Competitor", "Product"] : List String))
    (ht : t ∈ (["Customer", "Segment", "ChurnReason", "Competitor", "Product"] : List String)) :
    x ∈ (ets.addByType T v).byType t ↔ x ∈ ets.byType t ∨ (t = T ∧ x = v) := by
  simp only [List.mem_cons, List.not_mem_nil, or_false] at hT ht
  rcases hT with rfl | rfl | rfl | rfl | rfl <;>
    rcases ht with rfl | rfl | rfl | rfl | rfl <;>
      simp [EntityTypes.addByType, EntityTypes.byType, mem_addToSet]

theorem nodup_byType_addByType (ets : EntityTypes) (T v t : String)
    (h : ∀ t', (ets.byType t').Nodup) : ((ets.addByType T v).byType t).Nodup := by
  unfold EntityTypes.addByType
  split_ifs <;> (unfold EntityTypes.byType; split_ifs) <;>
    first
      | (apply nodup_addToSet; have hnt := h t; unfold EntityTypes.byType at hnt; simp_all)
      | (have hnt := h t; unfold EntityTypes.byType at hnt; simp_all)
      | simp

/-! ## Lemmas: generic characterisation of the entity-extraction folds

Each of `_extract_segments`, `_extract_churn_reasons`, `_extract_competitors`
and (after flattening) `_extract_products` folds a step that either leaves
the state unchanged or adds one prefixed, typed node and one index entry;
`guard` extracts the accepted value. -/

theorem foldlAdd_edges {α : Type} (guard : α → Option String) (pfx T : String)
    (data : String → NodeData) (step : KG → α → KG)
    (hstep : ∀ kg a, step kg a =
      match guard a with
      | some v => { graph := kg.graph.addNode (pfx ++ v) (data v),
                    entity_types := kg.entity_types.addByType T v }
      | none => kg)
    (l : List α) :
    ∀ kg : KG, (l.foldl step kg).graph.edges = kg.graph.edges := by
  induction l with
  | nil => intro kg; rfl
  | cons a l ih =>
    intro kg
    rw [List.foldl_cons, ih, hstep kg a]
    rcases hga : guard a with _ | v
    · rfl
    · exact edges_addNode kg.graph (pfx ++ v) (data v)

theorem foldlAdd_typeOf {α : Type} (guard : α → Option String) (pfx T : String)
    (data : String → NodeData) (step : KG → α → KG)
    (hT : ∀ v, (data v).type = some T)
    (hstep : ∀ kg a, step kg a =
      match guard a with
      | some v => { graph := kg.graph.addNode (pfx ++ v) (data v),
                    entity_types := kg.entity_types.addByType T v }
      | none => kg)
    (l : List α) :
    ∀ (kg : KG) (j : String),
      (l.foldl step kg).graph.typeOf j =
        if j ∈ (l.filterMap guard).map (fun v => pfx ++ v) then some T
        else kg.graph.typeOf j := by
  induction l with
  | nil => intro kg j; simp
  | cons a l ih =>
    intro kg j
    rw [List.foldl_cons, ih]
    rcases hga : guard a with _ | v
    · rw [hstep kg a, hga]
      simp only [List.filterMap_cons, hga]
    · rw [hstep kg a, hga]
      simp only [List.filterMap_cons, hga, List.map_cons, List.mem_cons]
      by_cases hj : j ∈ (l.filterMap guard).map (fun v => pfx ++ v)
      · rw [if_pos hj, if_pos (Or.inr hj)]
      · rw [if_neg hj]
        by_cases hjv : j = pfx ++ v
        · rw [if_pos (Or.inl hjv)]
          simp only [typeOf_addNode, if_pos hjv, hT v, updOpt]
        · rw [if_neg (by tauto)]
          simp only [typeOf_addNode, if_neg hjv]

theorem foldlAdd_arrLostAt {α : Type} (guard : α → Option String) (pfx T : String)
    (data : String → NodeData) (step : KG → α → KG)
    (hA : ∀ v, (data v).arr_lost = none)
    (hstep : ∀ kg a, step kg a =
      match guard a with
      | some v => { graph := kg.graph.addNode (pfx ++ v) (data v),
                    entity_types := kg.entity_types.addByType T v }
      | none => kg)
    (l : List α) :
    ∀ (kg : KG) (j : String),
      (l.foldl step kg).graph.arrLostAt j = kg.graph.arrLostAt j := by
  induction l with
  | nil => intro kg j; rfl
  | cons a l ih =>
    intro kg j
    rw [List.foldl_cons, ih, hstep kg a]
    rcases hga : guard a with _ | v
    · rfl
    · simp only [arrLostAt_addNode, hA v]
      by_cases hjv : j = pfx ++ v
      · rw [if_pos hjv, updOpt, hjv]
      · rw [if_neg hjv]

theorem foldlAdd_hasNode {α : Type} (guard : α → Option String) (pfx T : String)
    (data : String → NodeData) (step : KG → α → KG)
    (hstep : ∀ kg a, step kg a =
      match guard a with
      | some v => { graph := kg.graph.addNode (pfx ++ v) (data v),
                    entity_types := kg.entity_types.addByType T v }
      | none => kg)
    (l : List α) :
    ∀ (kg : KG) (j : String),
      (l.foldl step kg).graph.hasNode j ↔
        j ∈ (l.filterMap guard).map (fun v => pfx ++ v) ∨ kg.graph.hasNode j := by
  induction l with
  | nil => intro kg j; simp
  | cons a l ih =>
    intro kg j
    rw [List.foldl_cons, ih]
    rcases hga : guard a with _ | v
    · rw [hstep kg a, hga]
      simp only [List.filterMap_cons, hga]
    · rw [hstep kg a, hga]
      simp only [List.filterMap_cons, hga, List.map_cons, List.mem_cons]
      rw [hasNode_addNode]
      tauto

theorem foldlAdd_byType {α : Type} (guard : α → Option String) (pfx T : String)
    (data : String → NodeData) (step : KG → α → KG)
    (hT5 : T ∈ (["Customer", "Segment", "ChurnReason", "Competitor", "Product"] : List String))
    (hstep : ∀ kg a, step kg a =
      match guard a with
      | some v => { graph := kg.graph.addNode (pfx ++ v) (data v),
                    entity_types := kg.entity_types.addByType T v }
      | none => kg)
    (l : List α) :
    ∀ (kg : KG) (t x : String),
      t ∈ (["Customer", "Segment", "ChurnReason", "Competitor", "Product"] : List String) →
      (x ∈ ((l.foldl step kg).entity_types.byType t) ↔
        x ∈ kg.entity_types.byType t ∨ (t = T ∧ x ∈ l.filterMap guard)) := by
  induction l with
  | nil => intro kg t x _; simp
  | cons a l ih =>
    intro kg t x ht
    rw [List.foldl_cons, ih _ t x ht]
    rcases hga : guard a with _ | v
    · rw [hstep kg a, hga]
      simp only [List.filterMap_cons, hga]
    · rw [hstep kg a, hga]
      simp only [List.filterMap_cons, hga, List.mem_cons]
      rw [mem_byType_addByType _ _ _ _ _ hT5 ht]
      tauto

theorem foldlAdd_nodupByType {α : Type} (guard : α → Option String) (pfx T : String)
    (data : String → NodeData) (step : KG → α → KG)
    (hstep : ∀ kg a, step kg a =
      match guard a with
      | some v => { graph := kg.graph.addNode (pfx ++ v) (data v),
                    entity_types := kg.entity_types.addByType T v }
      | none => kg)
    (l : List α) :
    ∀ kg : KG, (∀ t, (kg.entity_types.byType t).Nodup) →
      ∀ t, (((l.foldl step kg).entity_types.byType t)).Nodup := by
  induction l with
  | nil => intro kg h t; exact h t
  | cons a l ih =>
    intro kg h t
    rw [List.foldl_cons]
    refine ih _ (fun t' => ?_) t
    rw [hstep kg a]
    rcases hga : guard a with _ | v
    · exact h t'
    · exact nodup_byType_addByType _ _ _ _ h

/-! ## Lemmas: the concrete extraction passes as guarded add-folds -/

theorem segStep_eq (kg : KG) (a : Option String) :
    segStep kg a =
      match segGuard a with
      | some v =>
        { graph := kg.graph.addNode ("SEGMENT:" ++ v)
            { type := some "Segment", name := some v },
          entity_types := kg.entity_types.addByType "Segment" v }
      | none => kg := by
  rcases a with _ | s
  · rfl
  · unfold segStep segGuard
    by_cases h : s = "" <;> simp [h]

theorem primStep_eq (kg : KG) (a : Option String) :
    primStep kg a =
      match primGuard a with
      | some v =>
        { graph := kg.graph.addNode ("REASON:" ++ v)
            { type := some "ChurnReason", name := some v, reason_type := some "primary" },
          entity_types := kg.entity_types.addByType "ChurnReason" v }
      | none => kg := by
  rcases a with _ | s
  · rfl
  · unfold primStep primGuard
    by_cases h : s = "" <;> simp [h]

theorem subStep_eq (kg : KG) (a : Option String) :
    subStep kg a =
      match subGuard a with
      | some v =>
        { graph := kg.graph.addNode ("SUBREASON:" ++ v)
            { type := some "ChurnReason", name := some v, reason_type := some "sub" },
          entity_types := kg.entity_types.addByType "ChurnReason" v }
      | none => kg := by
  rcases a with _ | s
  · rfl
  · unfold subStep subGuard
    dsimp only
    by_cases h : s ≠ "N/A" ∧ s ≠ ""
    · rw [if_pos h, if_pos h]
    · rw [if_neg h, if_neg h]

theorem compStep_eq (kg : KG) (a : Option String) :
    compStep kg a =
      match compGuard a with
      | some v =>
        { graph := kg.graph.addNode ("COMPETITOR:" ++ v)
            { type := some "Competitor", name := some v },
          entity_types := kg.entity_types.addByType "Competitor" v }
      | none => kg := by
  rcases a with _ | s
  · rfl
  · unfold compStep compGuard
    dsimp only
    by_cases h : s ≠ "" ∧ s ∉ (["None mentioned", "N/A", ""] : List String)
    · rw [if_pos h, if_pos h]
    · rw [if_neg h, if_neg h]

theorem prodStep_eq (kg : KG) (a : String) :
    prodStep kg a =
      match prodGuard a with
      | some v =>
        { graph := kg.graph.addNode ("PRODUCT:" ++ v)
            { type := some "Product", name := some v },
          entity_types := kg.entity_types.addByType "Product" v }
      | none => kg := by
  unfold prodStep prodGuard
  by_cases h : a ≠ "" ∧ a ∉ (["N/A", "None", ""] : List String)
  · rw [if_pos h, if_pos h]
  · rw [if_neg h, if_neg h]

theorem foldl_flatMap {α β σ : Type} (f : α → List β) (step : σ → β → σ) (l : List α) :
    ∀ s : σ, (l.flatMap f).foldl step s = l.foldl (fun s a => (f a).foldl step s) s := by
  induction l with
  | nil => intro s; rfl
  | cons a l ih =>
    intro s
    rw [List.flatMap_cons, List.foldl_append, List.foldl_cons, ih]

theorem extract_products_eq_foldl (kg : KG) (df : List Row) :
    _extract_products kg df = (df.flatMap rowProducts).foldl prodStep kg := by
  rw [foldl_flatMap]
  rfl

theorem extract_segments_edges (kg : KG) (df : List Row) :
    (_extract_segments kg df).graph.edges = kg.graph.edges := by
  unfold _extract_segments
  exact foldlAdd_edges segGuard "SEGMENT:" "Segment"
    (fun v => { type := some "Segment", name := some v }) segStep segStep_eq _ kg

theorem extract_segments_typeOf (kg : KG) (df : List Row) (j : String) :
    (_extract_segments kg df).graph.typeOf j =
      if j ∈ (segVals df).map (fun v => "SEGMENT:" ++ v) then some "Segment"
      else kg.graph.typeOf j := by
  unfold _extract_segments segVals
  exact foldlAdd_typeOf segGuard "SEGMENT:" "Segment"
    (fun v => { type := some "Segment", name := some v }) segStep
    (fun _ => rfl) segStep_eq _ kg j

theorem extract_segments_arrLostAt (kg : KG) (df : List Row) (j : String) :
    (_extract_segments kg df).graph.arrLostAt j = kg.graph.arrLostAt j := by
  unfold _extract_segments
  exact foldlAdd_arrLostAt segGuard "SEGMENT:" "Segment"
    (fun v => { type := some "Segment", name := some v }) segStep
    (fun _ => rfl) segStep_eq _ kg j

theorem extract_segments_hasNode (kg : KG) (df : List Row) (j : String) :
    (_extract_segments kg df).graph.hasNode j ↔
      j ∈ (segVals df).map (fun v => "SEGMENT:" ++ v) ∨ kg.graph.hasNode j := by
  unfold _extract_segments segVals
  exact foldlAdd_hasNode segGuard "SEGMENT:" "Segment"
    (fun v => { type := some "Segment", name := some v }) segStep segStep_eq
    _ kg j

theorem extract_segments_byType (kg : KG) (df : List Row) (t x : String)
    (ht : t ∈ (["Customer", "Segment", "ChurnReason", "Competitor", "Product"] : List String)) :
    x ∈ (_extract_segments kg df).entity_types.byType t ↔
      x ∈ kg.entity_types.byType t ∨ (t = "Segment" ∧ x ∈ segVals df) := by
  unfold _extract_segments segVals
  exact foldlAdd_byType segGuard "SEGMENT:" "Segment"
    (fun v => { type := some "Segment", name := some v }) segStep (by simp) segStep_eq
    _ kg t x ht

theorem extract_segments_nodup (kg : KG) (df : List Row)
    (h : ∀ t, (kg.entity_types.byType t).Nodup) (t : String) :
    ((_extract_segments kg df).entity_types.byType t).Nodup := by
  unfold _extract_segments
  exact foldlAdd_nodupByType segGuard "SEGMENT:" "Segment"
    (fun v => { type := some "Segment", name := some v }) segStep segStep_eq
    _ kg h t

theorem extract_reasons_edges (kg : KG) (df : List Row) :
    (_extract_churn_reasons kg df).graph.edges = kg.graph.edges := by
  show (((uniqueList (df.map (fun r => r.subReason))).foldl subStep
    ((uniqueList (df.map (fun r => r.primaryReason))).foldl primStep kg))).graph.edges = _
  rw [foldlAdd_edges subGuard "SUBREASON:" "ChurnReason"
      (fun v => { type := some "ChurnReason", name := some v, reason_type := some "sub" })
      subStep subStep_eq,
    foldlAdd_edges primGuard "REASON:" "ChurnReason"
      (fun v => { type := some "ChurnReason", name := some v, reason_type := some "primary" })
      primStep primStep_eq]

theorem extract_reasons_typeOf (kg : KG) (df : List Row) (j : String) :
    (_extract_churn_reasons kg df).graph.typeOf j =
      if j ∈ (subVals df).map (fun v => "SUBREASON:" ++ v) then some "ChurnReason"
      else if j ∈ (primVals df).map (fun v => "REASON:" ++ v) then some "ChurnReason"
      else kg.graph.typeOf j := by
  show (((uniqueList (df.map (fun r => r.subReason))).foldl subStep
    ((uniqueList (df.map (fun r => r.primaryReason))).foldl primStep kg))).graph.typeOf j = _
  rw [foldlAdd_typeOf subGuard "SUBREASON:" "ChurnReason"
      (fun v => { type := some "ChurnReason", name := some v, reason_type := some "sub" })
      subStep (fun _ => rfl) subStep_eq,
    foldlAdd_typeOf primGuard "REASON:" "ChurnReason"
      (fun v => { type := some "ChurnReason", name := some v, reason_type := some "primary" })
      primStep (fun _ => rfl) primStep_eq]
  rfl

theorem extract_reasons_arrLostAt (kg : KG) (df : List Row) (j : String) :
    (_extract_churn_reasons kg df).graph.arrLostAt j = kg.graph.arrLostAt j := by
  show (((uniqueList (df.map (fun r => r.subReason))).foldl subStep
    ((uniqueList (df.map (fun r => r.primaryReason))).foldl primStep kg))).graph.arrLostAt j = _
  rw [foldlAdd_arrLostAt subGuard "SUBREASON:" "ChurnReason"
      (fun v => { type := some "ChurnReason", name := some v, reason_type := some "sub" })
      subStep (fun _ => rfl) subStep_eq,
    foldlAdd_arrLostAt primGuard "REASON:" "ChurnReason"
      (fun v => { type := some "ChurnReason", name := some v, reason_type := some "primary" })
      primStep (fun _ => rfl) primStep_eq]

theorem extract_reasons_hasNode (kg : KG) (df : List Row) (j : String) :
    (_extract_churn_reasons kg df).graph.hasNode j ↔
      j ∈ (subVals df).map (fun v => "SUBREASON:" ++ v) ∨
        j ∈ (primVals df).map (fun v => "REASON:" ++ v) ∨ kg.graph.hasNode j := by
  show (((uniqueList (df.map (fun r => r.subReason))).foldl subStep
    ((uniqueList (df.map (fun r => r.primaryReason))).foldl primStep kg))).graph.hasNode j ↔ _
  rw [foldlAdd_hasNode subGuard "SUBREASON:" "ChurnReason"
      (fun v => { type := some "ChurnReason", name := some v, reason_type := some "sub" })
      subStep subStep_eq,
    foldlAdd_hasNode primGuard "REASON:" "ChurnReason"
      (fun v => { type := some "ChurnReason", name := some v, reason_type := some "primary" })
      primStep primStep_eq]
  rfl

theorem extract_reasons_byType (kg : KG) (df : List Row) (t x : String)
    (ht : t ∈ (["Customer", "Segment", "ChurnReason", "Competitor", "Product"] : List String)) :
    x ∈ (_extract_churn_reasons kg df).entity_types.byType t ↔
      x ∈ kg.entity_types.byType t ∨
        (t = "ChurnReason" ∧ (x ∈ primVals df ∨ x ∈ subVals df)) := by
  show x ∈ (((uniqueList (df.map (fun r => r.subReason))).foldl subStep
    ((uniqueList (df.map (fun r => r.primaryReason))).foldl primStep kg))).entity_types.byType t ↔ _
  rw [foldlAdd_byType subGuard "SUBREASON:" "ChurnReason"
      (fun v => { type := some "ChurnReason", name := some v, reason_type := some "sub" })
      subStep (by simp) subStep_eq _ _ t x ht,
    foldlAdd_byType primGuard "REASON:" "ChurnReason"
      (fun v => { type := some "ChurnReason", name := some v, reason_type := some "primary" })
      primStep (by simp) primStep_eq _ _ t x ht]
  tauto

theorem extract_reasons_nodup (kg : KG) (df : List Row)
    (h : ∀ t, (kg.entity_types.byType t).Nodup) (t : String) :
    ((_extract_churn_reasons kg df).entity_types.byType t).Nodup := by
  show (((((uniqueList (df.map (fun r => r.subReason)))).foldl subStep
    ((uniqueList (df.map (fun r => r.primaryReason))).foldl primStep kg))).entity_types.byType t).Nodup
  refine foldlAdd_nodupByType subGuard "SUBREASON:" "ChurnReason"
    (fun v => { type := some "ChurnReason", name := some v, reason_type := some "sub" })
    subStep subStep_eq _ _ (fun t' => ?_) t
  exact foldlAdd_nodupByType primGuard "REASON:" "ChurnReason"
    (fun v => { type := some "ChurnReason", name := some v, reason_type := some "primary" })
    primStep primStep_eq _ _ h t'

theorem extract_competitors_edges (kg : KG) (df : List Row) :
    (_extract_competitors kg df).graph.edges = kg.graph.edges := by
  show ((uniqueList (df.map (fun r => r.comp2))).foldl compStep
    ((uniqueList (df.map (fun r => r.comp1))).foldl compStep kg)).graph.edges = _
  rw [foldlAdd_edges compGuard "COMPETITOR:" "Competitor"
      (fun v => { type := some "Competitor", name := some v }) compStep compStep_eq,
    foldlAdd_edges compGuard "COMPETITOR:" "Competitor"
      (fun v => { type := some "Competitor", name := some v }) compStep compStep_eq]

theorem extract_competitors_typeOf (kg : KG) (df : List Row) (j : String) :
    (_extract_competitors kg df).graph.typeOf j =
      if j ∈ (compVals (df.map (fun r => r.comp2))).map (fun v => "COMPETITOR:" ++ v) then
        some "Competitor"
      else if j ∈ (compVals (df.map (fun r => r.comp1))).map (fun v => "COMPETITOR:" ++ v) then
        some "Competitor"
      else kg.graph.typeOf j := by
  show ((uniqueList (df.map (fun r => r.comp2))).foldl compStep
    ((uniqueList (df.map (fun r => r.comp1))).foldl compStep kg)).graph.typeOf j = _
  rw [foldlAdd_typeOf compGuard "COMPETITOR:" "Competitor"
      (fun v => { type := some "Competitor", name := some v }) compStep (fun _ => rfl) compStep_eq,
    foldlAdd_typeOf compGuard "COMPETITOR:" "Competitor"
      (fun v => { type := some "Competitor", name := some v }) compStep (fun _ => rfl) compStep_eq]
  rfl

theorem extract_competitors_arrLostAt (kg : KG) (df : List Row) (j : String) :
    (_extract_competitors kg df).graph.arrLostAt j = kg.graph.arrLostAt j := by
  show ((uniqueList (df.map (fun r => r.comp2))).foldl compStep
    ((uniqueList (df.map (fun r => r.comp1))).foldl compStep kg)).graph.arrLostAt j = _
  rw [foldlAdd_arrLostAt compGuard "COMPETITOR:" "Competitor"
      (fun v => { type := some "Competitor", name := some v }) compStep (fun _ => rfl) compStep_eq,
    foldlAdd_arrLostAt compGuard "COMPETITOR:" "Competitor"
      (fun v => { type := some "Competitor", name := some v }) compStep (fun _ => rfl) compStep_eq]

theorem extract_competitors_hasNode (kg : KG) (df : List Row) (j : String) :
    (_extract_competitors kg df).graph.hasNode j ↔
      j ∈ (compVals (df.map (fun r => r.comp2))).map (fun v => "COMPETITOR:" ++ v) ∨
        j ∈ (compVals (df.map (fun r => r.comp1))).map (fun v => "COMPETITOR:" ++ v) ∨
          kg.graph.hasNode j := by
  show ((uniqueList (df.map (fun r => r.comp2))).foldl compStep
    ((uniqueList (df.map (fun r => r.comp1))).foldl compStep kg)).graph.hasNode j ↔ _
  rw [foldlAdd_hasNode compGuard "COMPETITOR:" "Competitor"
      (fun v => { type := some "Competitor", name := some v }) compStep compStep_eq,
    foldlAdd_hasNode compGuard "COMPETITOR:" "Competitor"
      (fun v => { type := some "Competitor", name := some v }) compStep compStep_eq]
  rfl

theorem extract_competitors_byType (kg : KG) (df : List Row) (t x : String)
    (ht : t ∈ (["Customer", "Segment", "ChurnReason", "Competitor", "Product"] : List String)) :
    x ∈ (_extract_competitors kg df).entity_types.byType t ↔
      x ∈ kg.entity_types.byType t ∨
        (t = "Competitor" ∧
          (x ∈ compVals (df.map (fun r => r.comp1)) ∨ x ∈ compVals (df.map (fun r => r.comp2)))) := by
  show x ∈ ((uniqueList (df.map (fun r => r.comp2))).foldl compStep
    ((uniqueList (df.map (fun r => r.comp1))).foldl compStep kg)).entity_types.byType t ↔ _
  rw [foldlAdd_byType compGuard "COMPETITOR:" "Competitor"
      (fun v => { type := some "Competitor", name := some v }) compStep (by simp) compStep_eq _ _ t x ht,
    foldlAdd_byType compGuard "COMPETITOR:" "Competitor"
      (fun v => { type := some "Competitor", name := some v }) compStep (by simp) compStep_eq _ _ t x ht]
  tauto

theorem extract_competitors_nodup (kg : KG) (df : List Row)
    (h : ∀ t, (kg.entity_types.byType t).Nodup) (t : String) :
    ((_extract_competitors kg df).entity_types.byType t).Nodup := by
  show (((uniqueList (df.map (fun r => r.comp2))).foldl compStep
    ((uniqueList (df.map (fun r => r.comp1))).foldl compStep kg)).entity_types.byType t).Nodup
  refine foldlAdd_nodupByType compGuard "COMPETITOR:" "Competitor"
    (fun v => { type := some "Competitor", name := some v }) compStep compStep_eq _ _
    (fun t' => ?_) t
  exact foldlAdd_nodupByType compGuard "COMPETITOR:" "Competitor"
    (fun v => { type := some "Competitor", name := some v }) compStep compStep_eq _ _ h t'

theorem extract_products_edges (kg : KG) (df : List Row) :
    (_extract_products kg df).graph.edges = kg.graph.edges := by
  rw [extract_products_eq_foldl]
  exact foldlAdd_edges prodGuard "PRODUCT:" "Product"
    (fun v => { type := some "Product", name := some v }) prodStep prodStep_eq
    (df.flatMap rowProducts) kg

theorem extract_products_typeOf (kg : KG) (df : List Row) (j : String) :
    (_extract_products kg df).graph.typeOf j =
      if j ∈ (prodVals df).map (fun v => "PRODUCT:" ++ v) then some "Product"
      else kg.graph.typeOf j := by
  rw [extract_products_eq_foldl]
  exact foldlAdd_typeOf prodGuard "PRODUCT:" "Product"
    (fun v => { type := some "Product", name := some v }) prodStep
    (fun _ => rfl) prodStep_eq (df.flatMap rowProducts) kg j

theorem extract_products_arrLostAt (kg : KG) (df : List Row) (j : String) :
    (_extract_products kg df).graph.arrLostAt j = kg.graph.arrLostAt j := by
  rw [extract_products_eq_foldl]
  exact foldlAdd_arrLostAt prodGuard "PRODUCT:" "Product"
    (fun v => { type := some "Product", name := some v }) prodStep
    (fun _ => rfl) prodStep_eq (df.flatMap rowProducts) kg j

theorem extract_products_hasNode (kg : KG) (df : List Row) (j : String) :
    (_extract_products kg df).graph.hasNode j ↔
      j ∈ (prodVals df).map (fun v => "PRODUCT:" ++ v) ∨ kg.graph.hasNode j := by
  rw [extract_products_eq_foldl]
  exact foldlAdd_hasNode prodGuard "PRODUCT:" "Product"
    (fun v => { type := some "Product", name := some v }) prodStep prodStep_eq
    (df.flatMap rowProducts) kg j

theorem extract_products_byType (kg : KG) (df : List Row) (t x : String)
    (ht : t ∈ (["Customer", "Segment", "ChurnReason", "Competitor", "Product"] : List String)) :
    x ∈ (_extract_products kg df).entity_types.byType t ↔
      x ∈ kg.entity_types.byType t ∨ (t = "Product" ∧ x ∈ prodVals df) := by
  rw [extract_products_eq_foldl]
  exact foldlAdd_byType prodGuard "PRODUCT:" "Product"
    (fun v => { type := some "Product", name := some v }) prodStep (by simp) prodStep_eq
    (df.flatMap rowProducts) kg t x ht

theorem extract_products_nodup (kg : KG) (df : List Row)
    (h : ∀ t, (kg.entity_types.byType t).Nodup) (t : String) :
    ((_extract_products kg df).entity_types.byType t).Nodup := by
  rw [extract_products_eq_foldl]
  exact foldlAdd_nodupByType prodGuard "PRODUCT:" "Product"
    (fun v => { type := some "Product", name := some v }) prodStep prodStep_eq
    (df.flatMap rowProducts) kg h t

/-! ## Lemmas: the customer-extraction pass -/

theorem custStep_ok {kg kg' : KG} {r : Row} (h : custStep kg r = Except.ok kg') :
    ∃ arr, rowArrLost r.amount = Except.ok arr ∧
      kg' = { graph := kg.graph.addNode r.accountName (customerNodeData r arr),
              entity_types := kg.entity_types.addByType "Customer" r.accountName } := by
  unfold custStep at h
  rcases ha : rowArrLost r.amount with e | arr
  · rw [ha] at h
    have h2 : (Except.error e : Except String KG) = Except.ok kg' := h
    cases h2
  · rw [ha] at h
    have h2 : (Except.ok
        ({ graph := kg.graph.addNode r.accountName (customerNodeData r arr),
           entity_types := kg.entity_types.addByType "Customer" r.accountName } : KG) :
        Except String KG) = Except.ok kg' := h
    cases h2
    exact ⟨arr, rfl, rfl⟩

theorem custStep_error {kg : KG} {r : Row} {e : String}
    (h : rowArrLost r.amount = Except.error e) : custStep kg r = Except.error e := by
  unfold custStep
  rw [h]
  rfl

theorem extract_customers_edges : ∀ (df : List Row) (kg kg' : KG),
    _extract_customers kg df = Except.ok kg' → kg'.graph.edges = kg.graph.edges := by
  intro df
  induction df with
  | nil =>
    intro kg kg' h
    have h2 : (Except.ok kg : Except String KG) = Except.ok kg' := h
    cases h2
    rfl
  | cons r df ih =>
    intro kg kg' h
    have h' : custStep kg r >>= (fun kg1 => df.foldlM custStep kg1) = Except.ok kg' := h
    rcases hs : custStep kg r with e | kg1
    · rw [hs] at h'
      have h2 : (Except.error e : Except String KG) = Except.ok kg' := h'
      cases h2
    · rw [hs] at h'
      have h3 : df.foldlM custStep kg1 = Except.ok kg' := h'
      obtain ⟨arr, _, rfl⟩ := custStep_ok hs
      rw [ih _ kg' h3]
      exact edges_addNode kg.graph r.accountName (customerNodeData r arr)

theorem extract_customers_typeOf : ∀ (df : List Row) (kg kg' : KG),
    _extract_customers kg df = Except.ok kg' → ∀ j,
      kg'.graph.typeOf j =
        if j ∈ accountNames df then some "Customer" else kg.graph.typeOf j := by
  intro df
  induction df with
  | nil =>
    intro kg kg' h j
    have h2 : (Except.ok kg : Except String KG) = Except.ok kg' := h
    cases h2
    simp [accountNames]
  | cons r df ih =>
    intro kg kg' h j
    have h' : custStep kg r >>= (fun kg1 => df.foldlM custStep kg1) = Except.ok kg' := h
    rcases hs : custStep kg r with e | kg1
    · rw [hs] at h'
      have h2 : (Except.error e : Except String KG) = Except.ok kg' := h'
      cases h2
    · rw [hs] at h'
      have h3 : df.foldlM custStep kg1 = Except.ok kg' := h'
      obtain ⟨arr, _, rfl⟩ := custStep_ok hs
      rw [ih _ kg' h3 j]
      simp only [accountNames, List.map_cons, List.mem_cons]
      by_cases hj : j ∈ df.map (fun r => r.accountName)
      · rw [if_pos hj, if_pos (Or.inr (by simpa [accountNames] using hj))]
      · rw [if_neg hj]
        by_cases hjr : j = r.accountName
        · rw [if_pos (Or.inl hjr)]
          simp only [typeOf_addNode, if_pos hjr]
          rfl
        · have hno : ¬ (j = r.accountName ∨ j ∈ df.map (fun r => r.accountName)) := by
            rintro (hc | hc)
            · exact hjr hc
            · exact hj hc
          rw [if_neg hno]
          simp only [typeOf_addNode, if_neg hjr]

theorem extract_customers_arrLostAt_pres : ∀ (df : List Row) (kg kg' : KG) (j : String),
    _extract_customers kg df = Except.ok kg' → j ∉ df.map (fun r => r.accountName) →
    kg'.graph.arrLostAt j = kg.graph.arrLostAt j := by
  intro df
  induction df with
  | nil =>
    intro kg kg' j h _
    have h2 : (Except.ok kg : Except String KG) = Except.ok kg' := h
    cases h2
    rfl
  | cons r df ih =>
    intro kg kg' j h hj
    have h' : custStep kg r >>= (fun kg1 => df.foldlM custStep kg1) = Except.ok kg' := h
    rcases hs : custStep kg r with e | kg1
    · rw [hs] at h'
      have h2 : (Except.error e : Except String KG) = Except.ok kg' := h'
      cases h2
    · rw [hs] at h'
      have h3 : df.foldlM custStep kg1 = Except.ok kg' := h'
      obtain ⟨arr, _, rfl⟩ := custStep_ok hs
      simp only [List.map_cons, List.mem_cons, not_or] at hj
      rw [ih _ kg' j h3 hj.2]
      simp only [arrLostAt_addNode, if_neg hj.1]

theorem extract_customers_arrLostAt : ∀ (df : List Row) (kg kg' : KG),
    (df.map (fun r => r.accountName)).Nodup →
    _extract_customers kg df = Except.ok kg' → ∀ r ∈ df,
      ∃ arr, rowArrLost r.amount = Except.ok arr ∧
        kg'.graph.arrLostAt r.accountName = some arr := by
  intro df
  induction df with
  | nil =>
    intro kg kg' _ _ r hr
    exact absurd hr (List.not_mem_nil r)
  | cons r0 df ih =>
    intro kg kg' hnd h r hr
    have h' : custStep kg r0 >>= (fun kg1 => df.foldlM custStep kg1) = Except.ok kg' := h
    rcases hs : custStep kg r0 with e | kg1
    · rw [hs] at h'
      have h2 : (Except.error e : Except String KG) = Except.ok kg' := h'
      cases h2
    · rw [hs] at h'
      have h3 : df.foldlM custStep kg1 = Except.ok kg' := h'
      obtain ⟨arr, harr, rfl⟩ := custStep_ok hs
      simp only [List.map_cons, List.nodup_cons] at hnd
      rcases List.mem_cons.1 hr with rfl | hrdf
      · refine ⟨arr, harr, ?_⟩
        rw [extract_customers_arrLostAt_pres df _ kg' r.accountName h3 hnd.1]
        show ((kg.graph.addNode r.accountName (customerNodeData r arr))).arrLostAt
          r.accountName = _
        simp only [arrLostAt_addNode, if_pos rfl]
        rfl
      · exact ih _ kg' hnd.2 h3 r hrdf

theorem extract_customers_hasNode : ∀ (df : List Row) (kg kg' : KG),
    _extract_customers kg df = Except.ok kg' → ∀ j,
      (kg'.graph.hasNode j ↔ j ∈ accountNames df ∨ kg.graph.hasNode j) := by
  intro df
  induction df with
  | nil =>
    intro kg kg' h j
    have h2 : (Except.ok kg : Except String KG) = Except.ok kg' := h
    cases h2
    simp [accountNames]
  | cons r df ih =>
    intro kg kg' h j
    have h' : custStep kg r >>= (fun kg1 => df.foldlM custStep kg1) = Except.ok kg' := h
    rcases hs : custStep kg r with e | kg1
    · rw [hs] at h'
      have h2 : (Except.error e : Except String KG) = Except.ok kg' := h'
      cases h2
    · rw [hs] at h'
      have h3 : df.foldlM custStep kg1 = Except.ok kg' := h'
      obtain ⟨arr, _, rfl⟩ := custStep_ok hs
      rw [ih _ kg' h3 j, hasNode_addNode]
      simp only [accountNames, List.map_cons, List.mem_cons]
      tauto

theorem extract_customers_byType : ∀ (df : List Row) (kg kg' : KG),
    _extract_customers kg df = Except.ok kg' → ∀ t x,
      t ∈ (["Customer", "Segment", "ChurnReason", "Competitor", "Product"] : List String) →
      (x ∈ kg'.entity_types.byType t ↔
        x ∈ kg.entity_types.byType t ∨ (t = "Customer" ∧ x ∈ accountNames df)) := by
  intro df
  induction df with
  | nil =>
    intro kg kg' h t x _
    have h2 : (Except.ok kg : Except String KG) = Except.ok kg' := h
    cases h2
    simp [accountNames]
  | cons r df ih =>
    intro kg kg' h t x ht
    have h' : custStep kg r >>= (fun kg1 => df.foldlM custStep kg1) = Except.ok kg' := h
    rcases hs : custStep kg r with e | kg1
    · rw [hs] at h'
      have h2 : (Except.error e : Except String KG) = Except.ok kg' := h'
      cases h2
    · rw [hs] at h'
      have h3 : df.foldlM custStep kg1 = Except.ok kg' := h'
      obtain ⟨arr, _, rfl⟩ := custStep_ok hs
      rw [ih _ kg' h3 t x ht]
      rw [mem_byType_addByType _ _ _ _ _ (by simp) ht]
      simp only [accountNames, List.map_cons, List.mem_cons]
      tauto

theorem extract_customers_nodup : ∀ (df : List Row) (kg kg' : KG),
    (∀ t, (kg.entity_types.byType t).Nodup) →
    _extract_customers kg df = Except.ok kg' → ∀ t,
      (kg'.entity_types.byType t).Nodup := by
  intro df
  induction df with
  | nil =>
    intro kg kg' hn h t
    have h2 : (Except.ok kg : Except String KG) = Except.ok kg' := h
    cases h2
    exact hn t
  | cons r df ih =>
    intro kg kg' hn h t
    have h' : custStep kg r >>= (fun kg1 => df.foldlM custStep kg1) = Except.ok kg' := h
    rcases hs : custStep kg r with e | kg1
    · rw [hs] at h'
      have h2 : (Except.error e : Except String KG) = Except.ok kg' := h'
      cases h2
    · rw [hs] at h'
      have h3 : df.foldlM custStep kg1 = Except.ok kg' := h'
      obtain ⟨arr, _, rfl⟩ := custStep_ok hs
      exact ih _ kg' (fun t' => nodup_byType_addByType _ _ _ _ hn) h3 t

theorem rowArrLost_error_msg {c : Cell} {e : String}
    (h : rowArrLost c = Except.error e) : e = "could not convert string to float" := by
  unfold rowArrLost at h
  rcases c with s | q
  · dsimp only at h
    rcases hp : pyFloat (pyReplace (pyReplace s "$" "") "," "") with _ | q
    · rw [hp] at h
      simp only [Except.error.injEq] at h
      exact h.symm
    · rw [hp] at h
      cases h
  · cases h
  · cases h

theorem custStep_error_msg {kg : KG} {r : Row} {e : String}
    (h : custStep kg r = Except.error e) : e = "could not convert string to float" := by
  unfold custStep at h
  rcases ha : rowArrLost r.amount with e0 | arr
  · rw [ha] at h
    have h2 : (Except.error e0 : Except String KG) = Except.error e := h
    cases h2
    exact rowArrLost_error_msg ha
  · rw [ha] at h
    have h2 : (Except.ok
        ({ graph := kg.graph.addNode r.accountName (customerNodeData r arr),
           entity_types := kg.entity_types.addByType "Customer" r.accountName } : KG) :
        Except String KG) = Except.error e := h
    cases h2

theorem extract_customers_error : ∀ (df : List Row) (kg : KG) (r : Row),
    r ∈ df → rowArrLost r.amount = Except.error "could not convert string to float" →
    _extract_customers kg df = Except.error "could not convert string to float" := by
  intro df
  induction df with
  | nil =>
    intro kg r hr _
    exact absurd hr (List.not_mem_nil r)
  | cons r0 df ih =>
    intro kg r hr herr
    show custStep kg r0 >>= (fun kg1 => df.foldlM custStep kg1) =
      Except.error "could not convert string to float"
    rcases hs : custStep kg r0 with e | kg1
    · rw [custStep_error_msg hs]
      rfl
    · rcases List.mem_cons.1 hr with rfl | hrdf
      · obtain ⟨arr, harr, _⟩ := custStep_ok hs
        rw [harr] at herr
        cases herr
      · exact ih kg1 r hrdf herr

/-! ## Lemmas: the relationship pass -/

theorem rowEdges_shape (r : Row) (v : String) (d : EdgeData)
    (h : (v, d) ∈ rowEdges r) :
    (∃ s, v = "SEGMENT:" ++ s ∧
      d = { relationship := "BELONGS_TO", type := "customer_segment" }) ∨
    (∃ s, v = "REASON:" ++ s ∧
      d = { relationship := "CHURNED_DUE_TO", type := "customer_reason",
            churn_date := some r.closeDate }) ∨
    (∃ s, v = "SUBREASON:" ++ s ∧
      d = { relationship := "CHURNED_DUE_TO", type := "customer_subreason" }) ∨
    (∃ s, v = "COMPETITOR:" ++ s ∧ s ∉ (["None mentioned", "N/A", ""] : List String) ∧
      d = { relationship := "SWITCHED_TO", type := "customer_competitor" }) ∨
    (∃ s, v = "PRODUCT:" ++ s ∧
      d = { relationship := "USED_PRODUCT", type := "customer_product" }) := by
  unfold rowEdges at h
  rcases List.mem_append.1 h with h | h6
  rcases List.mem_append.1 h with h | h5
  rcases List.mem_append.1 h with h | h4
  rcases List.mem_append.1 h with h | h3
  rcases List.mem_append.1 h with h1 | h2
  · -- segment chunk
    left
    rcases hseg : r.segment with _ | s
    · rw [hseg] at h1
      exact absurd h1 (List.not_mem_nil _)
    · rw [hseg] at h1
      dsimp only at h1
      by_cases hs : s ≠ ""
      · rw [if_pos hs] at h1
        simp only [List.mem_singleton, Prod.mk.injEq] at h1
        exact ⟨s, h1.1, h1.2.symm ▸ rfl⟩
      · rw [if_neg hs] at h1
        exact absurd h1 (List.not_mem_nil _)
  · -- primary-reason chunk
    right; left
    rcases hp : r.primaryReason with _ | s
    · rw [hp] at h2
      exact absurd h2 (List.not_mem_nil _)
    · rw [hp] at h2
      dsimp only at h2
      by_cases hs : s ≠ ""
      · rw [if_pos hs] at h2
        simp only [List.mem_singleton, Prod.mk.injEq] at h2
        exact ⟨s, h2.1, h2.2.symm ▸ rfl⟩
      · rw [if_neg hs] at h2
        exact absurd h2 (List.not_mem_nil _)
  · -- sub-reason chunk
    right; right; left
    rcases hp : r.subReason with _ | s
    · rw [hp] at h3
      exact absurd h3 (List.not_mem_nil _)
    · rw [hp] at h3
      dsimp only at h3
      by_cases hs : s ≠ "N/A" ∧ s ≠ ""
      · rw [if_pos hs] at h3
        simp only [List.mem_singleton, Prod.mk.injEq] at h3
        exact ⟨s, h3.1, h3.2.symm ▸ rfl⟩
      · rw [if_neg hs] at h3
        exact absurd h3 (List.not_mem_nil _)
  · -- competitor-1 chunk
    right; right; right; left
    rcases hp : r.comp1 with _ | s
    · rw [hp] at h4
      exact absurd h4 (List.not_mem_nil _)
    · rw [hp] at h4
      dsimp only at h4
      by_cases hs : s ∉ (["None mentioned", "N/A", ""] : List String)
      · rw [if_pos hs] at h4
        simp only [List.mem_singleton, Prod.mk.injEq] at h4
        exact ⟨s, h4.1, hs, h4.2.symm ▸ rfl⟩
      · rw [if_neg hs] at h4
        exact absurd h4 (List.not_mem_nil _)
  · -- competitor-2 chunk
    right; right; right; left
    rcases hp : r.comp2 with _ | s
    · rw [hp] at h5
      exact absurd h5 (List.not_mem_nil _)
    · rw [hp] at h5
      dsimp only at h5
      by_cases hs : s ∉ (["None mentioned", "N/A", ""] : List String)
      · rw [if_pos hs] at h5
        simp only [List.mem_singleton, Prod.mk.injEq] at h5
        exact ⟨s, h5.1, hs, h5.2.symm ▸ rfl⟩
      · rw [if_neg hs] at h5
        exact absurd h5 (List.not_mem_nil _)
  · -- products chunk
    right; right; right; right
    rcases hp : r.products with _ | ps
    · rw [hp] at h6
      exact absurd h6 (List.not_mem_nil _)
    · rw [hp] at h6
      dsimp only at h6
      by_cases hps : ps ≠ ""
      · rw [if_pos hps] at h6
        obtain ⟨tok, _, htok⟩ := List.mem_filterMap.1 h6
        by_cases hc : tok ≠ "" ∧ tok ∉ (["N/A", "None", ""] : List String)
        · rw [if_pos hc] at htok
          simp only [Option.some.injEq, Prod.mk.injEq] at htok
          exact ⟨tok, htok.1.symm, htok.2.symm ▸ rfl⟩
        · rw [if_neg hc] at htok
          cases htok
      · rw [if_neg hps] at h6
        exact absurd h6 (List.not_mem_nil _)

theorem hasNode_foldlAddEdge (l : List (String × EdgeData)) (u : String) :
    ∀ (g : Graph) (j : String),
      (l.foldl (fun g p => g.addEdge u p.1 p.2) g).hasNode j →
        j = u ∨ (∃ p ∈ l, p.1 = j) ∨ g.hasNode j := by
  induction l with
  | nil =>
    intro g j h
    exact Or.inr (Or.inr h)
  | cons p l ih =>
    intro g j h
    rw [List.foldl_cons] at h
    rcases ih _ j h with h | ⟨q, hq, hqj⟩ | h
    · exact Or.inl h
    · exact Or.inr (Or.inl ⟨q, List.mem_cons_of_mem _ hq, hqj⟩)
    · rcases (hasNode_addEdge g u p.1 p.2 j).1 h with h | h | h
      · exact Or.inr (Or.inl ⟨p, List.mem_cons_self _ _, h.symm⟩)
      · exact Or.inl h
      · exact Or.inr (Or.inr h)

theorem mem_edges_foldlAddEdge (l : List (String × EdgeData)) (u : String) :
    ∀ (g : Graph) (x y : String) (e : EdgeData),
      (x, y, e) ∈ (l.foldl (fun g p => g.addEdge u p.1 p.2) g).edges →
        (x, y, e) ∈ g.edges ∨
          ∃ p ∈ l, x = u ∧ y = p.1 ∧ e.relationship = p.2.relationship ∧ e.type = p.2.type := by
  induction l with
  | nil =>
    intro g x y e h
    exact Or.inl h
  | cons p l ih =>
    intro g x y e h
    rw [List.foldl_cons] at h
    rcases ih _ x y e h with h | ⟨q, hq, hsp⟩
    · rcases mem_edges_addEdge h with h | ⟨hx, hy, hrel, hty⟩
      · exact Or.inl h
      · exact Or.inr ⟨p, List.mem_cons_self _ _, hx, hy, hrel, hty⟩
    · exact Or.inr ⟨q, List.mem_cons_of_mem _ hq, hsp⟩

theorem typeOf_relRow (g : Graph) (r : Row) (j : String) :
    (relRow g r).typeOf j = g.typeOf j :=
  foldlPreserves (fun g p => g.addEdge r.accountName p.1 p.2)
    (fun g' => g'.typeOf j = g.typeOf j) (rowEdges r)
    (fun s p hs => by dsimp only at hs ⊢; rw [typeOf_addEdge]; exact hs) g rfl

theorem arrLostAt_relRow (g : Graph) (r : Row) (j : String) :
    (relRow g r).arrLostAt j = g.arrLostAt j :=
  foldlPreserves (fun g p => g.addEdge r.accountName p.1 p.2)
    (fun g' => g'.arrLostAt j = g.arrLostAt j) (rowEdges r)
    (fun s p hs => by dsimp only at hs ⊢; rw [arrLostAt_addEdge]; exact hs) g rfl

theorem typeOf_build_relationships (g : Graph) (df : List Row) (j : String) :
    (_build_relationships g df).typeOf j = g.typeOf j :=
  foldlPreserves relRow (fun g' => g'.typeOf j = g.typeOf j) df
    (fun s r hs => by dsimp only at hs ⊢; rw [typeOf_relRow]; exact hs) g rfl

theorem arrLostAt_build_relationships (g : Graph) (df : List Row) (j : String) :
    (_build_relationships g df).arrLostAt j = g.arrLostAt j :=
  foldlPreserves relRow (fun g' => g'.arrLostAt j = g.arrLostAt j) df
    (fun s r hs => by dsimp only at hs ⊢; rw [arrLostAt_relRow]; exact hs) g rfl

theorem mem_edges_relRow {g : Graph} {r : Row} {x y : String} {e : EdgeData}
    (h : (x, y, e) ∈ (relRow g r).edges) :
    (x, y, e) ∈ g.edges ∨
      ∃ p ∈ rowEdges r, x = r.accountName ∧ y = p.1 ∧
        e.relationship = p.2.relationship ∧ e.type = p.2.type :=
  mem_edges_foldlAddEdge (rowEdges r) r.accountName g x y e h

theorem mem_edges_build_relationships (df : List Row) :
    ∀ (g : Graph) (x y : String) (e : EdgeData),
      (x, y, e) ∈ (_build_relationships g df).edges →
        (x, y, e) ∈ g.edges ∨
          ∃ r ∈ df, ∃ p ∈ rowEdges r, x = r.accountName ∧ y = p.1 ∧
            e.relationship = p.2.relationship ∧ e.type = p.2.type := by
  induction df with
  | nil =>
    intro g x y e h
    exact Or.inl h
  | cons r df ih =>
    intro g x y e h
    have h' : (_build_relationships (relRow g r) df).edges =
        (_build_relationships (relRow g r) df).edges := rfl
    rcases ih (relRow g r) x y e h with h2 | ⟨r', hr', rest⟩
    · rcases mem_edges_relRow h2 with h3 | ⟨p, hp, rest⟩
      · exact Or.inl h3
      · exact Or.inr ⟨r, List.mem_cons_self _ _, p, hp, rest⟩
    · exact Or.inr ⟨r', List.mem_cons_of_mem _ hr', rest⟩

theorem hasNode_build_relationships (df : List Row) :
    ∀ (g : Graph) (j : String),
      (_build_relationships g df).hasNode j →
        j ∈ accountNames df ∨ (∃ r ∈ df, ∃ p ∈ rowEdges r, p.1 = j) ∨ g.hasNode j := by
  induction df with
  | nil =>
    intro g j h
    exact Or.inr (Or.inr h)
  | cons r df ih
  =>
    intro g j h
    rcases ih (relRow g r) j h with h | ⟨r', hr', p, hp, hpj⟩ | h
    · exact Or.inl (List.mem_cons_of_mem _ h)
    · exact Or.inr (Or.inl ⟨r', List.mem_cons_of_mem _ hr', p, hp, hpj⟩)
    · rcases hasNode_foldlAddEdge (rowEdges r) r.accountName g j h with h | ⟨p, hp, hpj⟩ | h
      · exact Or.inl (by rw [h]; exact List.mem_cons_self _ _)
      · exact Or.inr (Or.inl ⟨r, List.mem_cons_self _ _, p, hp, hpj⟩)
      · exact Or.inr (Or.inr h)

theorem endpointsOk_addEdge (g : Graph) (u v : String) (d : EdgeData)
    (h : EndpointsOk g) : EndpointsOk (g.addEdge u v d) := by
  intro x y e hm
  rcases mem_edges_addEdge hm with hm | ⟨rfl, rfl, _, _⟩
  · obtain ⟨hx, hy⟩ := h x y e hm
    exact ⟨(hasNode_addEdge ..).2 (Or.inr (Or.inr hx)),
      (hasNode_addEdge ..).2 (Or.inr (Or.inr hy))⟩
  · exact ⟨(hasNode_addEdge ..).2 (Or.inr (Or.inl rfl)), (hasNode_addEdge ..).2 (Or.inl rfl)⟩

theorem endpointsOk_build_relationships (df : List Row) :
    ∀ g : Graph, EndpointsOk g → EndpointsOk (_build_relationships g df) := by
  intro g hg
  refine foldlPreserves relRow EndpointsOk df (fun s r hs => ?_) g hg
  exact foldlPreserves (fun g p => g.addEdge r.accountName p.1 p.2) EndpointsOk (rowEdges r)
    (fun s' p hs' => endpointsOk_addEdge _ _ _ _ hs') s hs

/-! ## Lemmas: node-key uniqueness and `uniqueList` -/

theorem mem_keys_iff_hasNode (g : Graph) (j : String) :
    j ∈ g.nodes.map (fun p => p.1) ↔ g.hasNode j := by
  rw [List.mem_map]
  constructor
  · rintro ⟨⟨a, d⟩, hm, rfl⟩
    exact ⟨d, hm⟩
  · rintro ⟨d, hm⟩
    exact ⟨(j, d), hm, rfl⟩

theorem keys_addNode (g : Graph) (i : String) (d : NodeData) :
    (g.addNode i d).nodes.map (fun p => p.1) =
      if (g.nodes.any fun p => p.1 = i) = true then g.nodes.map (fun p => p.1)
      else g.nodes.map (fun p => p.1) ++ [i] := by
  unfold Graph.addNode
  by_cases h : (g.nodes.any fun p => p.1 = i) = true
  · rw [if_pos h, if_pos h]
    show (g.nodes.map _).map _ = _
    rw [List.map_map]
    congr 1
    funext p
    by_cases hp : p.1 = i <;> simp [hp]
  · rw [if_neg h, if_neg h]
    simp

theorem nodupKeys_addNode (g : Graph) (i : String) (d : NodeData)
    (h : NodupKeys g) : NodupKeys (g.addNode i d) := by
  unfold NodupKeys
  rw [keys_addNode]
  by_cases hAny : (g.nodes.any fun p => p.1 = i) = true
  · rw [if_pos hAny]
    exact h
  · rw [if_neg hAny]
    rw [List.nodup_append]
    refine ⟨h, List.nodup_singleton i, ?_⟩
    intro a ha hai
    simp only [List.mem_singleton] at hai
    subst hai
    exact hAny ((hasNode_iff_any g a).1 ((mem_keys_iff_hasNode g a).1 ha))

theorem nodupKeys_ensureNode (g : Graph) (i : String)
    (h : NodupKeys g) : NodupKeys (g.ensureNode i) := by
  unfold Graph.ensureNode
  split
  case isTrue _ => exact h
  case isFalse hAny =>
    unfold NodupKeys
    simp only [List.map_append, List.map_cons, List.map_nil]
    rw [List.nodup_append]
    refine ⟨h, List.nodup_singleton i, ?_⟩
    intro a ha hai
    simp only [List.mem_singleton] at hai
    subst hai
    exact hAny ((hasNode_iff_any g a).1 ((mem_keys_iff_hasNode g a).1 ha))

theorem nodupKeys_addEdge (g : Graph) (u v : String) (d : EdgeData)
    (h : NodupKeys g) : NodupKeys (g.addEdge u v d) := by
  have h2 : NodupKeys ((g.ensureNode u).ensureNode v) :=
    nodupKeys_ensureNode _ _ (nodupKeys_ensureNode _ _ h)
  simp only [Graph.addEdge]
  split
  · exact h2
  · exact h2

theorem find?_of_mem_nodupKeys {x : String} {d : NodeData} :
    ∀ (l : List (String × NodeData)), (l.map (fun p => p.1)).Nodup → (x, d) ∈ l →
      l.find? (fun p => p.1 = x) = some (x, d) := by
  intro l
  induction l with
  | nil =>
    intro _ hm
    exact absurd hm (List.not_mem_nil _)
  | cons p l ih =>
    intro hnd hm
    simp only [List.map_cons, List.nodup_cons] at hnd
    rcases List.mem_cons.1 hm with rfl | hml
    · rw [List.find?_cons_of_pos _ (by simp)]
    · by_cases hpx : p.1 = x
      · exfalso
        apply hnd.1
        rw [hpx]
        exact List.mem_map.2 ⟨(x, d), hml, rfl⟩
      · rw [List.find?_cons_of_neg _ (by simpa using hpx)]
        exact ih hnd.2 hml

theorem mem_nodes_iff_nodeData {g : Graph} (h : NodupKeys g) (x : String) (d : NodeData) :
    (x, d) ∈ g.nodes ↔ g.nodeData x = some d := by
  constructor
  · intro hm
    unfold Graph.nodeData
    rw [find?_of_mem_nodupKeys g.nodes h hm]
    rfl
  · intro hd
    unfold Graph.nodeData at hd
    rcases hfind : g.nodes.find? (fun p => p.1 = x) with _ | p
    · rw [hfind] at hd
      cases hd
    · rw [hfind] at hd
      have hd2 : some p.2 = some d := hd
      have hd3 : p.2 = d := by cases hd2; rfl
      have hpx : p.1 = x := by simpa using List.find?_some hfind
      have hpmem := List.mem_of_find?_eq_some hfind
      rw [show (x, d) = p from Prod.ext hpx.symm hd3.symm]
      exact hpmem

theorem nodup_uniqueList {α : Type} [DecidableEq α] (l : List α) : (uniqueList l).Nodup := by
  unfold uniqueList
  refine foldlPreserves _ List.Nodup l (fun acc x hacc => ?_) [] List.nodup_nil
  dsimp only
  split
  case isTrue _ => exact hacc
  case isFalse hx =>
    rw [List.nodup_append]
    exact ⟨hacc, List.nodup_singleton x, by intro a ha hax; simp only [List.mem_singleton] at hax; subst hax; exact hx ha⟩

theorem mem_uniqueList {α : Type} [DecidableEq α] (l : List α) (x : α) :
    x ∈ uniqueList l ↔ x ∈ l := by
  unfold uniqueList
  suffices h : ∀ acc : List α, x ∈ l.foldl (fun acc x => if x ∈ acc then acc else acc ++ [x]) acc ↔ x ∈ acc ∨ x ∈ l by
    simpa using h []
  induction l with
  | nil => intro acc; simp
  | cons a l ih =>
    intro acc
    rw [List.foldl_cons, ih]
    by_cases ha : a ∈ acc
    · rw [if_pos ha]
      simp only [List.mem_cons]
      constructor
      · rintro (hx | hx)
        · exact Or.inl hx
        · exact Or.inr (Or.inr hx)
      · rintro (hx | rfl | hx)
        · exact Or.inl hx
        · exact Or.inl ha
        · exact Or.inr hx
    · rw [if_neg ha]
      simp only [List.mem_append, List.mem_singleton, List.mem_cons]
      tauto

/-! ## Lemmas: the whole pipeline -/

theorem typeOf_empty (j : String) : (({} : Graph)).typeOf j = none := rfl

theorem hasNode_empty (j : String) : ¬ (({} : Graph)).hasNode j := by
  rintro ⟨d, hd⟩
  exact absurd hd (List.not_mem_nil _)

theorem endpointsOk_addNode (g : Graph) (i : String) (d : NodeData)
    (h : EndpointsOk g) : EndpointsOk (g.addNode i d) := by
  intro x y e hm
  rw [edges_addNode] at hm
  obtain ⟨hx, hy⟩ := h x y e hm
  exact ⟨(hasNode_addNode ..).2 (Or.inr hx), (hasNode_addNode ..).2 (Or.inr hy)⟩

theorem foldlAdd_graphPred {α : Type} (guard : α → Option String) (pfx T : String)
    (data : String → NodeData) (step : KG → α → KG)
    (hstep : ∀ kg a, step kg a =
      match guard a with
      | some v => { graph := kg.graph.addNode (pfx ++ v) (data v),
                    entity_types := kg.entity_types.addByType T v }
      | none => kg)
    (P : Graph → Prop) (hP : ∀ g i d, P g → P (g.addNode i d)) (l : List α) :
    ∀ kg : KG, P kg.graph → P ((l.foldl step kg).graph) := by
  intro kg h
  refine foldlPreserves step (fun s => P s.graph) l (fun s a hs => ?_) kg h
  rw [hstep s a]
  rcases guard a with _ | v
  · exact hs
  · exact hP _ _ _ hs

theorem extract_customers_graphPred (P : Graph → Prop)
    (hP : ∀ g i d, P g → P (g.addNode i d)) :
    ∀ (df : List Row) (kg kg' : KG), P kg.graph →
      _extract_customers kg df = Except.ok kg' → P kg'.graph := by
  intro df kg kg' h hok
  refine foldlMPreserves custStep (fun s => P s.graph) df (fun s r s' hs hstep => ?_) kg kg' h hok
  obtain ⟨arr, _, rfl⟩ := custStep_ok hstep
  exact hP _ _ _ hs

theorem hasNode_mono_build_relationships (df : List Row) (g : Graph) (j : String)
    (h : g.hasNode j) : (_build_relationships g df).hasNode j := by
  refine foldlPreserves relRow (fun g' => g'.hasNode j) df (fun s r hs => ?_) g h
  exact foldlPreserves (fun g p => g.addEdge r.accountName p.1 p.2) (fun g' => g'.hasNode j)
    (rowEdges r) (fun s' p hs' => (hasNode_addEdge ..).2 (Or.inr (Or.inr hs'))) s hs

theorem build_ok_elim {df : List Row} {kg : KG} (h : build_from_dataframe df = Except.ok kg) :
    ∃ kg1, _extract_customers ({} : KG) df = Except.ok kg1 ∧
      kg = { graph := _build_relationships
               (_extract_products (_extract_competitors (_extract_churn_reasons
                 (_extract_segments kg1 df) df) df) df).graph df,
             entity_types := (_extract_products (_extract_competitors (_extract_churn_reasons
                 (_extract_segments kg1 df) df) df) df).entity_types } := by
  have h' : _extract_customers ({} : KG) df >>= (fun kg1 =>
      (Except.ok ({ graph :=
                      _build_relationships
                        (_extract_products (_extract_competitors (_extract_churn_reasons
                          (_extract_segments kg1 df) df) df) df).graph df,
                    entity_types :=
                      (_extract_products (_extract_competitors (_extract_churn_reasons
                        (_extract_segments kg1 df) df) df) df).entity_types } : KG) :
        Except String KG)) = Except.ok kg := h
  rcases hc : _extract_customers ({} : KG) df with e | kg1
  · rw [hc] at h'
    have h2 : (Except.error e : Except String KG) = Except.ok kg := h'
    cases h2
  · rw [hc] at h'
    have h2 : (Except.ok
        ({ graph := _build_relationships
             (_extract_products (_extract_competitors (_extract_churn_reasons
               (_extract_segments kg1 df) df) df) df).graph df,
           entity_types := (_extract_products (_extract_competitors (_extract_churn_reasons
               (_extract_segments kg1 df) df) df) df).entity_types } : KG) :
        Except String KG) = Except.ok kg := h'
    cases h2
    exact ⟨kg1, rfl, rfl⟩

theorem build_pre_edges {df : List Row} {kg1 : KG}
    (hc : _extract_customers ({} : KG) df = Except.ok kg1) :
    (_extract_products (_extract_competitors (_extract_churn_reasons
      (_extract_segments kg1 df) df) df) df).graph.edges = [] := by
  rw [extract_products_edges, extract_competitors_edges, extract_reasons_edges,
    extract_segments_edges, extract_customers_edges df ({} : KG) kg1 hc]

theorem build_edge_shape {df : List Row} {kg : KG}
    (h : build_from_dataframe df = Except.ok kg) {x y : String} {e : EdgeData}
    (hm : (x, y, e) ∈ kg.graph.edges) :
    ∃ r ∈ df, ∃ p ∈ rowEdges r, x = r.accountName ∧ y = p.1 ∧
      e.relationship = p.2.relationship ∧ e.type = p.2.type := by
  obtain ⟨kg1, hc, rfl⟩ := build_ok_elim h
  rcases mem_edges_build_relationships df _ x y e hm with h0 | hshape
  · rw [build_pre_edges hc] at h0
    exact absurd h0 (List.not_mem_nil _)
  · exact hshape

theorem build_nodupKeys {df : List Row} {kg : KG}
    (h : build_from_dataframe df = Except.ok kg) : NodupKeys kg.graph := by
  obtain ⟨kg1, hc, rfl⟩ := build_ok_elim h
  have h0 : NodupKeys (({} : Graph)) := List.nodup_nil
  have h1 : NodupKeys kg1.graph :=
    extract_customers_graphPred NodupKeys nodupKeys_addNode df ({} : KG) kg1 h0 hc
  have h2 : NodupKeys (_extract_segments kg1 df).graph := by
    unfold _extract_segments
    exact foldlAdd_graphPred segGuard "SEGMENT:" "Segment"
      (fun v => { type := some "Segment", name := some v }) segStep segStep_eq
      NodupKeys nodupKeys_addNode _ kg1 h1
  have h3 : NodupKeys (_extract_churn_reasons (_extract_segments kg1 df) df).graph := by
    show NodupKeys ((uniqueList (df.map (fun r => r.subReason))).foldl subStep
      ((uniqueList (df.map (fun r => r.primaryReason))).foldl primStep (_extract_segments kg1 df))).graph
    refine foldlAdd_graphPred subGuard "SUBREASON:" "ChurnReason"
      (fun v => { type := some "ChurnReason", name := some v, reason_type := some "sub" })
      subStep subStep_eq NodupKeys nodupKeys_addNode _ _ ?_
    exact foldlAdd_graphPred primGuard "REASON:" "ChurnReason"
      (fun v => { type := some "ChurnReason", name := some v, reason_type := some "primary" })
      primStep primStep_eq NodupKeys nodupKeys_addNode _ _ h2
  have h4 : NodupKeys (_extract_competitors (_extract_churn_reasons
      (_extract_segments kg1 df) df) df).graph := by
    show NodupKeys ((uniqueList (df.map (fun r => r.comp2))).foldl compStep
      ((uniqueList (df.map (fun r => r.comp1))).foldl compStep
        (_extract_churn_reasons (_extract_segments kg1 df) df))).graph
    refine foldlAdd_graphPred compGuard "COMPETITOR:" "Competitor"
      (fun v => { type := some "Competitor", name := some v })
      compStep compStep_eq NodupKeys nodupKeys_addNode _ _ ?_
    exact foldlAdd_graphPred compGuard "COMPETITOR:" "Competitor"
      (fun v => { type := some "Competitor", name := some v })
      compStep compStep_eq NodupKeys nodupKeys_addNode _ _ h3
  have h5 : NodupKeys (_extract_products (_extract_competitors (_extract_churn_reasons
      (_extract_segments kg1 df) df) df) df).graph := by
    rw [extract_products_eq_foldl]
    exact foldlAdd_graphPred prodGuard "PRODUCT:" "Product"
      (fun v => { type := some "Product", name := some v })
      prodStep prodStep_eq NodupKeys nodupKeys_addNode _ _ h4
  refine foldlPreserves relRow NodupKeys df (fun s r hs => ?_) _ h5
  exact foldlPreserves (fun g p => g.addEdge r.accountName p.1 p.2) NodupKeys (rowEdges r)
    (fun s' p hs' => nodupKeys_addEdge _ _ _ _ hs') s hs

theorem build_endpointsOk {df : List Row} {kg : KG}
    (h : build_from_dataframe df = Except.ok kg) : EndpointsOk kg.graph := by
  obtain ⟨kg1, hc, rfl⟩ := build_ok_elim h
  refine endpointsOk_build_relationships df _ ?_
  intro x y e hm
  rw [build_pre_edges hc] at hm
  exact absurd hm (List.not_mem_nil _)

theorem build_segTargetsBelong {df : List Row} {kg : KG}
    (hb : build_from_dataframe df = Except.ok kg) : SegTargetsBelong kg.graph := by
  intro x y e hm hy
  obtain ⟨r, _, p, hp, _, rfl, hrel, _⟩ := build_edge_shape hb hm
  rcases rowEdges_shape r p.1 p.2 hp with ⟨s, hs, hd⟩ | ⟨s, hs, hd⟩ | ⟨s, hs, hd⟩ |
    ⟨s, hs, _, hd⟩ | ⟨s, hs, hd⟩
  · rw [hrel, hd]
  · rw [hs] at hy
    rw [pyStartswithAppendOther s (by decide) (by decide)] at hy
    cases hy
  · rw [hs] at hy
    rw [pyStartswithAppendOther s (by decide) (by decide)] at hy
    cases hy
  · rw [hs] at hy
    rw [pyStartswithAppendOther s (by decide) (by decide)] at hy
    cases hy
  · rw [hs] at hy
    rw [pyStartswithAppendOther s (by decide) (by decide)] at hy
    cases hy

theorem mem_query_segment (g : Graph) (s x : String) :
    x ∈ query_customers_by_segment g s ↔
      g.hasNode ("SEGMENT:" ++ s) ∧ x ∈ g.predsOf ("SEGMENT:" ++ s) ∧
        g.typeOf x = some "Customer" := by
  unfold query_customers_by_segment
  dsimp only
  split
  case isTrue h =>
    rw [List.mem_filter]
    simp only [decide_eq_true_eq]
    tauto
  case isFalse h =>
    simp [h]

/-- C7, as stated, is false: `_extract_churn_reasons` excludes the sentinel
`"N/A"` only for sub-reasons, so a primary reason `"N/A"` becomes the graph
node `REASON:N/A`, and `_build_relationships` gives it an inbound
`CHURNED_DUE_TO` edge (it is an edge endpoint).  Dataset `exDFNA` holds one
row whose `Primary Outcome Reason` is `"N/A"`. -/
theorem c7_counterexample :
    exKGNA.graph.hasNode "REASON:N/A" ∧
      exKGNA.graph.predsOf "REASON:N/A" = ["NAcust"] := by
  constructor
  · decide
  · decide

/-- C7 amended: the sentinel exclusion lists are per pass (sub-reasons drop
only `N/A`; competitors drop `None mentioned`, `N/A` and the empty string;
products drop `N/A`, `None` and the empty string; segments and primary
reasons only drop null/empty).  In particular the highlighted instance does
hold: no edge of a built graph ever targets a competitor node for
`None mentioned`, so a row whose Competitor-1 field is `None mentioned`
yields no `SWITCHED_TO` edge for that column. -/
theorem c7_no_none_mentioned_target (df : List Row) (kg : KG)
    (hb : build_from_dataframe df = Except.ok kg) : NoNoneMentionedTarget kg.graph := by
  intro x y e hm
  obtain ⟨r, _, p, hp, _, rfl, _, _⟩ := build_edge_shape hb hm
  have hsplit : ("COMPETITOR:None mentioned" : String) = "COMPETITOR:" ++ "None mentioned" := rfl
  rcases rowEdges_shape r p.1 p.2 hp with ⟨s, hs, _⟩ | ⟨s, hs, _⟩ | ⟨s, hs, _⟩ |
    ⟨s, hs, hsc, _⟩ | ⟨s, hs, _⟩
  · rw [hs, hsplit]
    exact appendNeAppend s "None mentioned" (by decide) (by decide)
  · rw [hs, hsplit]
    exact appendNeAppend s "None mentioned" (by decide) (by decide)
  · rw [hs, hsplit]
    exact appendNeAppend s "None mentioned" (by decide) (by decide)
  · rw [hs, hsplit]
    intro hEq
    exact hsc (by simp [appendCancelLeftStr hEq])
  · rw [hs, hsplit]
    exact appendNeAppend s "None mentioned" (by decide) (by decide)

/-- Closed instantiation of `c7_no_none_mentioned_target` on the concrete
dataset `exDF`, whose first row has Competitor-1 `None mentioned`. -/
theorem c7_no_none_mentioned_target_witness :
    build_from_dataframe exDF = Except.ok exKG ∧ NoNoneMentionedTarget exKG.graph :=
  ⟨rfl, c7_no_none_mentioned_target exDF exKG rfl⟩

/-- C5, second conjunct, as stated, is false: the neighbor identifiers
returned by `get_neighbors(c, BELONGS_TO)` carry the `SEGMENT:` prefix, so
the bare segment name `s` is not among them. -/
theorem c5_counterexample :
    query_customers_by_segment exKG.graph "Commercial" = ["CustomerA", "CustomerB"] ∧
      (get_neighbors exKG.graph "CustomerA" (some "BELONGS_TO")).map Prod.fst =
        ["SEGMENT:Commercial"] ∧
      "Commercial" ∉ (get_neighbors exKG.graph "CustomerA" (some "BELONGS_TO")).map Prod.fst := by
  refine ⟨by decide, by decide, by decide⟩

/-- Every neighbor identifier `get_neighbors` returns on a built graph
carries a type prefix: each edge of a built graph targets a `PREFIX:`-style
id, so each returned identifier contains a colon. -/
theorem build_neighbor_ids_colon {df : List Row} {kg : KG}
    (hb : build_from_dataframe df = Except.ok kg) (x : String) (rel : Option String) :
    ∀ p ∈ get_neighbors kg.graph x rel, ':' ∈ p.1.data := by
  intro p hp
  unfold get_neighbors at hp
  split at hp
  case isTrue h =>
    have hm : p ∈ kg.graph.nbrsOut x := (List.mem_filter.1 hp).1
    have he : (x, p.1, p.2) ∈ kg.graph.edges := (mem_nbrsOut kg.graph x p.1 p.2).1 hm
    obtain ⟨r, _, q, hq, _, hy, _, _⟩ := build_edge_shape hb he
    rcases rowEdges_shape r q.1 q.2 hq with ⟨w, hw, _⟩ | ⟨w, hw, _⟩ | ⟨w, hw, _⟩ |
      ⟨w, hw, _, _⟩ | ⟨w, hw, _⟩
    · rw [hy, hw]
      exact colonMemAppend w (by decide)
    · rw [hy, hw]
      exact colonMemAppend w (by decide)
    · rw [hy, hw]
      exact colonMemAppend w (by decide)
    · rw [hy, hw]
      exact colonMemAppend w (by decide)
    · rw [hy, hw]
      exact colonMemAppend w (by decide)
  case isFalse h =>
    exact absurd hp (List.not_mem_nil p)

/-- C5 amended: `query_customers_by_segment(s)` returns exactly the customer
nodes (type attribute `Customer`) with a `BELONGS_TO` edge into segment `s`,
and each returned customer's `BELONGS_TO` neighbors include the segment's
prefixed node id `SEGMENT:s`.  Provided the queried name `s` contains no
colon (a bare name cannot collide with a `PREFIX:`-style id), the bare name
`s` never appears among the returned neighbor identifiers, under any
relationship filter — every returned identifier contains a colon. -/
theorem c5_query_exactly_belongs (df : List Row) (kg : KG)
    (hb : build_from_dataframe df = Except.ok kg) (s x : String) :
    (x ∈ query_customers_by_segment kg.graph s ↔
      kg.graph.typeOf x = some "Customer" ∧
        ∃ e, (x, "SEGMENT:" ++ s, e) ∈ kg.graph.edges ∧ e.relationship = "BELONGS_TO") ∧
    (x ∈ query_customers_by_segment kg.graph s →
      ∃ e, ("SEGMENT:" ++ s, e) ∈ get_neighbors kg.graph x (some "BELONGS_TO")) ∧
    (':' ∉ s.data →
      ∀ rel, s ∉ (get_neighbors kg.graph x rel).map Prod.fst) := by
  have hSeg := build_segTargetsBelong hb
  have hEnd := build_endpointsOk hb
  have hmain : x ∈ query_customers_by_segment kg.graph s ↔
      kg.graph.typeOf x = some "Customer" ∧
        ∃ e, (x, "SEGMENT:" ++ s, e) ∈ kg.graph.edges ∧ e.relationship = "BELONGS_TO" := by
    rw [mem_query_segment]
    constructor
    · rintro ⟨hn, hp, ht⟩
      obtain ⟨e, he⟩ := (mem_predsOf _ _ _).1 hp
      exact ⟨ht, e, he, hSeg x _ e he (pyStartswithAppendSelf "SEGMENT:" s)⟩
    · rintro ⟨ht, e, he, hrel⟩
      exact ⟨(hEnd _ _ _ he).2, (mem_predsOf _ _ _).2 ⟨e, he⟩, ht⟩
  refine ⟨hmain, fun hq => ?_, fun hcol rel hmm => ?_⟩
  · obtain ⟨ht, e, he, hrel⟩ := hmain.1 hq
    exact ⟨e, (mem_get_neighbors_some _ _ _ _ _).2 ⟨(hEnd _ _ _ he).1, he, hrel⟩⟩
  · obtain ⟨p, hp, hps⟩ := List.mem_map.1 hmm
    have hc := build_neighbor_ids_colon hb x rel p hp
    rw [hps] at hc
    exact hcol hc

/-- Closed instantiation of `c5_query_exactly_belongs`: `CustomerA` of the
concrete dataset `exDF` and segment `Commercial`. -/
theorem c5_query_exactly_belongs_witness :
    build_from_dataframe exDF = Except.ok exKG ∧
      (("CustomerA" ∈ query_customers_by_segment exKG.graph "Commercial" ↔
        exKG.graph.typeOf "CustomerA" = some "Customer" ∧
          ∃ e, ("CustomerA", "SEGMENT:" ++ "Commercial", e) ∈ exKG.graph.edges ∧
            e.relationship = "BELONGS_TO") ∧
      ("CustomerA" ∈ query_customers_by_segment exKG.graph "Commercial" →
        ∃ e, ("SEGMENT:" ++ "Commercial", e) ∈
          get_neighbors exKG.graph "CustomerA" (some "BELONGS_TO")) ∧
      (':' ∉ "Commercial".data →
        ∀ rel, "Commercial" ∉
          (get_neighbors exKG.graph "CustomerA" rel).map Prod.fst)) :=
  ⟨rfl, c5_query_exactly_belongs exDF exKG rfl "Commercial" "CustomerA"⟩

/-- `build_from_dataframe` fails exactly when the customer pass fails: a
`ValueError` of `_extract_customers` aborts the whole construction. -/
theorem build_from_dataframe_error {df : List Row} {e : String}
    (h : _extract_customers ({} : KG) df = Except.error e) :
    build_from_dataframe df = Except.error e := by
  have hb : build_from_dataframe df = _extract_customers ({} : KG) df >>= (fun kg1 =>
      (Except.ok ({ graph :=
                      _build_relationships
                        (_extract_products (_extract_competitors (_extract_churn_reasons
                          (_extract_segments kg1 df) df) df) df).graph df,
                    entity_types :=
                      (_extract_products (_extract_competitors (_extract_churn_reasons
                        (_extract_segments kg1 df) df) df) df).entity_types } : KG) :
        Except String KG)) := rfl
  rw [hb, h]
  rfl

/-- C2, as stated, is false in its record part: for a segment with no
customers `get_churn_patterns` returns the EMPTY dict `{}` (modelled as
`none`) — a dict with no keys at all, not a record reporting
`customer_count = 0` and zero means.  `exDF` builds a graph in which the
segment `NoSuchSegment` has no customers. -/
theorem c2_counterexample :
    get_churn_patterns exKG.graph "NoSuchSegment" = none ∧
      query_customers_by_segment exKG.graph "NoSuchSegment" = [] := by
  exact ⟨by decide, by decide⟩

/-- C2 amended: for a segment with no customers (in particular an unknown
segment name) `get_churn_patterns` returns the empty dict `{}` — it never
raises and in particular never divides by zero, because the aggregate record
with its mean fields is only ever computed for a non-empty customer list:
whenever a record is returned, its `customer_count` equals the number of
matching customers and is non-zero. -/
theorem c2_empty_segment_empty_dict (g : Graph) (s : String) :
    (get_churn_patterns g s = none ↔ query_customers_by_segment g s = []) ∧
    (∀ rec : PatternsRecord, get_churn_patterns g s = some rec →
      rec.segment = s ∧
        rec.customer_count = (query_customers_by_segment g s).length ∧
        rec.customer_count ≠ 0) := by
  unfold get_churn_patterns
  dsimp only
  by_cases h : (query_customers_by_segment g s).isEmpty = true
  · rw [if_pos h]
    constructor
    · simp [List.isEmpty_iff.1 h]
    · intro rec hrec
      cases hrec
  · rw [if_neg h]
    have hne : query_customers_by_segment g s ≠ [] := by
      intro hc
      rw [hc] at h
      simp at h
    constructor
    · constructor
      · intro hno
        cases hno
      · intro hq
        exact absurd hq hne
    · intro rec hrec
      cases hrec
      refine ⟨rfl, rfl, ?_⟩
      intro hc
      exact hne (List.length_eq_zero.1 hc)

/-- C1, as stated, is false in its malformed-string part: `exDFBad` holds one
row whose `Amount` is the non-numeric string `"abc"`, and construction raises
the `ValueError` (`Except.error`) instead of coercing to `0.0` — the whole
build returns no graph at all. -/
theorem c1_counterexample :
    (build_from_dataframe exDFBad).toOption = none ∧
      build_from_dataframe exDFBad =
        Except.error "could not convert string to float" := by
  exact ⟨by rfl, by rfl⟩

/-- C1 amended: `float(...)` on a cleaned `Amount` string (dollar signs and
commas stripped) that does not parse as a float raises a `ValueError` that
aborts `build_from_dataframe` (the special spellings accepted by Python's
`float`, such as `inf`/`nan`, lie outside this model and are excluded by the
`isSpecialFloatStr` guard); a missing/NaN `Amount`, by contrast, is stored
soft as `arr_lost = 0.0` on the customer node. -/
theorem c1_malformed_amount_raises (df : List Row) (r : Row) (hr : r ∈ df) :
    (∀ s, r.amount = Cell.str s →
      isSpecialFloatStr (pyReplace (pyReplace s "$" "") "," "") = false →
      pyFloat (pyReplace (pyReplace s "$" "") "," "") = none →
      build_from_dataframe df = Except.error "could not convert string to float") ∧
    ((accountNames df).Nodup → r.amount = Cell.nanv →
      ∀ kg, build_from_dataframe df = Except.ok kg →
        kg.graph.arrLostAt r.accountName = some 0) := by
  constructor
  · intro s hs _ hpf
    refine build_from_dataframe_error (extract_customers_error df ({} : KG) r hr ?_)
    unfold rowArrLost
    rw [hs]
    dsimp only
    rw [hpf]
  · intro hnd hnan kg hb
    obtain ⟨kg1, hc, rfl⟩ := build_ok_elim hb
    dsimp only
    rw [arrLostAt_build_relationships, extract_products_arrLostAt,
      extract_competitors_arrLostAt, extract_reasons_arrLostAt,
      extract_segments_arrLostAt]
    obtain ⟨arr, harr, hval⟩ :=
      extract_customers_arrLostAt df ({} : KG) kg1 hnd hc r hr
    rw [hnan] at harr
    have h0 : (Except.ok (0 : Rat) : Except String Rat) = Except.ok arr := harr
    cases h0
    exact hval

/-- Closed instantiation of `c1_malformed_amount_raises`: `rowD` of `exDF`
has a NaN `Amount`, and the built graph stores its `arr_lost` as `0`. -/
theorem c1_malformed_amount_raises_witness :
    rowD ∈ exDF ∧
      ((∀ s, rowD.amount = Cell.str s →
        isSpecialFloatStr (pyReplace (pyReplace s "$" "") "," "") = false →
        pyFloat (pyReplace (pyReplace s "$" "") "," "") = none →
        build_from_dataframe exDF = Except.error "could not convert string to float") ∧
      ((accountNames exDF).Nodup → rowD.amount = Cell.nanv →
        ∀ kg, build_from_dataframe exDF = Except.ok kg →
          kg.graph.arrLostAt rowD.accountName = some 0)) :=
  ⟨by decide, c1_malformed_amount_raises exDF rowD (by decide)⟩

/-- The `list(set())` identifier sets of a fresh instance are empty for every
type key. -/
theorem byType_empty (t : String) : (({} : EntityTypes)).byType t = [] := by
  unfold EntityTypes.byType
  split_ifs <;> rfl

/-- The identifier sets of a fresh instance are trivially duplicate-free. -/
theorem byType_empty_nodup (t : String) : ((({} : KG)).entity_types.byType t).Nodup := by
  rw [show (({} : KG)).entity_types = ({} : EntityTypes) from rfl, byType_empty]
  exact List.nodup_nil

/-- C3, as stated, is false: reason nodes are keyed by PREFIXED text —
`REASON:` for primary reasons, `SUBREASON:` for sub-reasons — so the same
text `Pricing` appearing as both primary reason and sub-reason (row `rowA` of
`exDF`) yields TWO distinct graph nodes, not one. -/
theorem c3_counterexample :
    exKG.graph.hasNode "REASON:Pricing" ∧ exKG.graph.hasNode "SUBREASON:Pricing" ∧
      ("REASON:Pricing" : String) ≠ "SUBREASON:Pricing" ∧
      ((exKG.graph.nodeData "REASON:Pricing").getD {}).reason_type = some "primary" ∧
      ((exKG.graph.nodeData "SUBREASON:Pricing").getD {}).reason_type = some "sub" := by
  exact ⟨by decide, by decide, by decide, by decide, by decide⟩

/-- C3 amended: a text `t` occurring both as an accepted primary reason and
as an accepted sub-reason produces two DISTINCT graph nodes, `REASON:t` and
`SUBREASON:t` (node ids carry the reason type as a prefix); only the
`entity_types` index collapses the two onto a single `ChurnReason` entry for
the bare text `t`. -/
theorem c3_same_text_two_reason_nodes (df : List Row) (kg : KG) (t : String)
    (hb : build_from_dataframe df = Except.ok kg)
    (hp : t ∈ primVals df) (hs : t ∈ subVals df) :
    kg.graph.hasNode ("REASON:" ++ t) ∧ kg.graph.hasNode ("SUBREASON:" ++ t) ∧
      ("REASON:" ++ t) ≠ ("SUBREASON:" ++ t) ∧
      kg.entity_types.churnReason.count t = 1 := by
  obtain ⟨kg1, hc, rfl⟩ := build_ok_elim hb
  dsimp only
  have hnodup : ∀ t', ((_extract_products (_extract_competitors (_extract_churn_reasons
      (_extract_segments kg1 df) df) df) df).entity_types.byType t').Nodup := by
    intro t'
    refine extract_products_nodup _ df (fun t2 => ?_) t'
    refine extract_competitors_nodup _ df (fun t3 => ?_) t2
    refine extract_reasons_nodup _ df (fun t4 => ?_) t3
    refine extract_segments_nodup _ df (fun t5 => ?_) t4
    exact extract_customers_nodup df ({} : KG) kg1 byType_empty_nodup hc t5
  have hmem : t ∈ (_extract_products (_extract_competitors (_extract_churn_reasons
      (_extract_segments kg1 df) df) df) df).entity_types.byType "ChurnReason" := by
    refine (extract_products_byType _ df "ChurnReason" t (by simp)).2 (Or.inl ?_)
    refine (extract_competitors_byType _ df "ChurnReason" t (by simp)).2 (Or.inl ?_)
    exact (extract_reasons_byType _ df "ChurnReason" t (by simp)).2
      (Or.inr ⟨rfl, Or.inl hp⟩)
  have hby : (_extract_products (_extract_competitors (_extract_churn_reasons
      (_extract_segments kg1 df) df) df) df).entity_types.byType "ChurnReason" =
      (_extract_products (_extract_competitors (_extract_churn_reasons
        (_extract_segments kg1 df) df) df) df).entity_types.churnReason := by
    simp [EntityTypes.byType]
  refine ⟨?_, ?_, ?_, ?_⟩
  · refine hasNode_mono_build_relationships df _ _ ?_
    refine (extract_products_hasNode _ df _).2 (Or.inr ?_)
    refine (extract_competitors_hasNode _ df _).2 (Or.inr (Or.inr ?_))
    exact (extract_reasons_hasNode _ df _).2
      (Or.inr (Or.inl (List.mem_map.2 ⟨t, hp, rfl⟩)))
  · refine hasNode_mono_build_relationships df _ _ ?_
    refine (extract_products_hasNode _ df _).2 (Or.inr ?_)
    refine (extract_competitors_hasNode _ df _).2 (Or.inr (Or.inr ?_))
    exact (extract_reasons_hasNode _ df _).2
      (Or.inl (List.mem_map.2 ⟨t, hs, rfl⟩))
  · exact appendNeAppend t t (by decide) (by decide)
  · rw [← hby]
    exact List.count_eq_one_of_mem (hnodup "ChurnReason") hmem

/-- Closed instantiation of `c3_same_text_two_reason_nodes`: the text
`Pricing` occurs in `exDF` both as a primary reason and as a sub-reason. -/
theorem c3_same_text_two_reason_nodes_witness :
    (build_from_dataframe exDF = Except.ok exKG ∧
        "Pricing" ∈ primVals exDF ∧ "Pricing" ∈ subVals exDF) ∧
      (exKG.graph.hasNode ("REASON:" ++ "Pricing") ∧
        exKG.graph.hasNode ("SUBREASON:" ++ "Pricing") ∧
        ("REASON:" ++ "Pricing") ≠ ("SUBREASON:" ++ "Pricing") ∧
        exKG.entity_types.churnReason.count "Pricing" = 1) :=
  ⟨⟨rfl, by decide, by decide⟩,
    c3_same_text_two_reason_nodes exDF exKG "Pricing" rfl (by decide) (by decide)⟩

/-- A `PREFIX:`-style id never lies in the image of a map prepending a
different (mutually non-prefixing) prefix. -/
theorem notMemPrefixed {p q : String} (v : String) (l : List String)
    (h1 : q.data.isPrefixOf p.data = false) (h2 : p.data.isPrefixOf q.data = false) :
    p ++ v ∉ l.map (fun w => q ++ w) := by
  intro hm
  obtain ⟨w, _, hw⟩ := List.mem_map.1 hm
  exact absurd hw (appendNeAppend w v h1 h2)

/-- `segGuard` only ever returns the value it was given. -/
theorem segGuard_eq_some {a : Option String} {b : String}
    (h : segGuard a = some b) : a = some b := by
  rcases a with _ | s
  · cases h
  · unfold segGuard at h
    dsimp only at h
    split_ifs at h
    exact h

/-- The accepted segment values are pairwise distinct (`unique()` plus a
value-preserving guard). -/
theorem segVals_nodup (df : List Row) : (segVals df).Nodup := by
  unfold segVals
  refine List.Nodup.filterMap ?_ (nodup_uniqueList _)
  intro a a' b hb hb'
  rw [Option.mem_def] at hb hb'
  rw [segGuard_eq_some hb, segGuard_eq_some hb']

/-- After the whole build, a node's `type` attribute is `Segment` exactly for
the `SEGMENT:`-prefixed ids of the accepted segment values: no later pass
overwrites a `Segment` node's type (all other prefixed namespaces are
disjoint), and bare customer ids get type `Customer`. -/
theorem build_typeOf_segment {df : List Row} {kg : KG}
    (hb : build_from_dataframe df = Except.ok kg) (j : String) :
    kg.graph.typeOf j = some "Segment" ↔
      j ∈ (segVals df).map (fun v => "SEGMENT:" ++ v) := by
  obtain ⟨kg1, hc, rfl⟩ := build_ok_elim hb
  dsimp only
  rw [typeOf_build_relationships, extract_products_typeOf, extract_competitors_typeOf,
    extract_reasons_typeOf, extract_segments_typeOf,
    extract_customers_typeOf df ({} : KG) kg1 hc j, typeOf_empty]
  constructor
  · intro h
    split_ifs at h with h1 h2 h3 h4 h5 h6 h7
    · exact absurd (Option.some.inj h) (by decide)
    · exact absurd (Option.some.inj h) (by decide)
    · exact absurd (Option.some.inj h) (by decide)
    · exact absurd (Option.some.inj h) (by decide)
    · exact absurd (Option.some.inj h) (by decide)
    · exact h6
    · exact absurd (Option.some.inj h) (by decide)
  · intro hmem
    obtain ⟨v, hv, rfl⟩ := List.mem_map.1 hmem
    rw [if_neg (notMemPrefixed v _ (by decide) (by decide)),
      if_neg (notMemPrefixed v _ (by decide) (by decide)),
      if_neg (notMemPrefixed v _ (by decide) (by decide)),
      if_neg (notMemPrefixed v _ (by decide) (by decide)),
      if_neg (notMemPrefixed v _ (by decide) (by decide)),
      if_pos hmem]

/-- Counting nodes by `type` attribute under `NodupKeys`: if the
`Segment`-typed node ids are exactly a duplicate-free id list, the node count
equals that list's length. -/
theorem segTypedNodeCount_eq {g : Graph} (hnd : NodupKeys g) (ids : List String)
    (hids : ids.Nodup)
    (hiff : ∀ j, g.typeOf j = some "Segment" ↔ j ∈ ids) :
    segTypedNodeCount g = ids.length := by
  have hsub : List.Sublist
      ((g.nodes.filter (fun p => p.2.type = some "Segment")).map (fun p => p.1))
      (g.nodes.map (fun p => p.1)) :=
    List.Sublist.map _ (List.filter_sublist _)
  have hLnodup := List.Nodup.sublist hsub hnd
  have hmem : ∀ j,
      j ∈ (g.nodes.filter (fun p => p.2.type = some "Segment")).map (fun p => p.1) ↔
        j ∈ ids := by
    intro j
    rw [← hiff j, List.mem_map]
    constructor
    · rintro ⟨⟨i, d⟩, hpf, rfl⟩
      obtain ⟨hm, hP⟩ := List.mem_filter.1 hpf
      have hdata : Graph.nodeData g i = some d := (mem_nodes_iff_nodeData hnd i d).1 hm
      unfold Graph.typeOf
      rw [hdata]
      simpa using hP
    · intro hT
      rcases hdata : Graph.nodeData g j with _ | d
      · unfold Graph.typeOf at hT
        rw [hdata] at hT
        cases hT
      · have hm := (mem_nodes_iff_nodeData hnd j d).2 hdata
        refine ⟨(j, d), List.mem_filter.2 ⟨hm, ?_⟩, rfl⟩
        unfold Graph.typeOf at hT
        rw [hdata] at hT
        simpa using hT
  have hperm := (List.perm_ext_iff_of_nodup hLnodup hids).2 hmem
  unfold segTypedNodeCount
  rw [← hperm.length_eq, List.length_map]

/-- C8: for a dataset with `S` distinct accepted (non-null, non-empty)
segment values, the built graph holds exactly `S` nodes whose `type`
attribute is `Segment` — duplicate segment values across rows collapse onto
one node (`unique()` deduplicates, and node ids are keyed by value). -/
theorem c8_segment_count (df : List Row) (kg : KG)
    (hb : build_from_dataframe df = Except.ok kg) :
    segTypedNodeCount kg.graph = (segVals df).length ∧ (segVals df).Nodup := by
  refine ⟨?_, segVals_nodup df⟩
  have h1 := segTypedNodeCount_eq (build_nodupKeys hb)
    ((segVals df).map (fun v => "SEGMENT:" ++ v))
    (List.Nodup.map (fun a b h => appendCancelLeftStr h) (segVals_nodup df))
    (build_typeOf_segment hb)
  rw [h1, List.length_map]

/-- Closed instantiation of `c8_segment_count`: `exDF` has four rows but only
three distinct segment values, and the built graph has three `Segment`
nodes. -/
theorem c8_segment_count_witness :
    build_from_dataframe exDF = Except.ok exKG ∧
      (segTypedNodeCount exKG.graph = (segVals exDF).length ∧ (segVals exDF).Nodup) :=
  ⟨rfl, c8_segment_count exDF exKG rfl⟩

/-- `primGuard` only ever returns the value it was given. -/
theorem primGuard_eq_some {a : Option String} {b : String}
    (h : primGuard a = some b) : a = some b := by
  rcases a with _ | s
  · cases h
  · unfold primGuard at h
    dsimp only at h
    split_ifs at h
    exact h

/-- `subGuard` only ever returns the value it was given. -/
theorem subGuard_eq_some {a : Option String} {b : String}
    (h : subGuard a = some b) : a = some b := by
  rcases a with _ | s
  · cases h
  · unfold subGuard at h
    dsimp only at h
    split_ifs at h
    exact h

/-- `compGuard` only ever returns the value it was given. -/
theorem compGuard_eq_some {a : Option String} {b : String}
    (h : compGuard a = some b) : a = some b := by
  rcases a with _ | s
  · cases h
  · unfold compGuard at h
    dsimp only at h
    split_ifs at h
    exact h

/-- `prodGuard` only ever returns the value it was given. -/
theorem prodGuard_eq_some {a b : String} (h : prodGuard a = some b) : a = b := by
  unfold prodGuard at h
  split_ifs at h
  exact Option.some.inj h

/-- Accepted segment values are entity values of the dataset. -/
theorem segVals_sub_entityVals {df : List Row} {v : String} (h : v ∈ segVals df) :
    v ∈ entityVals df := by
  unfold segVals at h
  obtain ⟨a, ha, hg⟩ := List.mem_filterMap.1 h
  rw [segGuard_eq_some hg] at ha
  obtain ⟨r, hr, hrs⟩ := List.mem_map.1 ((mem_uniqueList _ _).1 ha)
  unfold entityVals
  exact List.mem_flatMap.2 ⟨r, hr, by simp [show r.segment = some v from hrs]⟩

/-- Accepted primary-reason values are entity values of the dataset. -/
theorem primVals_sub_entityVals {df : List Row} {v : String} (h : v ∈ primVals df) :
    v ∈ entityVals df := by
  unfold primVals at h
  obtain ⟨a, ha, hg⟩ := List.mem_filterMap.1 h
  rw [primGuard_eq_some hg] at ha
  obtain ⟨r, hr, hrs⟩ := List.mem_map.1 ((mem_uniqueList _ _).1 ha)
  unfold entityVals
  exact List.mem_flatMap.2 ⟨r, hr, by simp [show r.primaryReason = some v from hrs]⟩

/-- Accepted sub-reason values are entity values of the dataset. -/
theorem subVals_sub_entityVals {df : List Row} {v : String} (h : v ∈ subVals df) :
    v ∈ entityVals df := by
  unfold subVals at h
  obtain ⟨a, ha, hg⟩ := List.mem_filterMap.1 h
  rw [subGuard_eq_some hg] at ha
  obtain ⟨r, hr, hrs⟩ := List.mem_map.1 ((mem_uniqueList _ _).1 ha)
  unfold entityVals
  exact List.mem_flatMap.2 ⟨r, hr, by simp [show r.subReason = some v from hrs]⟩

/-- Accepted Competitor-1 values are entity values of the dataset. -/
theorem compVals1_sub_entityVals {df : List Row} {v : String}
    (h : v ∈ compVals (df.map (fun r => r.comp1))) : v ∈ entityVals df := by
  unfold compVals at h
  obtain ⟨a, ha, hg⟩ := List.mem_filterMap.1 h
  rw [compGuard_eq_some hg] at ha
  obtain ⟨r, hr, hrs⟩ := List.mem_map.1 ((mem_uniqueList _ _).1 ha)
  unfold entityVals
  exact List.mem_flatMap.2 ⟨r, hr, by simp [show r.comp1 = some v from hrs]⟩

/-- Accepted Competitor-2 values are entity values of the dataset. -/
theorem compVals2_sub_entityVals {df : List Row} {v : String}
    (h : v ∈ compVals (df.map (fun r => r.comp2))) : v ∈ entityVals df := by
  unfold compVals at h
  obtain ⟨a, ha, hg⟩ := List.mem_filterMap.1 h
  rw [compGuard_eq_some hg] at ha
  obtain ⟨r, hr, hrs⟩ := List.mem_map.1 ((mem_uniqueList _ _).1 ha)
  unfold entityVals
  exact List.mem_flatMap.2 ⟨r, hr, by simp [show r.comp2 = some v from hrs]⟩

/-- Accepted product tokens are entity values of the dataset. -/
theorem prodVals_sub_entityVals {df : List Row} {v : String} (h : v ∈ prodVals df) :
    v ∈ entityVals df := by
  unfold prodVals at h
  obtain ⟨a, ha, hg⟩ := List.mem_filterMap.1 h
  rw [prodGuard_eq_some hg] at ha
  obtain ⟨r, hr, hra⟩ := List.mem_flatMap.1 ha
  unfold entityVals
  refine List.mem_flatMap.2 ⟨r, hr, ?_⟩
  unfold rowProducts at hra
  rcases hq : r.products with _ | p
  · rw [hq] at hra
    exact absurd hra (List.not_mem_nil _)
  · rw [hq] at hra
    dsimp only at hra
    split_ifs at hra with hp
    · simp [hq, hra]
    · exact absurd hra (List.not_mem_nil _)

/-- Under the colon-hygiene assumption no entity value contains a colon. -/
theorem cleanVals_no_colon {df : List Row} (h : cleanValsB df = true) {v : String}
    (hv : v ∈ entityVals df) : ':' ∉ v.data := by
  unfold cleanValsB at h
  have h2 := List.all_eq_true.1 h v hv
  simpa using h2

/-- Every node id of a built graph is either an account name or contains a
colon (all entity node ids carry a `PREFIX:`). -/
theorem build_nodeIdsTame {df : List Row} {kg : KG}
    (hb : build_from_dataframe df = Except.ok kg) : NodeIdsTame df kg.graph := by
  obtain ⟨kg1, hc, rfl⟩ := build_ok_elim hb
  intro i hi
  dsimp only at hi
  rcases hasNode_build_relationships df _ i hi with h | ⟨r, _, p, hp, hpj⟩ | h
  · exact Or.inl h
  · rcases rowEdges_shape r p.1 p.2 hp with ⟨s, hs, _⟩ | ⟨s, hs, _⟩ | ⟨s, hs, _⟩ |
      ⟨s, hs, _, _⟩ | ⟨s, hs, _⟩
    · right
      rw [← hpj, hs]
      exact colonMemAppend s (by decide)
    · right
      rw [← hpj, hs]
      exact colonMemAppend s (by decide)
    · right
      rw [← hpj, hs]
      exact colonMemAppend s (by decide)
    · right
      rw [← hpj, hs]
      exact colonMemAppend s (by decide)
    · right
      rw [← hpj, hs]
      exact colonMemAppend s (by decide)
  · rcases (extract_products_hasNode _ df i).1 h with hm | h2
    · obtain ⟨w, _, rfl⟩ := List.mem_map.1 hm
      exact Or.inr (colonMemAppend w (by decide))
    rcases (extract_competitors_hasNode _ df i).1 h2 with hm | hm | h3
    · obtain ⟨w, _, rfl⟩ := List.mem_map.1 hm
      exact Or.inr (colonMemAppend w (by decide))
    · obtain ⟨w, _, rfl⟩ := List.mem_map.1 hm
      exact Or.inr (colonMemAppend w (by decide))
    rcases (extract_reasons_hasNode _ df i).1 h3 with hm | hm | h4
    · obtain ⟨w, _, rfl⟩ := List.mem_map.1 hm
      exact Or.inr (colonMemAppend w (by decide))
    · obtain ⟨w, _, rfl⟩ := List.mem_map.1 hm
      exact Or.inr (colonMemAppend w (by decide))
    rcases (extract_segments_hasNode _ df i).1 h4 with hm | h5
    · obtain ⟨w, _, rfl⟩ := List.mem_map.1 hm
      exact Or.inr (colonMemAppend w (by decide))
    rcases (extract_customers_hasNode df ({} : KG) kg1 hc i).1 h5 with hm | h6
    · exact Or.inl hm
    · exact absurd h6 (hasNode_empty i)

/-- The fully-built `entity_types` index, characterised per type key. -/
theorem build_byType {df : List Row} {kg : KG}
    (hb : build_from_dataframe df = Except.ok kg) (t x : String)
    (ht : t ∈ (["Customer", "Segment", "ChurnReason", "Competitor", "Product"] : List String)) :
    x ∈ kg.entity_types.byType t ↔
      (t = "Customer" ∧ x ∈ accountNames df) ∨
      (t = "Segment" ∧ x ∈ segVals df) ∨
      (t = "ChurnReason" ∧ (x ∈ primVals df ∨ x ∈ subVals df)) ∨
      (t = "Competitor" ∧
        (x ∈ compVals (df.map (fun r => r.comp1)) ∨
          x ∈ compVals (df.map (fun r => r.comp2)))) ∨
      (t = "Product" ∧ x ∈ prodVals df) := by
  obtain ⟨kg1, hc, rfl⟩ := build_ok_elim hb
  dsimp only
  rw [extract_products_byType _ df t x ht, extract_competitors_byType _ df t x ht,
    extract_reasons_byType _ df t x ht, extract_segments_byType _ df t x ht,
    extract_customers_byType df ({} : KG) kg1 hc t x ht,
    show (({} : KG)).entity_types = ({} : EntityTypes) from rfl, byType_empty]
  simp only [List.not_mem_nil, false_or]
  tauto

/-- The `Segment` identifier set of a built graph is exactly the accepted
segment values. -/
theorem build_byType_segment {df : List Row} {kg : KG}
    (hb : build_from_dataframe df = Except.ok kg) (x : String) :
    x ∈ kg.entity_types.byType "Segment" ↔ x ∈ segVals df := by
  rw [build_byType hb "Segment" x (by simp)]
  simp

/-- The `ChurnReason` identifier set of a built graph is exactly the accepted
primary and sub reason values. -/
theorem build_byType_churnReason {df : List Row} {kg : KG}
    (hb : build_from_dataframe df = Except.ok kg) (x : String) :
    x ∈ kg.entity_types.byType "ChurnReason" ↔
      x ∈ primVals df ∨ x ∈ subVals df := by
  rw [build_byType hb "ChurnReason" x (by simp)]
  simp

/-- The `Competitor` identifier set of a built graph is exactly the accepted
values of the two competitor columns. -/
theorem build_byType_competitor {df : List Row} {kg : KG}
    (hb : build_from_dataframe df = Except.ok kg) (x : String) :
    x ∈ kg.entity_types.byType "Competitor" ↔
      x ∈ compVals (df.map (fun r => r.comp1)) ∨
        x ∈ compVals (df.map (fun r => r.comp2)) := by
  rw [build_byType hb "Competitor" x (by simp)]
  simp

/-- The `Product` identifier set of a built graph is exactly the accepted
product tokens. -/
theorem build_byType_product {df : List Row} {kg : KG}
    (hb : build_from_dataframe df = Except.ok kg) (x : String) :
    x ∈ kg.entity_types.byType "Product" ↔ x ∈ prodVals df := by
  rw [build_byType hb "Product" x (by simp)]
  simp

/-- The `Customer` identifier set of a built graph is exactly the account
names. -/
theorem build_byType_customer {df : List Row} {kg : KG}
    (hb : build_from_dataframe df = Except.ok kg) (x : String) :
    x ∈ kg.entity_types.byType "Customer" ↔ x ∈ accountNames df := by
  rw [build_byType hb "Customer" x (by simp)]
  simp

/-- Every accepted segment value has its prefixed node in the built graph. -/
theorem build_hasNode_segVal {df : List Row} {kg : KG}
    (hb : build_from_dataframe df = Except.ok kg) {v : String} (hv : v ∈ segVals df) :
    kg.graph.hasNode ("SEGMENT:" ++ v) := by
  obtain ⟨kg1, hc, rfl⟩ := build_ok_elim hb
  dsimp only
  refine hasNode_mono_build_relationships df _ _ ?_
  refine (extract_products_hasNode _ df _).2 (Or.inr ?_)
  refine (extract_competitors_hasNode _ df _).2 (Or.inr (Or.inr ?_))
  refine (extract_reasons_hasNode _ df _).2 (Or.inr (Or.inr ?_))
  exact (extract_segments_hasNode _ df _).2 (Or.inl (List.mem_map.2 ⟨v, hv, rfl⟩))

/-- Every accepted primary reason has its `REASON:` node in the built
graph. -/
theorem build_hasNode_primVal {df : List Row} {kg : KG}
    (hb : build_from_dataframe df = Except.ok kg) {v : String} (hv : v ∈ primVals df) :
    kg.graph.hasNode ("REASON:" ++ v) := by
  obtain ⟨kg1, hc, rfl⟩ := build_ok_elim hb
  dsimp only
  refine hasNode_mono_build_relationships df _ _ ?_
  refine (extract_products_hasNode _ df _).2 (Or.inr ?_)
  refine (extract_competitors_hasNode _ df _).2 (Or.inr (Or.inr ?_))
  exact (extract_reasons_hasNode _ df _).2 (Or.inr (Or.inl (List.mem_map.2 ⟨v, hv, rfl⟩)))

/-- Every accepted sub-reason has its `SUBREASON:` node in the built graph. -/
theorem build_hasNode_subVal {df : List Row} {kg : KG}
    (hb : build_from_dataframe df = Except.ok kg) {v : String} (hv : v ∈ subVals df) :
    kg.graph.hasNode ("SUBREASON:" ++ v) := by
  obtain ⟨kg1, hc, rfl⟩ := build_ok_elim hb
  dsimp only
  refine hasNode_mono_build_relationships df _ _ ?_
  refine (extract_products_hasNode _ df _).2 (Or.inr ?_)
  refine (extract_competitors_hasNode _ df _).2 (Or.inr (Or.inr ?_))
  exact (extract_reasons_hasNode _ df _).2 (Or.inl (List.mem_map.2 ⟨v, hv, rfl⟩))

/-- Every accepted Competitor-1 value has its `COMPETITOR:` node in the built
graph. -/
theorem build_hasNode_compVal1 {df : List Row} {kg : KG}
    (hb : build_from_dataframe df = Except.ok kg) {v : String}
    (hv : v ∈ compVals (df.map (fun r => r.comp1))) :
    kg.graph.hasNode ("COMPETITOR:" ++ v) := by
  obtain ⟨kg1, hc, rfl⟩ := build_ok_elim hb
  dsimp only
  refine hasNode_mono_build_relationships df _ _ ?_
  refine (extract_products_hasNode _ df _).2 (Or.inr ?_)
  exact (extract_competitors_hasNode _ df _).2 (Or.inr (Or.inl (List.mem_map.2 ⟨v, hv, rfl⟩)))

/-- Every accepted Competitor-2 value has its `COMPETITOR:` node in the built
graph. -/
theorem build_hasNode_compVal2 {df : List Row} {kg : KG}
    (hb : build_from_dataframe df = Except.ok kg) {v : String}
    (hv : v ∈ compVals (df.map (fun r => r.comp2))) :
    kg.graph.hasNode ("COMPETITOR:" ++ v) := by
  obtain ⟨kg1, hc, rfl⟩ := build_ok_elim hb
  dsimp only
  refine hasNode_mono_build_relationships df _ _ ?_
  refine (extract_products_hasNode _ df _).2 (Or.inr ?_)
  exact (extract_competitors_hasNode _ df _).2 (Or.inl (List.mem_map.2 ⟨v, hv, rfl⟩))

/-- Every accepted product token has its `PRODUCT:` node in the built
graph. -/
theorem build_hasNode_prodVal {df : List Row} {kg : KG}
    (hb : build_from_dataframe df = Except.ok kg) {v : String} (hv : v ∈ prodVals df) :
    kg.graph.hasNode ("PRODUCT:" ++ v) := by
  obtain ⟨kg1, hc, rfl⟩ := build_ok_elim hb
  dsimp only
  refine hasNode_mono_build_relationships df _ _ ?_
  exact (extract_products_hasNode _ df _).2 (Or.inl (List.mem_map.2 ⟨v, hv, rfl⟩))

/-- C9's conclusion is not unconditional: a segment VALUE may itself carry
the `SEGMENT:` prefix.  In `exDFPfx`, the value `SEGMENT:Foo` puts the bare
identifier `SEGMENT:Foo` into the `Segment` index, while the value `Foo` of
the other row creates the graph node with the very same id `SEGMENT:Foo` —
so the index identifier IS a node id even though no Customer shares it. -/
theorem c9_counterexample :
    "SEGMENT:Foo" ∈ get_entity_by_type exKGPfx "Segment" ∧
      exKGPfx.graph.hasNode "SEGMENT:Foo" ∧
      "SEGMENT:Foo" ∉ accountNames exDFPfx ∧
      exKGPfx.graph.typeOf "SEGMENT:Foo" = some "Segment" := by
  exact ⟨by decide, by decide, by decide, by decide⟩

/-- C9 amended: under the colon-hygiene assumption (no entity value of the
dataset contains a colon — `cleanValsB`), every identifier of a
non-`Customer` identifier set that is not also an account name is NOT a node
id of the built graph, its `get_neighbors` is empty for every relationship
filter, and the graph instead holds the correspondingly PREFIXED node for the
identifier. -/
theorem c9_bare_index_not_node (df : List Row) (kg : KG)
    (hb : build_from_dataframe df = Except.ok kg)
    (hclean : cleanValsB df = true) (x : String)
    (hx : inNonCustomerIndex kg x) (hnc : x ∉ accountNames df) :
    ¬ kg.graph.hasNode x ∧ (∀ rel, get_neighbors kg.graph x rel = []) ∧
    (x ∈ get_entity_by_type kg "Segment" → kg.graph.hasNode ("SEGMENT:" ++ x)) ∧
    (x ∈ get_entity_by_type kg "ChurnReason" →
      kg.graph.hasNode ("REASON:" ++ x) ∨ kg.graph.hasNode ("SUBREASON:" ++ x)) ∧
    (x ∈ get_entity_by_type kg "Competitor" → kg.graph.hasNode ("COMPETITOR:" ++ x)) ∧
    (x ∈ get_entity_by_type kg "Product" → kg.graph.hasNode ("PRODUCT:" ++ x)) := by
  have hxe : x ∈ entityVals df := by
    rcases hx with h | h | h | h
    · exact segVals_sub_entityVals ((build_byType_segment hb x).1 h)
    · rcases (build_byType_churnReason hb x).1 h with hm | hm
      · exact primVals_sub_entityVals hm
      · exact subVals_sub_entityVals hm
    · rcases (build_byType_competitor hb x).1 h with hm | hm
      · exact compVals1_sub_entityVals hm
      · exact compVals2_sub_entityVals hm
    · exact prodVals_sub_entityVals ((build_byType_product hb x).1 h)
  have hcol : ':' ∉ x.data := cleanVals_no_colon hclean hxe
  have hnotnode : ¬ kg.graph.hasNode x := by
    intro hn
    rcases build_nodeIdsTame hb x hn with h | h
    · exact hnc h
    · exact hcol h
  refine ⟨hnotnode, ?_, ?_, ?_, ?_, ?_⟩
  · intro rel
    unfold get_neighbors
    rw [if_neg hnotnode]
  · intro h
    exact build_hasNode_segVal hb ((build_byType_segment hb x).1 h)
  · intro h
    rcases (build_byType_churnReason hb x).1 h with hm | hm
    · exact Or.inl (build_hasNode_primVal hb hm)
    · exact Or.inr (build_hasNode_subVal hb hm)
  · intro h
    rcases (build_byType_competitor hb x).1 h with hm | hm
    · exact build_hasNode_compVal1 hb hm
    · exact build_hasNode_compVal2 hb hm
  · intro h
    exact build_hasNode_prodVal hb ((build_byType_product hb x).1 h)

/-- Closed instantiation of `c9_bare_index_not_node`: the identifier
`Commercial` of the `Segment` index of `exKG`. -/
theorem c9_bare_index_not_node_witness :
    (build_from_dataframe exDF = Except.ok exKG ∧ cleanValsB exDF = true ∧
        inNonCustomerIndex exKG "Commercial" ∧ "Commercial" ∉ accountNames exDF) ∧
      (¬ exKG.graph.hasNode "Commercial" ∧
        (∀ rel, get_neighbors exKG.graph "Commercial" rel = []) ∧
        ("Commercial" ∈ get_entity_by_type exKG "Segment" →
          exKG.graph.hasNode ("SEGMENT:" ++ "Commercial")) ∧
        ("Commercial" ∈ get_entity_by_type exKG "ChurnReason" →
          exKG.graph.hasNode ("REASON:" ++ "Commercial") ∨
            exKG.graph.hasNode ("SUBREASON:" ++ "Commercial")) ∧
        ("Commercial" ∈ get_entity_by_type exKG "Competitor" →
          exKG.graph.hasNode ("COMPETITOR:" ++ "Commercial")) ∧
        ("Commercial" ∈ get_entity_by_type exKG "Product" →
          exKG.graph.hasNode ("PRODUCT:" ++ "Commercial"))) :=
  ⟨⟨rfl, by decide, Or.inl (by decide), by decide⟩,
    c9_bare_index_not_node exDF exKG rfl (by decide) "Commercial"
      (Or.inl (by decide)) (by decide)⟩

/-- A type key outside the five fixed ones always has an empty identifier
set. -/
theorem byType_not_five {ets : EntityTypes} {t : String}
    (ht : t ∉ (["Customer", "Segment", "ChurnReason", "Competitor", "Product"] : List String)) :
    ets.byType t = [] := by
  simp only [List.mem_cons, List.not_mem_nil, or_false, not_or] at ht
  obtain ⟨h1, h2, h3, h4, h5⟩ := ht
  unfold EntityTypes.byType
  rw [if_neg h1, if_neg h2, if_neg h3, if_neg h4, if_neg h5]

/-- The index-rebuilding scan of `load_graph`, characterised: after folding
over a node list, a type key's identifier set holds its previous members plus
the identifiers derived from the scanned nodes of that type (node id for
customers, `name` attribute defaulting to the id otherwise). -/
theorem load_fold_byType (t x : String)
    (ht : t ∈ (["Customer", "Segment", "ChurnReason", "Competitor", "Product"] : List String)) :
    ∀ (l : List (String × NodeData)) (ets : EntityTypes),
      (x ∈ (l.foldl (fun ets nd =>
          match nd.2.type with
          | some entity_type =>
            if entity_type ≠ "" ∧
                entity_type ∈
                  (["Customer", "Segment", "ChurnReason", "Competitor", "Product"] : List String) then
              if entity_type = "Customer" then ets.addByType entity_type nd.1
              else ets.addByType entity_type ((nd.2.name).getD nd.1)
            else ets
          | none => ets) ets).byType t ↔
        x ∈ ets.byType t ∨
          x ∈ l.filterMap (fun nd =>
            if nd.2.type = some t then
              some (if t = "Customer" then nd.1 else (nd.2.name).getD nd.1)
            else none)) := by
  intro l
  induction l with
  | nil =>
    intro ets
    simp
  | cons nd l ih =>
    intro ets
    rw [List.foldl_cons, List.filterMap_cons]
    rcases hty : nd.2.type with _ | et
    · dsimp only
      rw [ih ets]
      simp
    · dsimp only
      by_cases hc : et ≠ "" ∧
          et ∈ (["Customer", "Segment", "ChurnReason", "Competitor", "Product"] : List String)
      · rw [if_pos hc]
        by_cases het : et = t
        · rw [if_pos (congrArg some het)]
          dsimp only
          subst het
          by_cases hcust : et = "Customer"
          · rw [if_pos hcust, if_pos hcust, ih, mem_byType_addByType _ _ _ _ _ hc.2 ht]
            simp only [List.mem_cons]
            tauto
          · rw [if_neg hcust, if_neg hcust, ih, mem_byType_addByType _ _ _ _ _ hc.2 ht]
            simp only [List.mem_cons]
            tauto
        · rw [if_neg (fun hh => het (Option.some.inj hh))]
          dsimp only
          have hne : ¬ (t = et) := fun hh => het hh.symm
          by_cases hcust : et = "Customer"
          · rw [if_pos hcust, ih, mem_byType_addByType _ _ _ _ _ hc.2 ht]
            simp only [hne, false_and, or_false]
          · rw [if_neg hcust, ih, mem_byType_addByType _ _ _ _ _ hc.2 ht]
            simp only [hne, false_and, or_false]
      · rw [if_neg hc]
        have hnet : ¬ ((some et : Option String) = some t) := by
          intro hh
          have he := Option.some.inj hh
          subst he
          apply hc
          refine ⟨?_, ht⟩
          intro h0
          rw [h0] at ht
          exact absurd ht (by decide)
        rw [if_neg hnet]
        dsimp only
        exact ih ets

/-- C6: the pickle round-trip `save_graph` then `load_graph` into a fresh
instance restores the graph exactly — node count, edge count and every
query result (in particular `query_customers_by_segment` and
`get_churn_patterns` on every segment) are identical — and the
`entity_types` index is rebuilt by the node scan: for each of the five type
keys its identifier set is exactly the set derived from the loaded nodes'
`type` (and `name`) attributes. -/
theorem c6_save_load_roundtrip (kg : KG) :
    (load_graph ({} : KG) (save_graph kg)).graph = kg.graph ∧
    (load_graph ({} : KG) (save_graph kg)).graph.nodes.length = kg.graph.nodes.length ∧
    (load_graph ({} : KG) (save_graph kg)).graph.edges.length = kg.graph.edges.length ∧
    (∀ s, query_customers_by_segment (load_graph ({} : KG) (save_graph kg)).graph s =
      query_customers_by_segment kg.graph s) ∧
    (∀ s, get_churn_patterns (load_graph ({} : KG) (save_graph kg)).graph s =
      get_churn_patterns kg.graph s) ∧
    (∀ t x,
      t ∈ (["Customer", "Segment", "ChurnReason", "Competitor", "Product"] : List String) →
      (x ∈ (load_graph ({} : KG) (save_graph kg)).entity_types.byType t ↔
        x ∈ loadDerivedIds kg.graph t)) := by
  refine ⟨rfl, rfl, rfl, fun s => rfl, fun s => rfl, ?_⟩
  intro t x ht
  have h := load_fold_byType t x ht (save_graph kg).nodes ({} : EntityTypes)
  rw [byType_empty] at h
  simp only [List.not_mem_nil, false_or] at h
  exact h

/-- C10: `load_graph` only ever ADDS to the `entity_types` index — every
identifier present before the call is still present afterwards (so loading
into a previously-populated instance retains stale identifiers), the graph is
replaced by the payload, and for each of the five type keys the post-load
identifier set is exactly the union of the previous one and the sets derived
from the loaded nodes' `type`/`name` attributes. -/
theorem c10_load_graph_additive (kg : KG) (payload : Graph) :
    (∀ t x, x ∈ kg.entity_types.byType t →
      x ∈ (load_graph kg payload).entity_types.byType t) ∧
    (∀ t x,
      t ∈ (["Customer", "Segment", "ChurnReason", "Competitor", "Product"] : List String) →
      (x ∈ (load_graph kg payload).entity_types.byType t ↔
        x ∈ kg.entity_types.byType t ∨ x ∈ loadDerivedIds payload t)) ∧
    (load_graph kg payload).graph = payload := by
  refine ⟨?_, ?_, rfl⟩
  · intro t x hm
    by_cases ht : t ∈ (["Customer", "Segment", "ChurnReason", "Competitor",
        "Product"] : List String)
    · exact (load_fold_byType t x ht payload.nodes kg.entity_types).2 (Or.inl hm)
    · rw [byType_not_five ht] at hm
      exact absurd hm (List.not_mem_nil x)
  · intro t x ht
    exact load_fold_byType t x ht payload.nodes kg.entity_types

/-! ## Lemmas: `Counter` and `most_common` -/

/-- `any` over the counter entries tests key membership. -/
theorem anyFstIff (l : List (String × Nat)) (x : String) :
    l.any (fun p => p.1 = x) = true ↔ x ∈ l.map Prod.fst := by
  rw [List.any_eq_true]
  constructor
  · rintro ⟨p, hp, he⟩
    exact List.mem_map.2 ⟨p, hp, by simpa using he⟩
  · intro hm
    obtain ⟨p, hp, he⟩ := List.mem_map.1 hm
    exact ⟨p, hp, by simpa using he⟩

/-- Membership in a counter after bumping key `x`. -/
theorem mem_bump (acc : List (String × Nat)) (x c : String) (j : Nat) :
    ((c, j) ∈ acc.map (fun p => if p.1 = x then (p.1, p.2 + 1) else p)) ↔
      ((c = x ∧ ∃ j0, (x, j0) ∈ acc ∧ j = j0 + 1) ∨ (c ≠ x ∧ (c, j) ∈ acc)) := by
  rw [List.mem_map]
  constructor
  · rintro ⟨⟨a, b⟩, hp, he⟩
    by_cases hax : a = x
    · rw [if_pos hax] at he
      have h1 : a = c := congrArg Prod.fst he
      have h2 : b + 1 = j := congrArg Prod.snd he
      subst h1
      left
      refine ⟨hax.symm ▸ rfl, b, ?_, h2.symm⟩
      rwa [hax] at hp
    · rw [if_neg hax] at he
      have h1 : a = c := congrArg Prod.fst he
      have h2 : b = j := congrArg Prod.snd he
      subst h1
      subst h2
      exact Or.inr ⟨hax, hp⟩
  · rintro (⟨rfl, j0, hj0, rfl⟩ | ⟨hne, hm⟩)
    · exact ⟨(c, j0), hj0, by simp⟩
    · exact ⟨(c, j), hm, by simp [hne]⟩

/-- Bumping never changes the key column. -/
theorem keys_bump (acc : List (String × Nat)) (x : String) :
    (acc.map (fun p => if p.1 = x then (p.1, p.2 + 1) else p)).map Prod.fst =
      acc.map Prod.fst := by
  induction acc with
  | nil => rfl
  | cons p acc ih =>
    rw [List.map_cons, List.map_cons, List.map_cons, ih]
    congr 1
    by_cases hp : p.1 = x
    · rw [if_pos hp]
    · rw [if_neg hp]

/-- The `Counter` fold, characterised: an entry of the final counter is
either a pre-existing entry incremented by the occurrences in the scanned
list, or a fresh key of the scanned list with exactly its occurrence
count. -/
theorem counter_fold_mem : ∀ (l : List String) (acc : List (String × Nat)) (c : String) (k : Nat),
    ((c, k) ∈ l.foldl (fun acc x =>
        if acc.any (fun p => p.1 = x) then
          acc.map (fun p => if p.1 = x then (p.1, p.2 + 1) else p)
        else acc ++ [(x, 1)]) acc ↔
      (∃ k0, (c, k0) ∈ acc ∧ k = k0 + l.count c) ∨
        (c ∉ acc.map Prod.fst ∧ c ∈ l ∧ k = l.count c)) := by
  intro l
  induction l with
  | nil =>
    intro acc c k
    simp only [List.foldl_nil, List.count_nil, List.not_mem_nil, false_and, and_false, or_false,
      Nat.add_zero]
    constructor
    · intro hm
      exact ⟨k, hm, rfl⟩
    · rintro ⟨k0, hm, rfl⟩
      exact hm
  | cons x l ih =>
    intro acc c k
    rw [List.foldl_cons, ih]
    by_cases hx : acc.any (fun p => p.1 = x) = true
    · rw [if_pos hx, keys_bump]
      by_cases hcx : c = x
      · subst hcx
        constructor
        · rintro (⟨k0, hk0, rfl⟩ | ⟨hnk, _, _⟩)
          · rcases (mem_bump acc c c k0).1 hk0 with ⟨_, j0, hj0, rfl⟩ | ⟨hne, _⟩
            · left
              refine ⟨j0, hj0, ?_⟩
              rw [List.count_cons_self]
              omega
            · exact absurd rfl hne
          · exact absurd ((anyFstIff acc c).1 hx) hnk
        · rintro (⟨k0, hk0, rfl⟩ | ⟨hnk, _, _⟩)
          · left
            refine ⟨k0 + 1, (mem_bump acc c c (k0 + 1)).2 (Or.inl ⟨rfl, k0, hk0, rfl⟩), ?_⟩
            rw [List.count_cons_self]
            omega
          · exact absurd ((anyFstIff acc c).1 hx) hnk
      · have hcnt : (x :: l).count c = l.count c := by
          simp [List.count_cons, hcx]
        rw [hcnt]
        have hmb : ∀ j : Nat,
            ((c, j) ∈ acc.map (fun p => if p.1 = x then (p.1, p.2 + 1) else p)) ↔
              (c, j) ∈ acc := by
          intro j
          rw [mem_bump]
          constructor
          · rintro (⟨hcx2, _⟩ | ⟨_, hm⟩)
            · exact absurd hcx2 hcx
            · exact hm
          · intro hm
            exact Or.inr ⟨hcx, hm⟩
        have hmem : (c ∈ x :: l) ↔ c ∈ l := by
          rw [List.mem_cons]
          exact or_iff_right hcx
        rw [hmem]
        constructor
        · rintro (⟨k0, hk0, rfl⟩ | ⟨hnk, hcl, rfl⟩)
          · exact Or.inl ⟨k0, (hmb k0).1 hk0, rfl⟩
          · exact Or.inr ⟨hnk, hcl, rfl⟩
        · rintro (⟨k0, hk0, rfl⟩ | ⟨hnk, hcl, rfl⟩)
          · exact Or.inl ⟨k0, (hmb k0).2 hk0, rfl⟩
          · exact Or.inr ⟨hnk, hcl, rfl⟩
    · rw [if_neg hx]
      have hxk : x ∉ acc.map Prod.fst := fun hm => hx ((anyFstIff acc x).2 hm)
      by_cases hcx : c = x
      · subst hcx
        constructor
        · rintro (⟨k0, hk0, rfl⟩ | ⟨hnk, _, rfl⟩)
          · rcases List.mem_append.1 hk0 with hm | hm
            · exact absurd (List.mem_map.2 ⟨_, hm, rfl⟩) hxk
            · have he : ((c, k0) : String × Nat) = (c, 1) := List.mem_singleton.1 hm
              have hk1 : k0 = 1 := congrArg Prod.snd he
              subst hk1
              right
              refine ⟨hxk, List.mem_cons_self c l, ?_⟩
              rw [List.count_cons_self]
              omega
          · exfalso
            apply hnk
            rw [List.map_append]
            exact List.mem_append.2 (Or.inr (by simp))
        · rintro (⟨k0, hk0, rfl⟩ | ⟨hnk, _, rfl⟩)
          · exact absurd (List.mem_map.2 ⟨_, hk0, rfl⟩) hxk
          · left
            refine ⟨1, List.mem_append.2 (Or.inr (by simp)), ?_⟩
            rw [List.count_cons_self]
            omega
      · have hcnt : (x :: l).count c = l.count c := by
          simp [List.count_cons, hcx]
        rw [hcnt]
        have hmapp : ∀ j : Nat, ((c, j) ∈ acc ++ [(x, 1)]) ↔ (c, j) ∈ acc := by
          intro j
          rw [List.mem_append]
          constructor
          · rintro (hm | hm)
            · exact hm
            · have he : ((c, j) : String × Nat) = (x, 1) := List.mem_singleton.1 hm
              exact absurd (congrArg Prod.fst he) hcx
          · exact Or.inl
        have hkeys : (c ∈ (acc ++ [(x, 1)]).map Prod.fst) ↔ c ∈ acc.map Prod.fst := by
          rw [List.map_append, List.mem_append]
          constructor
          · rintro (hm | hm)
            · exact hm
            · simp only [List.map_cons, List.map_nil, List.mem_singleton] at hm
              exact absurd hm hcx
          · exact Or.inl
        have hmem : (c ∈ x :: l) ↔ c ∈ l := by
          rw [List.mem_cons]
          exact or_iff_right hcx
        rw [hmem]
        constructor
        · rintro (⟨k0, hk0, rfl⟩ | ⟨hnk, hcl, rfl⟩)
          · exact Or.inl ⟨k0, (hmapp k0).1 hk0, rfl⟩
          · exact Or.inr ⟨fun hm => hnk (hkeys.2 hm), hcl, rfl⟩
        · rintro (⟨k0, hk0, rfl⟩ | ⟨hnk, hcl, rfl⟩)
          · exact Or.inl ⟨k0, (hmapp k0).2 hk0, rfl⟩
          · exact Or.inr ⟨fun hm => hnk (hkeys.1 hm), hcl, rfl⟩

/-- A `Counter` built from a list holds exactly the list's elements with
their occurrence counts. -/
theorem counterList_mem (l : List String) (c : String) (k : Nat) :
    ((c, k) ∈ counterList l) ↔ c ∈ l ∧ k = l.count c := by
  unfold counterList
  rw [counter_fold_mem l [] c k]
  simp

/-- The `Counter` fold lists its keys exactly like `uniqueList` (first
occurrence first). -/
theorem counter_fold_keys : ∀ (l : List String) (acc : List (String × Nat)),
    (l.foldl (fun acc x =>
        if acc.any (fun p => p.1 = x) then
          acc.map (fun p => if p.1 = x then (p.1, p.2 + 1) else p)
        else acc ++ [(x, 1)]) acc).map Prod.fst =
      l.foldl (fun acc x => if x ∈ acc then acc else acc ++ [x]) (acc.map Prod.fst) := by
  intro l
  induction l with
  | nil =>
    intro acc
    rfl
  | cons x l ih =>
    intro acc
    rw [List.foldl_cons, List.foldl_cons, ih]
    congr 1
    by_cases hx : acc.any (fun p => p.1 = x) = true
    · rw [if_pos hx, if_pos ((anyFstIff acc x).1 hx), keys_bump]
    · rw [if_neg hx, if_neg (fun hm => hx ((anyFstIff acc x).2 hm)), List.map_append]
      rfl

/-- The counter's key column is `uniqueList`: keys in first-occurrence
order, duplicate-free. -/
theorem counterList_keys (l : List String) :
    (counterList l).map Prod.fst = uniqueList l := by
  unfold counterList uniqueList
  rw [counter_fold_keys l []]
  rfl

/-- `insertCountDesc` is a permutation of consing. -/
theorem insertCountDesc_perm (x : String × Nat) : ∀ ys,
    List.Perm (insertCountDesc x ys) (x :: ys) := by
  intro ys
  induction ys with
  | nil => exact List.Perm.refl _
  | cons y ys ih =>
    rw [show insertCountDesc x (y :: ys) =
      if y.2 < x.2 then x :: y :: ys else y :: insertCountDesc x ys from rfl]
    by_cases h : y.2 < x.2
    · rw [if_pos h]
    · rw [if_neg h]
      exact (List.Perm.cons y ih).trans (List.Perm.swap x y ys)

/-- The insertion sort of `most_common` permutes the counter. -/
theorem sort_fold_perm : ∀ (l acc : List (String × Nat)),
    List.Perm (l.foldl (fun acc x => insertCountDesc x acc) acc) (acc ++ l) := by
  intro l
  induction l with
  | nil =>
    intro acc
    simpa using List.Perm.refl acc
  | cons x l ih =>
    intro acc
    rw [List.foldl_cons]
    refine (ih (insertCountDesc x acc)).trans ?_
    refine (List.Perm.append_right l (insertCountDesc_perm x acc)).trans ?_
    exact List.perm_middle.symm

/-- `sortCountDesc` permutes its input. -/
theorem sortCountDesc_perm (l : List (String × Nat)) :
    List.Perm (sortCountDesc l) l := by
  unfold sortCountDesc
  simpa using sort_fold_perm l []

/-- Inserting into a count-descending list keeps it count-descending. -/
theorem insertCountDesc_sorted (x : String × Nat) : ∀ ys,
    List.Pairwise (fun a b => b.2 ≤ a.2) ys →
    List.Pairwise (fun a b => b.2 ≤ a.2) (insertCountDesc x ys) := by
  intro ys
  induction ys with
  | nil =>
    intro _
    exact List.pairwise_singleton ..
  | cons y ys ih =>
    intro hp
    rcases List.pairwise_cons.1 hp with ⟨hy, hys⟩
    rw [show insertCountDesc x (y :: ys) =
      if y.2 < x.2 then x :: y :: ys else y :: insertCountDesc x ys from rfl]
    by_cases h : y.2 < x.2
    · rw [if_pos h]
      refine List.pairwise_cons.2 ⟨?_, hp⟩
      intro z hz
      rcases List.mem_cons.1 hz with rfl | hz2
      · exact Nat.le_of_lt h
      · exact Nat.le_trans (hy z hz2) (Nat.le_of_lt h)
    · rw [if_neg h]
      refine List.pairwise_cons.2 ⟨?_, ih hys⟩
      intro z hz
      rcases List.mem_cons.1 ((insertCountDesc_perm x ys).mem_iff.1 hz) with rfl | hz2
      · exact Nat.le_of_not_lt h
      · exact hy z hz2

/-- `sortCountDesc` really sorts by count descending. -/
theorem sortCountDesc_sorted (l : List (String × Nat)) :
    List.Pairwise (fun a b => b.2 ≤ a.2) (sortCountDesc l) := by
  have key : ∀ (l' acc : List (String × Nat)),
      List.Pairwise (fun a b => b.2 ≤ a.2) acc →
      List.Pairwise (fun a b => b.2 ≤ a.2)
        (l'.foldl (fun acc x => insertCountDesc x acc) acc) := by
    intro l'
    induction l' with
    | nil =>
      intro acc h
      exact h
    | cons x l' ih =>
      intro acc h
      exact ih _ (insertCountDesc_sorted x acc h)
  unfold sortCountDesc
  exact key l [] List.Pairwise.nil

/-- Stability of the insertion at one count value: a new entry goes AFTER
all existing entries of its count. -/
theorem insertCountDesc_filter (x : String × Nat) (k : Nat) : ∀ ys,
    List.Pairwise (fun a b => b.2 ≤ a.2) ys →
    (insertCountDesc x ys).filter (fun p => p.2 = k) =
      if x.2 = k then ys.filter (fun p => p.2 = k) ++ [x]
      else ys.filter (fun p => p.2 = k) := by
  intro ys
  induction ys with
  | nil =>
    intro _
    by_cases hx : x.2 = k
    · rw [if_pos hx]
      simp [insertCountDesc, hx]
    · rw [if_neg hx]
      simp [insertCountDesc, hx]
  | cons y ys ih =>
    intro hp
    rcases List.pairwise_cons.1 hp with ⟨hy, hys⟩
    rw [show insertCountDesc x (y :: ys) =
      if y.2 < x.2 then x :: y :: ys else y :: insertCountDesc x ys from rfl]
    by_cases h : y.2 < x.2
    · rw [if_pos h]
      by_cases hx : x.2 = k
      · rw [if_pos hx]
        have hnil : (y :: ys).filter (fun p => p.2 = k) = [] := by
          rw [List.filter_eq_nil_iff]
          intro a ha
          rcases List.mem_cons.1 ha with rfl | ha2
          · simp only [decide_eq_true_eq]
            omega
          · have h2 := hy a ha2
            simp only [decide_eq_true_eq]
            omega
        rw [List.filter_cons_of_pos (by simp [hx]), hnil]
        rfl
      · rw [if_neg hx]
        rw [List.filter_cons_of_neg (by simp [hx])]
    · rw [if_neg h]
      by_cases hyk : y.2 = k
      · rw [List.filter_cons_of_pos (by simp [hyk]), List.filter_cons_of_pos (by simp [hyk]),
          ih hys]
        by_cases hx : x.2 = k
        · rw [if_pos hx, if_pos hx]
          rfl
        · rw [if_neg hx, if_neg hx]
      · rw [List.filter_cons_of_neg (by simp [hyk]), List.filter_cons_of_neg (by simp [hyk]),
          ih hys]

/-- Stability of the whole sort: within one count value the sorted order is
the counter's (first-encounter) order. -/
theorem sortCountDesc_filter (l : List (String × Nat)) (k : Nat) :
    (sortCountDesc l).filter (fun p => p.2 = k) = l.filter (fun p => p.2 = k) := by
  have key : ∀ (l' acc : List (String × Nat)),
      List.Pairwise (fun a b => b.2 ≤ a.2) acc →
      (l'.foldl (fun acc x => insertCountDesc x acc) acc).filter (fun p => p.2 = k) =
        acc.filter (fun p => p.2 = k) ++ l'.filter (fun p => p.2 = k) := by
    intro l'
    induction l' with
    | nil =>
      intro acc _
      simp
    | cons x l' ih =>
      intro acc hs
      rw [List.foldl_cons, ih _ (insertCountDesc_sorted x acc hs),
        insertCountDesc_filter x k acc hs]
      by_cases hx : x.2 = k
      · rw [if_pos hx, List.filter_cons_of_pos (by simp [hx]), List.append_assoc]
        rfl
      · rw [if_neg hx, List.filter_cons_of_neg (by simp [hx])]
  unfold sortCountDesc
  rw [key l [] List.Pairwise.nil]
  rfl

/-- Everything `most_common (counterList l) n` guarantees: at most `n`
entries; counts descending; every entry is an element of `l` with its exact
occurrence count; keys pairwise distinct; every element of `l` left out has
a count no larger than any listed entry's; and within one count value the
listed order is the first-encounter order (the result's slice at each count
is a prefix of the counter's). -/
theorem most_common_spec (l : List String) (n : Nat) :
    (most_common (counterList l) n).length ≤ n ∧
    List.Pairwise (fun a b => b.2 ≤ a.2) (most_common (counterList l) n) ∧
    (∀ c k, (c, k) ∈ most_common (counterList l) n → c ∈ l ∧ k = l.count c) ∧
    ((most_common (counterList l) n).map Prod.fst).Nodup ∧
    (∀ c, c ∈ l → c ∉ (most_common (counterList l) n).map Prod.fst →
      ∀ p ∈ most_common (counterList l) n, l.count c ≤ p.2) ∧
    (∀ k, List.IsPrefix
      ((most_common (counterList l) n).filter (fun p => p.2 = k))
      ((counterList l).filter (fun p => p.2 = k))) := by
  have hsorted := sortCountDesc_sorted (counterList l)
  have hperm := sortCountDesc_perm (counterList l)
  refine ⟨?_, ?_, ?_, ?_, ?_, ?_⟩
  · exact List.length_take_le n _
  · exact List.Pairwise.sublist (List.take_sublist n _) hsorted
  · intro c k hm
    exact (counterList_mem l c k).1 (hperm.mem_iff.1 (List.take_subset n _ hm))
  · have h1 : ((counterList l).map Prod.fst).Nodup := by
      rw [counterList_keys]
      exact nodup_uniqueList l
    have h2 : ((sortCountDesc (counterList l)).map Prod.fst).Nodup :=
      (hperm.map Prod.fst).nodup_iff.2 h1
    exact List.Nodup.sublist (List.Sublist.map _ (List.take_sublist n _)) h2
  · intro c hc hnk p hp
    have hmem : (c, l.count c) ∈ sortCountDesc (counterList l) :=
      hperm.mem_iff.2 ((counterList_mem l c (l.count c)).2 ⟨hc, rfl⟩)
    have hsplit : sortCountDesc (counterList l) =
        (sortCountDesc (counterList l)).take n ++ (sortCountDesc (counterList l)).drop n :=
      (List.take_append_drop n _).symm
    have hdrop : (c, l.count c) ∈ (sortCountDesc (counterList l)).drop n := by
      rcases List.mem_append.1 (hsplit ▸ hmem) with hm | hm
      · exact absurd (List.mem_map.2 ⟨_, hm, rfl⟩) hnk
      · exact hm
    have hpa := hsplit ▸ hsorted
    exact (List.pairwise_append.1 hpa).2.2 p hp (c, l.count c) hdrop
  · intro k
    have hpref := List.IsPrefix.filter (fun p => decide (p.2 = k))
      (List.take_prefix n (sortCountDesc (counterList l)))
    rw [sortCountDesc_filter] at hpref
    exact hpref

/-- C4, as stated, is false: the reason walk traverses every
`CHURNED_DUE_TO` out-edge but only COUNTS targets carrying the `REASON:`
prefix — a sub-reason edge (target `SUBREASON:...`) is traversed and then
dropped by the `startswith('REASON:')` filter.  In `exDFSub` the only
customer of segment `Niche` has exactly one `CHURNED_DUE_TO` out-edge, to
`SUBREASON:Latency`, yet its `top_reasons` is empty. -/
theorem c4_counterexample :
    (get_churn_patterns exKGSub.graph "Niche").map (fun rec => rec.top_reasons) = some [] ∧
      (get_neighbors exKGSub.graph "SubOnly" (some "CHURNED_DUE_TO")).map Prod.fst =
        ["SUBREASON:Latency"] ∧
      (get_churn_patterns exKGSub.graph "Niche").map (fun rec => rec.customer_count) =
        some 1 := by
  exact ⟨by decide, by decide, by decide⟩

/-- C4 amended: for every segment with at least one customer, `top_reasons`
is the top-5 of the occurrence counter over the walk that visits, for each
customer of the segment, its `CHURNED_DUE_TO` out-edges and keeps ONLY the
`REASON:`-prefixed (primary-reason) targets — sub-reason edges are dropped —
and `top_competitors` likewise counts the `COMPETITOR:`-prefixed targets of
`SWITCHED_TO` out-edges.  The top-5 is by count descending (at most five
entries, one per distinct name, each carrying its exact occurrence count,
every omitted name counting no more than any listed entry), with ties broken
by first-encountered order (the result's slice at each count value is a
prefix of the counter's first-encounter order). -/
theorem c4_top5_by_count (g : Graph) (s : String) (rec : PatternsRecord)
    (hrec : get_churn_patterns g s = some rec) :
    rec.top_reasons = most_common (counterList (walkPrimaryReasons g s)) 5 ∧
    rec.top_competitors = most_common (counterList (walkCompetitors g s)) 5 ∧
    rec.top_reasons.length ≤ 5 ∧ rec.top_competitors.length ≤ 5 ∧
    List.Pairwise (fun a b => b.2 ≤ a.2) rec.top_reasons ∧
    List.Pairwise (fun a b => b.2 ≤ a.2) rec.top_competitors ∧
    (∀ c k, (c, k) ∈ rec.top_reasons →
      c ∈ walkPrimaryReasons g s ∧ k = (walkPrimaryReasons g s).count c) ∧
    (∀ c k, (c, k) ∈ rec.top_competitors →
      c ∈ walkCompetitors g s ∧ k = (walkCompetitors g s).count c) ∧
    (rec.top_reasons.map Prod.fst).Nodup ∧
    (rec.top_competitors.map Prod.fst).Nodup ∧
    (∀ c, c ∈ walkPrimaryReasons g s → c ∉ rec.top_reasons.map Prod.fst →
      ∀ p ∈ rec.top_reasons, (walkPrimaryReasons g s).count c ≤ p.2) ∧
    (∀ c, c ∈ walkCompetitors g s → c ∉ rec.top_competitors.map Prod.fst →
      ∀ p ∈ rec.top_competitors, (walkCompetitors g s).count c ≤ p.2) ∧
    (∀ k, List.IsPrefix (rec.top_reasons.filter (fun p => p.2 = k))
      ((counterList (walkPrimaryReasons g s)).filter (fun p => p.2 = k))) ∧
    (∀ k, List.IsPrefix (rec.top_competitors.filter (fun p => p.2 = k))
      ((counterList (walkCompetitors g s)).filter (fun p => p.2 = k))) := by
  unfold get_churn_patterns at hrec
  dsimp only at hrec
  by_cases h : (query_customers_by_segment g s).isEmpty = true
  · rw [if_pos h] at hrec
    cases hrec
  · rw [if_neg h] at hrec
    cases hrec
    obtain ⟨p1, p2, p3, p4, p5, p6⟩ := most_common_spec (walkPrimaryReasons g s) 5
    obtain ⟨q1, q2, q3, q4, q5, q6⟩ := most_common_spec (walkCompetitors g s) 5
    exact ⟨rfl, rfl, p1, q1, p2, q2, p3, q3, p4, q4, p5, q5, p6, q6⟩

/-- Closed instantiation of `c4_top5_by_count`: segment `Commercial` of the
example graph and its aggregate record `exRec`. -/
theorem c4_top5_by_count_witness :
    get_churn_patterns exKG.graph "Commercial" = some exRec ∧
      exRec.top_reasons = most_common (counterList (walkPrimaryReasons exKG.graph "Commercial")) 5 ∧
      exRec.top_competitors =
        most_common (counterList (walkCompetitors exKG.graph "Commercial")) 5 ∧
      exRec.top_reasons.length ≤ 5 :=
  ⟨rfl, (c4_top5_by_count exKG.graph "Commercial" exRec rfl).1,
    (c4_top5_by_count exKG.graph "Commercial" exRec rfl).2.1,
    (c4_top5_by_count exKG.graph "Commercial" exRec rfl).2.2.1⟩
